import Mathlib

/-!
# Verification of the MVP Builder plugin

A shallow embedding of the MVP Builder OpenCode plugin
(`src/plugin/mvp-builder.ts`, plus the two alternative plugin designs in
`src/unnamed/part_004`), together with theorems settling the frozen claims
about its specification.

Conventions of the embedding:

* JavaScript strings are Lean `String`s; the character-scanning primitives
  of the regular expressions used by the plugin are implemented on
  `List Char` (`String.data`).
* JavaScript `number` values that the plugin stores in its state record are
  integers or `NaN` (they are produced by `parseInt`, integer literals and
  `++`); they are embedded as `Option Int` with `none` standing for `NaN`.
* File-system, git and session access is embedded as an explicit
  environment record (`Env`), so that every function of the plugin becomes
  a pure function of its state and that environment.
-/

namespace MvpBuilder

/-! ## JavaScript string primitives -/

/-- The whitespace characters recognised by JavaScript's `\s`, `trim` and
`parseInt` (the ASCII ones plus NBSP, BOM and the Unicode space separators). -/
def jsWhitespaceChars : List Char :=
  ['\x20', '\t', '\n', '\r', '\x0b', '\x0c', '\u00A0', '\uFEFF', '\u1680', '\u2000', '\u2001', '\u2002', '\u2003', '\u2004', '\u2005', '\u2006', '\u2007', '\u2008', '\u2009', '\u200A', '\u2028', '\u2029', '\u202F', '\u205F', '\u3000']

def isJsWhitespace (c : Char) : Bool := jsWhitespaceChars.contains c

/-- JavaScript line terminators (`\n`, `\r`, U+2028, U+2029): the characters
excluded by `.` and honoured by the `m` flag. -/
def isLineTerm (c : Char) : Bool :=
  c = '\n' || c = '\r' || c = '\u2028' || c = '\u2029'

/-- `String.prototype.trim` on a character list. -/
def jsTrimChars (l : List Char) : List Char :=
  (l.dropWhile isJsWhitespace).reverse.dropWhile isJsWhitespace |>.reverse

/-- Does `pat` occur at the very beginning of `s`? (regex literal match) -/
def leadsWith : List Char → List Char → Bool
  | [], _ => true
  | _ :: _, [] => false
  | p :: ps, c :: cs => p == c && leadsWith ps cs

/-! ## Completion detection

Embedding of the regular expression `/<promise>([\s\S]*?)<\/promise>/`
used by `hasPromise` (mvp-builder.ts) and `checkCompletionPromise`
(part_004).  The JS engine finds the leftmost `<promise>` that is followed
by a `</promise>`, and the lazy quantifier makes the capture end at the
first `</promise>` after it. -/

def openTag : List Char := "<promise>".data

def closeTag : List Char := "</promise>".data

/-- The lazy capture: content up to the first occurrence of `</promise>`. -/
def takeUntilClose : List Char → Option (List Char)
  | [] => none
  | c :: rest =>
    if leadsWith closeTag (c :: rest) then some []
    else (takeUntilClose rest).map (c :: ·)

/-- The full regex: content of the first well-formed
`<promise>...</promise>` delimiter, if any. -/
def extractFirstPromise : List Char → Option (List Char)
  | [] => none
  | c :: rest =>
    if leadsWith openTag (c :: rest) then takeUntilClose ((c :: rest).drop 9)
    else extractFirstPromise rest

/-- `hasPromise` from `src/plugin/mvp-builder.ts` (lines 903-906):
```js
const hasPromise = (promise: string) => {
  const match = textContent.match(/<promise>([\s\S]*?)<\/promise>/)
  return match && match[1].trim() === promise
}
``` -/
def hasPromise (textContent promise : String) : Bool :=
  match extractFirstPromise textContent.data with
  | some captured => jsTrimChars captured == promise.data
  | none => false

/-- `checkCompletionPromise` from `src/unnamed/part_004` (lines 469-473):
```js
function checkCompletionPromise(text: string, promise: string): boolean {
  const promiseMatch = text.match(/<promise>([\s\S]*?)<\/promise>/)
  if (!promiseMatch) return false
  return promiseMatch[1].trim() === promise
}
``` -/
def checkCompletionPromise (text promise : String) : Bool :=
  match extractFirstPromise text.data with
  | some captured => jsTrimChars captured == promise.data
  | none => false

/-! ### Declarative characterisation of the first promise delimiter -/

/-- `tagAt pat t i`: the literal `pat` occurs in `t` starting at index `i`. -/
def tagAt (pat t : List Char) (i : Nat) : Prop :=
  leadsWith pat (t.drop i) = true

instance (pat t : List Char) (i : Nat) : Decidable (tagAt pat t i) := by
  unfold tagAt; infer_instance

/-- `firstPromiseContent t c`: `c` is the content of the first well-formed
`<promise>...</promise>` delimiter of `t` — the open tag at the leftmost
position `i` that any open tag occurs at, the close tag at the first
position `j ≥ i + 9` that any close tag occurs at, and `c` the characters
strictly between them. -/
def firstPromiseContent (t c : List Char) : Prop :=
  ∃ i j, tagAt openTag t i ∧ (∀ i' < i, ¬ tagAt openTag t i') ∧
    i + 9 ≤ j ∧ tagAt closeTag t j ∧
    (∀ j', i + 9 ≤ j' → j' < j → ¬ tagAt closeTag t j') ∧
    c = (t.drop (i + 9)).take (j - (i + 9))

/-! ## Story-queue selection (the `prd.json` based plugin in part_004) -/

/-- `UserStory` from `src/unnamed/part_004` (lines 858-866). -/
structure UserStory where
  id : String
  title : String
  description : String
  acceptanceCriteria : List String
  priority : Int
  passes : Bool
  notes : String
deriving DecidableEq, Repr

/-- `PRDData` from `src/unnamed/part_004` (lines 851-856). -/
structure PRDData where
  project : String
  branchName : String
  description : String
  userStories : List UserStory
deriving DecidableEq, Repr

/-- The comparator `(a, b) => a.priority - b.priority` passed to
`Array.prototype.sort`: ascending by `priority`.  `Array.prototype.sort`
is a stable sort (ECMA-262), embedded as `List.mergeSort`. -/
def storyLe (a b : UserStory) : Bool := a.priority ≤ b.priority

/-- `getNextStory` from `src/unnamed/part_004` (lines 953-959):
```js
const pending = prd.userStories.filter(s => !s.passes)
  .sort((a, b) => a.priority - b.priority)
return pending[0] || null
``` -/
def getNextStory (prd : PRDData) : Option UserStory :=
  ((prd.userStories.filter (fun s => !s.passes)).mergeSort storyLe).head?

/-- `allStoriesPassing` from `src/unnamed/part_004` (lines 961-963). -/
def allStoriesPassing (prd : PRDData) : Bool :=
  prd.userStories.all (fun s => s.passes)

/-- Spec-side selection policy, written from the specification text: the
first (in declared order) not-yet-passing story whose priority is minimal
among the not-yet-passing stories. -/
def specSelectNext (prd : PRDData) : Option UserStory :=
  let pending := prd.userStories.filter (fun s => !s.passes)
  pending.find? (fun s => pending.all (fun u => s.priority ≤ u.priority))

/-- **C1-example stories** used by the spec's selector-determinism property. -/
def exampleStories : List UserStory :=
  [{ id := "A", title := "", description := "", acceptanceCriteria := [],
     priority := 2, passes := false, notes := "" },
   { id := "B", title := "", description := "", acceptanceCriteria := [],
     priority := 1, passes := false, notes := "" },
   { id := "C", title := "", description := "", acceptanceCriteria := [],
     priority := 1, passes := true, notes := "" }]

def examplePRD : PRDData :=
  { project := "P", branchName := "b", description := "d", userStories := exampleStories }


/-! ## JavaScript number embedding

The plugin's persisted counters are produced by `parseInt`, integer
literals and `++`, so at runtime they are IEEE doubles holding integers —
or `NaN` when a state file holds a non-numeric value.  They are embedded
as `Option Int`, `none` standing for `NaN`. -/

def jsAdd1 : Option Int → Option Int := Option.map (· + 1)

/-- `a >= b` (false when either side is NaN). -/
def jsGeB : Option Int → Option Int → Bool
  | some a, some b => a ≥ b
  | _, _ => false

/-- `a < b` (false when either side is NaN). -/
def jsLtB : Option Int → Option Int → Bool
  | some a, some b => a < b
  | _, _ => false

/-- `Math.floor(a / n)` for integral `a` (NaN propagates). -/
def jsFloorDiv : Option Int → Int → Option Int
  | some a, n => some (Int.fdiv a n)
  | none, _ => none

/-- `a % n`: JavaScript remainder truncates towards zero (NaN propagates). -/
def jsRem : Option Int → Int → Option Int
  | some a, n => some (Int.tmod a n)
  | none, _ => none

/-- Decimal digit characters of a natural number, most significant first,
accumulator style (`fuel ≥ n` always suffices). -/
def natToDigitsAux : Nat → Nat → List Char → List Char
  | 0, _, acc => acc
  | _ + 1, 0, acc => acc
  | fuel + 1, n + 1, acc =>
    natToDigitsAux fuel ((n + 1) / 10) (Char.ofNat (48 + (n + 1) % 10) :: acc)

/-- Decimal digits of a natural number, most significant first. -/
def natToDigits (n : Nat) : List Char :=
  if n = 0 then ['0'] else natToDigitsAux n n []

/-- Template-literal stringification `${n}` of an integral JS number. -/
def jsNumToString : Option Int → String
  | some n => if n < 0 then String.mk ('-' :: natToDigits n.natAbs)
              else String.mk (natToDigits n.natAbs)
  | none => "NaN"

def digitsToNat (l : List Char) : Nat :=
  l.foldl (fun acc c => acc * 10 + (c.toNat - 48)) 0

/-- `parseInt(s, 10)`: skip leading whitespace, optional sign, then the
longest digit prefix; `none` (NaN) if there is no digit. -/
def jsParseInt (s : String) : Option Int :=
  let t := s.data.dropWhile isJsWhitespace
  let signNeg : Bool := match t with
    | c :: _ => c = '-'
    | [] => false
  let t2 : List Char := match t with
    | c :: rest => if c = '-' ∨ c = '+' then rest else t
    | [] => []
  let ds := t2.takeWhile Char.isDigit
  if ds = [] then none
  else if signNeg then some (-(digitsToNat ds : Int))
  else some (digitsToNat ds)

/-- `${b}` for a boolean. -/
def boolToString (b : Bool) : String := if b then "true" else "false"

/-- `v || d` for a possibly-missing string (both `null` and `""` are falsy). -/
def jsOrElseStr (v : Option String) (d : String) : String :=
  match v with
  | some s => if s = "" then d else s
  | none => d

/-- `arr[i]` for an integral (or NaN) index: `undefined` out of bounds. -/
def jsIndex {α : Type} (l : List α) : Option Int → Option α
  | some i => if h : 0 ≤ i ∧ i.toNat < l.length then some (l.get ⟨i.toNat, h.2⟩) else none
  | none => none

/-! ## JSON (`JSON.stringify` / `JSON.parse` on string arrays)

The plugin serialises `reference_docs` with `JSON.stringify` on a string
array and reads it back with `JSON.parse`.  The model below implements the
JSON string-array grammar; JSON values of any other shape make
`jsonParseStringList` return `none`, which the callers treat like the
`catch` branch of the source.  (Lone surrogate escapes, which
`JSON.stringify` never produces for the values at hand, are rejected.) -/

def hexDigitChar (n : Nat) : Char :=
  if n < 10 then Char.ofNat (48 + n) else Char.ofNat (87 + n)

def hexVal (c : Char) : Option Nat :=
  if '0' ≤ c ∧ c ≤ '9' then some (c.toNat - 48)
  else if 'a' ≤ c ∧ c ≤ 'f' then some (c.toNat - 87)
  else if 'A' ≤ c ∧ c ≤ 'F' then some (c.toNat - 55)
  else none

def jsonEscapeChar (c : Char) : List Char :=
  if c = '"' then ['\\', '"']
  else if c = '\\' then ['\\', '\\']
  else if c = '\x08' then ['\\', 'b']
  else if c = '\x0c' then ['\\', 'f']
  else if c = '\n' then ['\\', 'n']
  else if c = '\r' then ['\\', 'r']
  else if c = '\t' then ['\\', 't']
  else if c.toNat < 0x20 then
    ['\\', 'u', '0', '0', hexDigitChar (c.toNat / 16), hexDigitChar (c.toNat % 16)]
  else [c]

def jsonStringifyString (s : String) : String :=
  "\"" ++ String.mk (s.data.flatMap jsonEscapeChar) ++ "\""

/-- `Array.prototype.join(sep)`. -/
def jsJoin (sep : String) : List String → String
  | [] => ""
  | [x] => x
  | x :: rest => x ++ sep ++ jsJoin sep rest

/-- `JSON.stringify` of a string array (no added whitespace). -/
def jsonStringifyList (l : List String) : String :=
  "[" ++ jsJoin "," (l.map jsonStringifyString) ++ "]"

def isJsonWs (c : Char) : Bool := c = ' ' || c = '\t' || c = '\n' || c = '\r'

def jsonUnescapeChar (e : Char) : Option Char :=
  if e = '"' then some '"'
  else if e = '\\' then some '\\'
  else if e = '/' then some '/'
  else if e = 'b' then some '\x08'
  else if e = 'f' then some '\x0c'
  else if e = 'n' then some '\n'
  else if e = 'r' then some '\r'
  else if e = 't' then some '\t'
  else none

/-- Body of a JSON string after the opening quote; returns the decoded
characters and the input after the closing quote. -/
def parseStringBody : List Char → Option (List Char × List Char)
  | [] => none
  | c :: rest =>
    if c = '"' then some ([], rest)
    else if c = '\\' then
      match rest with
      | [] => none
      | e :: rest2 =>
        if e = 'u' then
          match rest2 with
          | h1 :: h2 :: h3 :: h4 :: rest3 =>
            match hexVal h1, hexVal h2, hexVal h3, hexVal h4 with
            | some a, some b, some c2, some d =>
              let n := ((a * 16 + b) * 16 + c2) * 16 + d
              if h : n.isValidChar then
                (parseStringBody rest3).map (fun pr => (Char.ofNatAux n h :: pr.1, pr.2))
              else none
            | _, _, _, _ => none
          | _ => none
        else
          match jsonUnescapeChar e with
          | some d => (parseStringBody rest2).map (fun pr => (d :: pr.1, pr.2))
          | none => none
    else if c.toNat < 0x20 then none
    else (parseStringBody rest).map (fun pr => (c :: pr.1, pr.2))

/-- Elements of a JSON string array after the opening `[` (at least one). -/
def parseElemsAux : Nat → List Char → Option (List String × List Char)
  | 0, _ => none
  | fuel + 1, s =>
    match s.dropWhile isJsonWs with
    | c :: rest =>
      if c = '"' then
        match parseStringBody rest with
        | some (chars, rest2) =>
          match rest2.dropWhile isJsonWs with
          | d :: rest3 =>
            if d = ',' then
              (parseElemsAux fuel rest3).map (fun pr => (String.mk chars :: pr.1, pr.2))
            else if d = ']' then some ([String.mk chars], rest3)
            else none
          | [] => none
        | none => none
      else none
    | [] => none

/-- `JSON.parse` restricted to arrays of strings. -/
def jsonParseStringList (v : String) : Option (List String) :=
  match v.data.dropWhile isJsonWs with
  | c :: rest =>
    if c = '[' then
      match rest.dropWhile isJsonWs with
      | d :: rest2 =>
        if d = ']' then
          if rest2.dropWhile isJsonWs = [] then some [] else none
        else
          match parseElemsAux (rest.length + 1) rest with
          | some (l, rest3) => if rest3.dropWhile isJsonWs = [] then some l else none
          | none => none
      | [] => none
    else none
  | [] => none

/-! ## The persistent state record (`mvp-builder.ts`) -/

/-- `PromptInfo.status` (`"pending" | "in_progress" | "completed" | "skipped"`). -/
inductive PStatus where
  | pending
  | in_progress
  | completed
  | skipped
deriving DecidableEq, Repr

/-- `PromptInfo` from `src/plugin/mvp-builder.ts`. -/
structure PromptInfo where
  filename : String
  title : String
  status : PStatus
deriving DecidableEq, Repr

/-- `MVPBuilderState` from `src/plugin/mvp-builder.ts`.  `phase` is kept as
a string because `parseState` casts the raw value without validation, so
unknown phase names flow through to the `default` branches. -/
structure MVPBuilderState where
  active : Bool
  phase : String
  currentPromptIndex : Option Int
  totalPrompts : Option Int
  promptSequence : List PromptInfo
  startedAt : String
  lastCommit : Option String
  instructionsPath : String
  referenceDocs : List String
  maxIterations : Option Int
  currentIteration : Option Int
deriving DecidableEq, Repr

/-- The checkbox character used by `writeState`:
`p.status === "completed" ? "x" : p.status === "in_progress" ? "/" : " "`. -/
def statusChar : PStatus → String
  | PStatus.completed => "x"
  | PStatus.in_progress => "/"
  | _ => " "

/-! ## The environment

All effects of the plugin (file system, directory listings, git, the
session API, the clock) are captured in one record, making every plugin
function a pure function of its arguments and this environment. -/

structure Env where
  /-- the workspace directory handed to the plugin -/
  directory : String
  /-- `readFileSync` (`none` = `existsSync` is false) -/
  files : String → Option String
  /-- `readdirSync` (`none` = directory does not exist) -/
  dirListing : String → Option (List String)
  /-- `execSync("git log --oneline -n ⟨n⟩")` output (`none` = it threw) -/
  gitLogRaw : Nat → Option String
  /-- result of a `gitCommit` attempt: the short hash, or `none` on failure -/
  gitCommitHash : Option String
  /-- `none` = `client.session.get` threw; `some none` = no assistant
  message; `some (some t)` = the last assistant message's text content -/
  session : Option (Option String)
  /-- string rendering of the error caught by the `catch` block -/
  errText : String
  /-- `Date.now()` in milliseconds -/
  now : Int
  /-- `new Date(s).getTime()` (`none` = Invalid Date, i.e. NaN) -/
  dateParse : String → Option Int
  /-- `new Date().toISOString()` -/
  nowIso : String

/-- `path.join` for the simple relative segments the plugin uses. -/
def pathJoin (a b : String) : String := a ++ "/" ++ b

/-- `loadFileContent` from `src/plugin/mvp-builder.ts` (lines 472-477). -/
def loadFileContent (env : Env) (filePath : String) : String :=
  (env.files filePath).getD ""

/-- `getRecentCommits` from `src/plugin/mvp-builder.ts` (lines 457-466). -/
def getRecentCommits (env : Env) (count : Nat) : String :=
  match env.gitLogRaw count with
  | some out =>
    let t := String.mk (jsTrimChars out.data)
    if t = "" then "No commits yet." else t
  | none => "Git not initialized or no commits."

/-- `loadReferenceDocs` from `src/plugin/mvp-builder.ts` (lines 479-494). -/
def loadReferenceDocs (env : Env) (docPaths : List String) : String :=
  if docPaths.length = 0 then ""
  else
    "\n\n---\n\n## \uF8FFüìö REFERENCE DOCUMENTATION\n\n"
    ++ "Use the following documentation as reference for implementations:\n\n"
    ++ String.join (docPaths.map (fun docPath =>
        match env.files (pathJoin env.directory docPath) with
        | some docContent => "### \uF8FFüìÑ " ++ docPath ++ "\n\n" ++ docContent ++ "\n\n---\n\n"
        | none => ""))


/-! ## Frontmatter parsing (`parseState`)

Embedding of `content.match(/^---\r?\n([\s\S]*?)\r?\n---\r?\n([\s\S]*)$/)`:
the anchored header `---` plus newline, then the lazy group up to the first
`\r?\n---\r?\n` separator, then the rest. -/

/-- Match `\r?\n` at the head, returning the remainder. -/
def newlineAfter : List Char → Option (List Char)
  | [] => none
  | c :: rest =>
    if c = '\r' then
      match rest with
      | c2 :: rest2 => if c2 = '\n' then some rest2 else none
      | [] => none
    else if c = '\n' then some rest
    else none

/-- Match `\r?\n---\r?\n` at the head, returning the remainder. -/
def sepMatch (s : List Char) : Option (List Char) :=
  match newlineAfter s with
  | some s1 =>
    match s1 with
    | a :: b :: c :: s2 =>
      if a = '-' ∧ b = '-' ∧ c = '-' then newlineAfter s2 else none
    | _ => none
  | none => none

/-- Find the first `\r?\n---\r?\n` separator (the lazy `[\s\S]*?`): returns
the characters before it and the characters after it. -/
def scanSep : List Char → Option (List Char × List Char)
  | [] => none
  | c :: tail =>
    match sepMatch (c :: tail) with
    | some rest => some ([], rest)
    | none => (scanSep tail).map (fun pr => (c :: pr.1, pr.2))

/-- The full anchored frontmatter regex of `mvp-builder.ts`'s `parseState`:
`some (frontmatter, body)` on success. -/
def frontmatterSplit : List Char → Option (List Char × List Char)
  | a :: b :: c :: rest =>
    if a = '-' ∧ b = '-' ∧ c = '-' then
      match newlineAfter rest with
      | some afterHeader => scanSep afterHeader
      | none => none
    else none
  | _ => none

/-! ### `getValue`: the per-key regex `new RegExp("^key:\\s*(.*)$", "m")` -/

/-- After `key:` has matched: greedy `\s*` (which may cross line breaks),
then the `(.*)` capture up to the next line terminator. -/
def extractAfterKey (s : List Char) : List Char :=
  (s.dropWhile isJsWhitespace).takeWhile (fun c => !isLineTerm c)

/-- Scan for the first line-start occurrence of `key:`; the boolean is
whether the current position is a line start (`^` with the `m` flag). -/
def getValueAux (key : List Char) : List Char → Bool → Option (List Char)
  | [], _ => none
  | c :: tail, atStart =>
    if atStart && leadsWith (key ++ [':']) (c :: tail) then
      some (extractAfterKey ((c :: tail).drop (key.length + 1)))
    else
      getValueAux key tail (isLineTerm c)

def isQuoteChar (c : Char) : Bool := c = '"' || c = Char.ofNat 39

/-- `.replace(/^["'](.*?)["']$/, "$1")`: strip one matching pair of outer
quote characters (the lazy group cannot cross a line terminator). -/
def stripQuotes (v : List Char) : List Char :=
  match v.head?, v.getLast? with
  | some c1, some c2 =>
    if isQuoteChar c1 && isQuoteChar c2 && decide (2 ≤ v.length)
        && ((v.drop 1).dropLast.all (fun c => !isLineTerm c)) then
      (v.drop 1).dropLast
    else v
  | _, _ => v

/-- `getValue` from `parseState` in `src/plugin/mvp-builder.ts`. -/
def getValue (fm : List Char) (key : String) : Option String :=
  (getValueAux key.data fm true).map (fun v => String.mk (stripQuotes v))

/-- `getArrayValue` from `parseState` in `src/plugin/mvp-builder.ts`:
JSON parse with a comma-splitting fallback. -/
def getArrayValue (fm : List Char) (key : String) : List String :=
  match getValue fm key with
  | none => []
  | some v =>
    if v = "" ∨ v = "[]" then []
    else
      match jsonParseStringList v with
      | some l => l
      | none =>
        ((v.splitOn ",").map (fun s => String.mk (jsTrimChars s.data))).filter
          (fun s => s ≠ "")

/-! ### The prompt-sequence body lines

`body.match` with the global checkbox-line regex (dash, space, bracketed
status character, `prompt_<digits>.md`, dash, title) followed by the
same regex per match: scan the body for every occurrence of a checkbox
line and decode it into a `PromptInfo`. -/

/-- Try to match the checkbox-line regex at the head of
`s`; on success return the status character, filename, title and the
input after the match. -/
def matchPromptLine (s : List Char) : Option ((Char × List Char × List Char) × List Char) :=
  if leadsWith "- [".data s then
    match s.drop 3 with
    | [] => none
    | sc :: rest1 =>
      if sc = ' ' || sc = 'x' || sc = '/' then
        if leadsWith "] ".data rest1 then
          let rest2 := rest1.drop 2
          if leadsWith "prompt_".data rest2 then
            let rest3 := rest2.drop 7
            let ds := rest3.takeWhile Char.isDigit
            if ds = [] then none
            else
              let rest4 := rest3.drop ds.length
              if leadsWith ".md - ".data rest4 then
                let rest5 := rest4.drop 6
                let title := rest5.takeWhile (fun c => !isLineTerm c)
                if title = [] then none
                else some ((sc, "prompt_".data ++ ds ++ ".md".data, title), rest5.drop title.length)
              else none
          else none
        else none
      else none
  else none

/-- Decode a matched status character exactly as the source does. -/
def statusOfChar (sc : Char) : PStatus :=
  if sc = 'x' then PStatus.completed
  else if sc = '/' then PStatus.in_progress
  else PStatus.pending

/-- Global scan of the body for prompt lines (`fuel` bounds the recursion;
callers pass the input length plus one, which is always sufficient since
every step consumes at least one character). -/
def scanPromptLines : Nat → List Char → List PromptInfo
  | 0, _ => []
  | _, [] => []
  | fuel + 1, c :: tail =>
    match matchPromptLine (c :: tail) with
    | some ((sc, fn, ti), rest) =>
      { filename := String.mk fn, title := String.mk ti, status := statusOfChar sc }
        :: scanPromptLines fuel rest
    | none => scanPromptLines fuel tail

/-- `parseState` from `src/plugin/mvp-builder.ts` (lines 328-390).  The
file-system read is supplied as `stateFile` (`none` = the state file does
not exist); `nowIso` is the `new Date().toISOString()` default used when
`started_at` is missing. -/
def parseState (nowIso : String) (stateFile : Option String) : Option MVPBuilderState :=
  match stateFile with
  | none => none
  | some content =>
    match frontmatterSplit content.data with
    | none => none
    | some (fm, body) =>
      some {
        active := getValue fm "active" == some "true"
        phase := jsOrElseStr (getValue fm "phase") "generating_plan"
        currentPromptIndex := jsParseInt (jsOrElseStr (getValue fm "current_prompt_index") "0")
        totalPrompts := jsParseInt (jsOrElseStr (getValue fm "total_prompts") "0")
        promptSequence := scanPromptLines (body.length + 1) body
        startedAt := jsOrElseStr (getValue fm "started_at") nowIso
        lastCommit := getValue fm "last_commit"
        instructionsPath := jsOrElseStr (getValue fm "instructions_path") "instructions"
        referenceDocs := getArrayValue fm "reference_docs"
        maxIterations := jsParseInt (jsOrElseStr (getValue fm "max_iterations") "100")
        currentIteration := jsParseInt (jsOrElseStr (getValue fm "current_iteration") "1") }

/-! ## Serialisation (`writeState`) -/

/-- One checkbox line of the `## Prompt Sequence` section. -/
def promptLine (p : PromptInfo) : String :=
  "- [" ++ statusChar p.status ++ "] " ++ p.filename ++ " - " ++ p.title

def promptList (seq : List PromptInfo) : String :=
  jsJoin "\n" (seq.map promptLine)

/-- The file content written by `writeState` (`src/plugin/mvp-builder.ts`
lines 392-429). -/
def stateFileContent (s : MVPBuilderState) : String :=
  let promptList := promptList s.promptSequence
  "---\nactive: "
    ++ (boolToString s.active)
    ++ "\nphase: \""
    ++ (s.phase)
    ++ "\"\ncurrent_prompt_index: "
    ++ (jsNumToString s.currentPromptIndex)
    ++ "\ntotal_prompts: "
    ++ (jsNumToString s.totalPrompts)
    ++ "\nstarted_at: \""
    ++ (s.startedAt)
    ++ "\"\nlast_commit: "
    ++ (match s.lastCommit with | some c => if c = "" then "null" else "\"" ++ c ++ "\"" | none => "null")
    ++ "\ninstructions_path: \""
    ++ (s.instructionsPath)
    ++ "\"\nreference_docs: "
    ++ (jsonStringifyList s.referenceDocs)
    ++ "\nmax_iterations: "
    ++ (jsNumToString s.maxIterations)
    ++ "\ncurrent_iteration: "
    ++ (jsNumToString s.currentIteration)
    ++ "\n---\n\n## Prompt Sequence\n"
    ++ (if promptList = "" then "No prompts generated yet." else promptList)
    ++ "\n\n## Phase Progress\n- "
    ++ (if s.phase = "generating_plan" then "[/]" else "[x]")
    ++ " Phase 1A: Generate Sequence Plan\n- "
    ++ (if s.phase = "generating_prompts" then "[/]" else if s.phase = "generating_plan" then "[ ]" else "[x]")
    ++ " Phase 1B: Generate Execution Prompts\n- "
    ++ (if s.phase = "executing" then "[/] Phase 2: Execute Prompts (" ++ jsNumToString (jsAdd1 s.currentPromptIndex) ++ "/" ++ jsNumToString s.totalPrompts ++ ")" else if s.phase = "generating_plan" ∨ s.phase = "generating_prompts" then "[ ] Phase 2: Execute Prompts" else "[x] Phase 2: Execute Prompts (" ++ jsNumToString s.totalPrompts ++ "/" ++ jsNumToString s.totalPrompts ++ ")")
    ++ "\n- "
    ++ (if s.phase = "qa_integration" then "[/]" else if s.phase = "generating_plan" ∨ s.phase = "generating_prompts" ∨ s.phase = "executing" then "[ ]" else "[x]")
    ++ " Phase 3A: QA Integration Check\n- "
    ++ (if s.phase = "qa_completeness" then "[/]" else if s.phase = "generating_plan" ∨ s.phase = "generating_prompts" ∨ s.phase = "executing" ∨ s.phase = "qa_integration" then "[ ]" else "[x]")
    ++ " Phase 3B: Feature Completeness\n- "
    ++ (if s.phase = "documentation" then "[/]" else if s.phase = "complete" then "[x]" else "[ ]")
    ++ " Phase 4: Documentation\n- "
    ++ (if s.phase = "complete" then "[x]" else "[ ]")
    ++ " ‚úÖ COMPLETE\n"

/-! ## Prompt-file discovery (`discoverPromptFiles`) -/

/-- `/^prompt_\d+\.md$/.test(f)` -/
def isPromptFileName (f : String) : Bool :=
  leadsWith "prompt_".data f.data &&
    (let rest := f.data.drop 7
     let ds := rest.takeWhile Char.isDigit
     ds ≠ [] && rest.drop ds.length = ".md".data)

/-- `f.match(/\d+/)?.[0]`: the first run of digits anywhere in the name. -/
def firstDigitRun : List Char → List Char
  | [] => []
  | c :: rest => if c.isDigit then (c :: rest).takeWhile Char.isDigit else firstDigitRun rest

/-- The numeric sort key `parseInt(f.match(/\d+/)?.[0] || "0")`. -/
def promptFileNum (f : String) : Option Int :=
  jsParseInt (String.mk (let r := firstDigitRun f.data; if r = [] then "0".data else r))

/-- The comparator `(a, b) => numA - numB` (`Array.prototype.sort` is
stable; the keys are never NaN because a digit run or `"0"` always
parses). -/
def promptFileLe (a b : String) : Bool :=
  ((promptFileNum a).getD 0) ≤ ((promptFileNum b).getD 0)

/-- The `\s+(.+)$` part of `/^#\s+(.+)$/m` starting right after a `#`:
greedy whitespace, then at least one non-terminator character, with the
regex engine's backtracking at end of input. -/
def titleHere (afterHash : List Char) : Option (List Char) :=
  let ws := afterHash.takeWhile isJsWhitespace
  if ws = [] then none
  else
    match afterHash.drop ws.length with
    | _ :: _ => some ((afterHash.drop ws.length).takeWhile (fun c => !isLineTerm c))
    | [] =>
      match ws.reverse.find? (fun c => !isLineTerm c) with
      | some c => some [c]
      | none => none

/-- Scan for the first line-start `#` whose tail matches `\s+(.+)$`. -/
def titleScan : List Char → Bool → Option (List Char)
  | [], _ => none
  | c :: tail, atStart =>
    if atStart && c = '#' then
      match titleHere tail with
      | some t => some t
      | none => titleScan tail (isLineTerm c)
    else titleScan tail (isLineTerm c)

/-- `discoverPromptFiles` from `src/plugin/mvp-builder.ts` (lines 496-521). -/
def discoverPromptFiles (env : Env) (instructionsPath : String) : List PromptInfo :=
  match env.dirListing instructionsPath with
  | none => []
  | some files =>
    let promptFiles := (files.filter isPromptFileName).mergeSort promptFileLe
    promptFiles.map (fun filename =>
      let filePath := pathJoin instructionsPath filename
      let content := loadFileContent env filePath
      let title := match titleScan content.data true with
        | some t => String.mk (t.take 50)
        | none => "Prompt"
      { filename := filename, title := title, status := PStatus.pending })


/-! ## The meta prompts (verbatim constants from `mvp-builder.ts`) -/

/-- `META_PROMPT_1A` from `src/plugin/mvp-builder.ts` (verbatim). -/
def META_PROMPT_1A : String :=
  "You are an expert technical architect and prompt engineer. I have a project overview document at @project_overview.md that describes an MVP I want to build.\n\nYour task is to:\n1. Read and deeply understand the project overview including: ICP, MVP features, tech stack, business model, user flow, and design guide\n2. Break down the entire MVP build into a logical sequence of implementation steps\n3. Create a detailed execution plan that groups related work into numbered prompts\n\nFor the execution plan:\n- Each prompt should represent 2-4 hours of focused development work\n- Group related functionality together (e.g., all auth setup in one prompt, all database schemas in another)\n- Follow this general sequence: Setup ‚Üí Data Layer ‚Üí Core Features ‚Üí UI/UX ‚Üí Integration ‚Üí Polish\n- Consider dependencies (e.g., database schema before API routes, auth before protected features)\n- Include prompts for: initial setup verification, database schemas, mock data, core MVP features (broken into 2-4 prompts), frontend components, backend APIs, payments/monetization, testing, and deployment prep\n\nOutput a markdown document named \"prompt_sequence_plan.md\" with:\n- Total number of prompts needed (typically 8-15 for an MVP)\n- Brief description of what each prompt will accomplish\n- Estimated time per prompt\n- Dependencies between prompts\n- Success criteria for each prompt\n\nExample structure:\n```\n# Prompt Sequence Plan for [Project Name]\n\n## Total Prompts: 12\n## Estimated Total Time: 24-30 hours\n\n### Prompt 01: Initial Setup Verification & Configuration\n**Time:** 1-2 hours\n**Dependencies:** None\n**Accomplishes:** Verify Next.js + Convex + Clerk setup, configure environment variables, establish project structure\n**Success Criteria:** Dev server runs, auth works, Convex syncs\n\n### Prompt 02: Database Schema Design\n**Time:** 2-3 hours\n**Dependencies:** Prompt 01\n**Accomplishes:** Design and implement all Convex schemas for [list core entities]\n**Success Criteria:** Schemas deployed, can create/read records in Convex dashboard\n...\n```\n\nBe specific to the project but create a reusable structure."

/-- `META_PROMPT_1B` from `src/plugin/mvp-builder.ts` (verbatim). -/
def META_PROMPT_1B : String :=
  "You are an expert full-stack developer and prompt engineer. Based on the @prompt_sequence_plan.md you just created and the @project_overview.md, generate detailed execution prompts for each step in the sequence.\n\nFor each prompt file (prompt_01.md through prompt_XX.md), create a comprehensive, self-contained instruction that includes:\n\n**Required Structure for Each Prompt:**\n\n1. **Context Block**\n   - Brief reminder of the overall project goal\n   - What was accomplished in previous prompts (if applicable)\n   - Specific focus of this prompt\n\n2. **Objective Statement**\n   - Clear, specific goal for this prompt\n   - Expected deliverables\n\n3. **Technical Specifications**\n   - Exact tech stack components to use (from project overview)\n   - File locations and naming conventions\n   - Code organization standards\n\n4. **Detailed Requirements**\n   - Step-by-step implementation checklist\n   - Specific features/functions to build\n   - Edge cases to handle\n   - Error handling requirements\n\n5. **Code Standards**\n   - TypeScript typing requirements\n   - Naming conventions\n   - Comment standards\n   - Code organization (separate concerns, reusable components)\n\n6. **Testing & Validation**\n   - How to verify the implementation works\n   - Manual testing steps\n   - Expected behavior\n\n7. **Success Criteria**\n   - Specific, measurable outcomes\n   - What should work after this prompt is complete\n\n8. **Next Steps Preview**\n   - Brief mention of what the next prompt will build on\n\n**Special Instructions:**\n- Make each prompt completely self-contained (developer should be able to execute with just that prompt + codebase)\n- Include specific examples where helpful (e.g., \"Create a schema like this: [example]\")\n- Reference the project overview specifics (ICP, user flow, design guide)\n- For UI prompts: include exact design specifications from design guide\n- For backend prompts: include security, validation, and error handling details\n- For feature prompts: map to exact MVP features from project overview\n\n**Naming Convention:**\n- prompt_01.md: Initial Setup Verification\n- prompt_02.md: Database Schema Design\n- prompt_03.md: Mock Data & Seed Scripts\n- prompt_04.md: [Feature Category] - Core Feature Set 1\n- prompt_05.md: [Feature Category] - Core Feature Set 2\n- ... (continue based on plan)\n- prompt_XX.md: Final deployment prep\n\nGenerate all prompt files now as separate markdown documents. Each prompt should be 300-600 words and immediately actionable by a developer AI agent."

/-- `META_PROMPT_2` from `src/plugin/mvp-builder.ts` (verbatim). -/
def META_PROMPT_2 : String :=
  "You are an expert full-stack developer specializing in Next.js, Convex, and Clerk. Execute the instructions in the current prompt.\n\n**Execution Instructions:**\n\n1. **Read & Plan**\n   - Carefully read the entire prompt\n   - Review any referenced files (@project_overview.md, previous code)\n   - Create a mental implementation plan\n\n2. **Implement Systematically**\n   - Follow the prompt's requirements exactly\n   - Write clean, production-ready code\n   - Add helpful comments for complex logic\n   - Use TypeScript strictly (no 'any' types)\n\n3. **Verify as You Go**\n   - Test each component/function as you build it\n   - Check against success criteria in the prompt\n   - Fix any errors before moving to next section\n\n4. **Provide Summary**\n   After implementation, give me:\n   - ‚úÖ Completed tasks checklist\n   - üìÅ Files created/modified with brief descriptions\n   - üß™ Testing steps I should run to verify\n   - ‚ö†Ô∏è Any assumptions made or edge cases to revisit\n   - üîÑ What the next prompt will build on\n\n**Code Quality Standards:**\n- Follow Next.js 14+ App Router conventions\n- Use Convex best practices (mutations/queries/actions)\n- Implement proper Clerk auth patterns\n- Mobile-responsive by default\n- Accessibility (WCAG AA minimum)\n- Error boundaries and user-friendly error messages\n\n**When Stuck:**\n- If requirements are unclear, make reasonable assumptions based on project overview and document them\n- If a dependency is missing, note it and provide a workaround\n- If tech stack choice is ambiguous, choose the simpler option\n\nBegin implementation now. Show me the code and changes you're making."

/-- `META_PROMPT_3A` from `src/plugin/mvp-builder.ts` (verbatim). -/
def META_PROMPT_3A : String :=
  "You are a senior QA engineer and technical architect. I've completed all implementation prompts. Review the entire codebase for integration issues.\n\n**Review Areas:**\n\n1. **Data Flow Integrity**\n   - Do database schemas match API expectations?\n   - Are Convex mutations/queries properly connected to frontend?\n   - Is state management consistent across components?\n\n2. **Authentication & Authorization**\n   - Is Clerk properly protecting all routes that need it?\n   - Are user permissions checked in backend mutations?\n   - Do we handle unauthenticated states gracefully?\n\n3. **User Experience Flow**\n   - Does the implemented flow match @project_overview.md user flow?\n   - Are there any broken links or dead ends?\n   - Is loading/error state handling consistent?\n\n4. **Code Consistency**\n   - Naming conventions uniform across files?\n   - Component structure consistent?\n   - Similar patterns for similar problems?\n\n5. **Performance & Scalability**\n   - Any N+1 query issues?\n   - Are we paginating large data sets?\n   - Unnecessary re-renders or API calls?\n\n**Deliverable:**\nCreate \"integration_issues.md\" listing:\n- üî¥ Critical issues (blocks functionality)\n- üü° Important issues (degrades UX)\n- üü¢ Nice-to-haves (improvements)\n\nFor each issue, provide:\n- Description\n- Location (file/component)\n- Suggested fix\n- Estimated effort (quick/medium/significant)\n\nAfter listing all issues, fix ALL üî¥ CRITICAL issues before proceeding."

/-- `META_PROMPT_3B` from `src/plugin/mvp-builder.ts` (verbatim). -/
def META_PROMPT_3B : String :=
  "You are a product manager conducting an MVP readiness review. Compare our implemented codebase against the MVP features listed in @project_overview.md.\n\n**Audit Process:**\n\n1. **Feature Checklist**\n   - List each MVP feature from project overview\n   - Mark status: ‚úÖ Complete | üü° Partial | ‚ùå Missing\n   - Note quality: üåü Excellent | ‚úîÔ∏è Good | ‚ö†Ô∏è Needs work\n\n2. **User Flow Validation**\n   - Walk through each step of the documented user flow\n   - Identify any gaps or friction points\n   - Check if onboarding matches the plan\n\n3. **ICP Alignment**\n   - Does the product serve the stated ICP effectively?\n   - Are pain points from project overview addressed?\n   - Is complexity appropriate for target users?\n\n4. **Business Model Implementation**\n   - Are pricing tiers implemented correctly?\n   - Is payment integration functional?\n   - Are usage limits/gates in place?\n\n**Deliverable:**\nCreate \"mvp_readiness_report.md\" with:\n- Overall readiness score (0-100%)\n- Feature completion matrix\n- Must-fix items before launch\n- Nice-to-have improvements\n- Launch blocker vs post-launch items\n\nAfter creating the report, fix any launch blockers before proceeding."

/-- `META_PROMPT_4` from `src/plugin/mvp-builder.ts` (verbatim). -/
def META_PROMPT_4 : String :=
  "You are a technical writer creating end-to-end documentation for this MVP. Generate comprehensive documentation for both developers and users.\n\n**Create These Documents:**\n\n1. **README.md** (Developer-focused)\n   - Project overview & value proposition\n   - Tech stack with versions\n   - Setup instructions (environment variables, installation, database setup)\n   - Development workflow (running locally, testing, deploying)\n   - Project structure explanation\n   - Key architectural decisions\n   - Troubleshooting common issues\n\n2. **DEPLOYMENT.md**\n   - Vercel deployment steps\n   - Convex deployment process\n   - Clerk production setup\n   - Environment variables for production\n   - Domain configuration\n   - Monitoring & logging setup\n\n3. **API_DOCUMENTATION.md**\n   - All Convex queries/mutations/actions\n   - Input parameters & types\n   - Return values & types\n   - Example usage\n   - Error responses\n\n4. **USER_GUIDE.md** (End-user focused)\n   - Getting started tutorial\n   - Feature walkthroughs with screenshots\n   - Common workflows\n   - FAQ\n   - Troubleshooting\n\n5. **FUTURE_ENHANCEMENTS.md**\n   - Features cut from MVP (from project overview)\n   - Technical debt items\n   - Scalability improvements needed\n   - User-requested features (placeholder)\n\n**Style Guidelines:**\n- Use clear, concise language\n- Include code examples where relevant\n- Add mermaid diagrams for complex flows\n- Assume intelligent but unfamiliar readers\n- Link between documents for cross-references"


/-! ## The phase prompt builders -/

/-- `buildPhase1APrompt` (`src/plugin/mvp-builder.ts` lines 528-575). -/
def buildPhase1APrompt (s : MVPBuilderState) (env : Env) : String :=
  let instructionsPath := pathJoin env.directory s.instructionsPath
  let projectOverviewPath := pathJoin instructionsPath "project_overview.md"
  let projectOverview := loadFileContent env projectOverviewPath
  let referenceDocs := loadReferenceDocs env s.referenceDocs
  let recentCommits := getRecentCommits env 10
  "# MVP Builder - STEP 1: Generate the Prompt Sequence Plan\n\n## üìã Your Task\nRead the project overview and create a detailed prompt sequence plan.\n\n---\n\n## üìÑ PROJECT OVERVIEW (@project_overview.md)\n\n"
    ++ (if projectOverview = "" then "ERROR: project_overview.md not found at " ++ projectOverviewPath else projectOverview)
    ++ "\n\n"
    ++ (referenceDocs)
    ++ "\n\n---\n\n## üìú RECENT GIT HISTORY\n```\n"
    ++ (recentCommits)
    ++ "\n```\n\n---\n\n## üéØ INSTRUCTIONS (Meta-Prompt 1A)\n\n"
    ++ (META_PROMPT_1A)
    ++ "\n\n---\n\n## ‚ö†Ô∏è IMPORTANT\n\n1. Save the plan as `"
    ++ (s.instructionsPath)
    ++ "/prompt_sequence_plan.md`\n2. The starter kit already has Next.js 16 + Convex + Clerk with Google sign-in configured\n3. Skip initial setup prompts if auth is already working\n4. Focus on the MVP features from the project overview\n\n## ‚úÖ COMPLETION\n\nWhen you have created and saved `"
    ++ (s.instructionsPath)
    ++ "/prompt_sequence_plan.md`, output exactly:\n\n<promise>SEQUENCE_PLAN_COMPLETE</promise>"

/-- `buildPhase1BPrompt` (`src/plugin/mvp-builder.ts` lines 577-627). -/
def buildPhase1BPrompt (s : MVPBuilderState) (env : Env) : String :=
  let instructionsPath := pathJoin env.directory s.instructionsPath
  let projectOverviewPath := pathJoin instructionsPath "project_overview.md"
  let sequencePlanPath := pathJoin instructionsPath "prompt_sequence_plan.md"
  let projectOverview := loadFileContent env projectOverviewPath
  let sequencePlan := loadFileContent env sequencePlanPath
  let referenceDocs := loadReferenceDocs env s.referenceDocs
  "# MVP Builder - STEP 2: Generate All Individual Execution Prompts\n\n## üìã Your Task\nUsing the prompt sequence plan and project overview, generate all individual execution prompts.\n\n---\n\n## üìÑ PROJECT OVERVIEW (@project_overview.md)\n\n"
    ++ (projectOverview)
    ++ "\n\n---\n\n## üìã PROMPT SEQUENCE PLAN (@prompt_sequence_plan.md)\n\n"
    ++ (if sequencePlan = "" then "ERROR: prompt_sequence_plan.md not found!" else sequencePlan)
    ++ "\n\n"
    ++ (referenceDocs)
    ++ "\n\n---\n\n## üéØ INSTRUCTIONS (Meta-Prompt 1B)\n\n"
    ++ (META_PROMPT_1B)
    ++ "\n\n---\n\n## ‚ö†Ô∏è IMPORTANT\n\n1. Save ALL prompt files in `"
    ++ (s.instructionsPath)
    ++ "/` folder:\n   - `"
    ++ (s.instructionsPath)
    ++ "/prompt_01.md`\n   - `"
    ++ (s.instructionsPath)
    ++ "/prompt_02.md`\n   - ... and so on\n2. Each prompt should be self-contained and immediately actionable\n3. The starter kit already has Next.js 16 + Convex + Clerk configured\n\n## ‚úÖ COMPLETION\n\nAfter generating ALL prompt files listed in the sequence plan, output exactly:\n\n<promise>PROMPTS_GENERATED</promise>"

/-- `buildPhase2Prompt` (`src/plugin/mvp-builder.ts` lines 629-689). -/
def buildPhase2Prompt (s : MVPBuilderState) (env : Env) : String :=
  let instructionsPath := pathJoin env.directory s.instructionsPath
  match jsIndex s.promptSequence s.currentPromptIndex with
  | none => "ERROR: No more prompts to execute."
  | some currentPrompt =>
    let promptPath := pathJoin instructionsPath currentPrompt.filename
    let promptContent := loadFileContent env promptPath
    let projectOverviewPath := pathJoin instructionsPath "project_overview.md"
    let projectOverview := loadFileContent env projectOverviewPath
    let referenceDocs := loadReferenceDocs env s.referenceDocs
    let recentCommits := getRecentCommits env 10
    "# MVP Builder - STEP 3: Execute Prompt "
    ++ (jsNumToString (jsAdd1 s.currentPromptIndex))
    ++ " of "
    ++ (jsNumToString s.totalPrompts)
    ++ "\n\n## üìã Current Prompt: "
    ++ (currentPrompt.filename)
    ++ "\n\n---\n\n## üìÑ PROMPT INSTRUCTIONS\n\n"
    ++ (if promptContent = "" then "ERROR: " ++ currentPrompt.filename ++ " not found at " ++ promptPath else promptContent)
    ++ "\n\n---\n\n## üìÑ PROJECT OVERVIEW (for reference)\n\n"
    ++ (projectOverview)
    ++ "\n\n"
    ++ (referenceDocs)
    ++ "\n\n---\n\n## üìú RECENT GIT HISTORY (see what's been done)\n```\n"
    ++ (recentCommits)
    ++ "\n```\n\n---\n\n## üéØ EXECUTION INSTRUCTIONS (Meta-Prompt 2)\n\n"
    ++ (META_PROMPT_2)
    ++ "\n\n---\n\n## ‚ö†Ô∏è IMPORTANT\n\n1. Follow the prompt instructions exactly\n2. Test your implementation before marking complete\n3. After completion, changes will be committed automatically\n4. Progress: "
    ++ (jsNumToString (jsAdd1 s.currentPromptIndex))
    ++ "/"
    ++ (jsNumToString s.totalPrompts)
    ++ " prompts\n\n## ‚úÖ COMPLETION\n\nWhen ALL success criteria in the prompt are met and implementation is tested, output exactly:\n\n<promise>PROMPT_COMPLETE</promise>"

/-- `buildPhase3APrompt` (`src/plugin/mvp-builder.ts` lines 691-737). -/
def buildPhase3APrompt (s : MVPBuilderState) (env : Env) : String :=
  let instructionsPath := pathJoin env.directory s.instructionsPath
  let projectOverviewPath := pathJoin instructionsPath "project_overview.md"
  let projectOverview := loadFileContent env projectOverviewPath
  let referenceDocs := loadReferenceDocs env s.referenceDocs
  let recentCommits := getRecentCommits env 20
  "# MVP Builder - STEP 4A: Quality Assurance - Integration Check\n\n## üìã Your Task\nReview the entire codebase for integration issues after completing all prompts.\n\n---\n\n## üìÑ PROJECT OVERVIEW (@project_overview.md)\n\n"
    ++ (projectOverview)
    ++ "\n\n"
    ++ (referenceDocs)
    ++ "\n\n---\n\n## üìú GIT HISTORY (all completed work)\n```\n"
    ++ (recentCommits)
    ++ "\n```\n\n---\n\n## üéØ INSTRUCTIONS (Meta-Prompt 3A)\n\n"
    ++ (META_PROMPT_3A)
    ++ "\n\n---\n\n## ‚ö†Ô∏è IMPORTANT\n\n1. Save the issues list as `"
    ++ (s.instructionsPath)
    ++ "/integration_issues.md`\n2. Fix ALL üî¥ CRITICAL issues before proceeding\n3. Document any fixes made\n\n## ‚úÖ COMPLETION\n\nAfter creating integration_issues.md and fixing all critical issues, output exactly:\n\n<promise>INTEGRATION_CHECK_COMPLETE</promise>"

/-- `buildPhase3BPrompt` (`src/plugin/mvp-builder.ts` lines 739-777). -/
def buildPhase3BPrompt (s : MVPBuilderState) (env : Env) : String :=
  let instructionsPath := pathJoin env.directory s.instructionsPath
  let projectOverviewPath := pathJoin instructionsPath "project_overview.md"
  let projectOverview := loadFileContent env projectOverviewPath
  let referenceDocs := loadReferenceDocs env s.referenceDocs
  "# MVP Builder - STEP 4B: Quality Assurance - Feature Completeness Audit\n\n## üìã Your Task\nCompare implemented features against the MVP requirements.\n\n---\n\n## üìÑ PROJECT OVERVIEW (@project_overview.md)\n\n"
    ++ (projectOverview)
    ++ "\n\n"
    ++ (referenceDocs)
    ++ "\n\n---\n\n## üéØ INSTRUCTIONS (Meta-Prompt 3B)\n\n"
    ++ (META_PROMPT_3B)
    ++ "\n\n---\n\n## ‚ö†Ô∏è IMPORTANT\n\n1. Save the report as `"
    ++ (s.instructionsPath)
    ++ "/mvp_readiness_report.md`\n2. Fix any launch blockers before proceeding\n3. Document the overall readiness score\n\n## ‚úÖ COMPLETION\n\nAfter creating mvp_readiness_report.md and fixing launch blockers, output exactly:\n\n<promise>MVP_READY</promise>"

/-- `buildPhase4Prompt` (`src/plugin/mvp-builder.ts` lines 779-820). -/
def buildPhase4Prompt (s : MVPBuilderState) (env : Env) : String :=
  let instructionsPath := pathJoin env.directory s.instructionsPath
  let projectOverviewPath := pathJoin instructionsPath "project_overview.md"
  let projectOverview := loadFileContent env projectOverviewPath
  let referenceDocs := loadReferenceDocs env s.referenceDocs
  "# MVP Builder - STEP 5: Generate Documentation\n\n## üìã Your Task\nGenerate comprehensive documentation for the MVP.\n\n---\n\n## üìÑ PROJECT OVERVIEW (@project_overview.md)\n\n"
    ++ (projectOverview)
    ++ "\n\n"
    ++ (referenceDocs)
    ++ "\n\n---\n\n## üéØ INSTRUCTIONS (Meta-Prompt 4)\n\n"
    ++ (META_PROMPT_4)
    ++ "\n\n---\n\n## ‚ö†Ô∏è IMPORTANT\n\n1. Save documentation files in the project root:\n   - README.md\n   - DEPLOYMENT.md\n   - API_DOCUMENTATION.md\n   - USER_GUIDE.md\n   - FUTURE_ENHANCEMENTS.md\n\n## ‚úÖ COMPLETION\n\nAfter creating all documentation files, output exactly:\n\n<promise>DOCUMENTATION_COMPLETE</promise>"

/-- `buildCompletePrompt` (`src/plugin/mvp-builder.ts` lines 822-859).  The
source computes `Date.now() - new Date(state.startedAt).getTime()`; the
clock and the date parser are supplied by `Env`, making the hidden time
input explicit. -/
def buildCompletePrompt (s : MVPBuilderState) (env : Env) : String :=
  let elapsed : Option Int := (env.dateParse s.startedAt).map (fun t0 => env.now - t0)
  let hours := jsFloorDiv elapsed (1000 * 60 * 60)
  let minutes := jsFloorDiv (jsRem elapsed (1000 * 60 * 60)) (1000 * 60)
  "# üéâ MVP Builder - COMPLETE!\n\n## ‚úÖ All Phases Completed Successfully!\n\n| Phase | Status |\n|-------|--------|\n| Phase 1A: Generate Sequence Plan | ‚úÖ Complete |\n| Phase 1B: Generate Execution Prompts | ‚úÖ Complete |\n| Phase 2: Execute All Prompts ("
    ++ (jsNumToString s.totalPrompts)
    ++ ") | ‚úÖ Complete |\n| Phase 3A: Integration Check | ‚úÖ Complete |\n| Phase 3B: Feature Completeness | ‚úÖ Complete |\n| Phase 4: Documentation | ‚úÖ Complete |\n\n## üìä Statistics\n\n- **Total Prompts Executed:** "
    ++ (jsNumToString s.totalPrompts)
    ++ "\n- **Total Iterations:** "
    ++ (jsNumToString s.currentIteration)
    ++ "\n- **Total Time:** "
    ++ (jsNumToString hours)
    ++ "h "
    ++ (jsNumToString minutes)
    ++ "m\n- **Last Commit:** "
    ++ (match s.lastCommit with | some c => if c = "" then "N/A" else c | none => "N/A")
    ++ "\n\n## üöÄ Next Steps\n\n1. Review the generated documentation\n2. Run the test suite: `npm test`\n3. Deploy to staging: See DEPLOYMENT.md\n4. Share with users for feedback\n\n---\n\nThe MVP is ready for deployment!\n\n<promise>MVP_COMPLETE</promise>"

/-- The phase switch of the event handler (`src/plugin/mvp-builder.ts`
lines 1040-1066) that picks which prompt to dispatch. -/
def buildPromptSwitch (s : MVPBuilderState) (env : Env) : String :=
  if s.phase = "generating_plan" then buildPhase1APrompt s env
  else if s.phase = "generating_prompts" then buildPhase1BPrompt s env
  else if s.phase = "executing" then buildPhase2Prompt s env
  else if s.phase = "qa_integration" then buildPhase3APrompt s env
  else if s.phase = "qa_completeness" then buildPhase3BPrompt s env
  else if s.phase = "documentation" then buildPhase4Prompt s env
  else if s.phase = "complete" then buildCompletePrompt s env
  else "Unknown phase. Please run /mvp-cancel and restart."


/-! ## The event handler (`MVPBuilderPlugin`, lines 865-1074)

The handler runs on every `session.idle` event.  Its effects are
represented explicitly: the outcome tells whether the state file was left
alone (`skipped`), deleted by the safety governor (`halted`), deleted by
final completion (`completedDone`), or rewritten with a new state while
dispatching an instruction (`next`). -/

inductive StepOutcome where
  | skipped
  | halted
  | completedDone
  | next (s' : MVPBuilderState) (dispatched : String)
deriving DecidableEq

structure StepResult where
  outcome : StepOutcome
  logs : List (String × String)
deriving DecidableEq

/-- Intermediate result of the promise-checking `switch` (lines 908-999):
the (possibly mutated) prompt sequence, index and total, the three control
variables, any logs emitted inside the block, and whether the
`complete`-phase early return was taken. -/
structure SwitchResult where
  seq : List PromptInfo
  idx : Option Int
  total : Option Int
  shouldAdvance : Bool
  commitMessage : String
  nextPhase : String
  logs : List (String × String)
  earlyComplete : Bool
deriving DecidableEq

/-- `seq[i].status = st` for a defined element (no-op outside bounds,
mirroring the truthiness guards in the source). -/
def updateStatus (l : List PromptInfo) (idx : Option Int) (st : PStatus) : List PromptInfo :=
  match idx with
  | some i => l.mapIdx (fun j p => if (j : Int) = i then { p with status := st } else p)
  | none => l

/-- The V8 error text of the one statement in the switch that can throw:
`state.promptSequence[state.currentPromptIndex].status = "in_progress"`
after the increment, when that element is `undefined`. -/
def statusTypeErrorText : String :=
  "TypeError: Cannot set properties of undefined (setting 'status')"

/-- The switch outcome when nothing matched: no mutation, no advancement. -/
def noChangeSwitch (s : MVPBuilderState) : SwitchResult :=
  { seq := s.promptSequence, idx := s.currentPromptIndex, total := s.totalPrompts,
    shouldAdvance := false, commitMessage := "", nextPhase := s.phase,
    logs := [], earlyComplete := false }

/-- The `switch (state.phase)` block of the event handler. -/
def checkPromises (s : MVPBuilderState) (env : Env) (textContent : String) : SwitchResult :=
  let noChange : SwitchResult := noChangeSwitch s
  if s.phase = "generating_plan" then
    if hasPromise textContent "SEQUENCE_PLAN_COMPLETE" then
      { noChange with
        nextPhase := "generating_prompts",        commitMessage := "MVP Builder: Generated prompt sequence plan", shouldAdvance := true }
    else noChange
  else if s.phase = "generating_prompts" then
    if hasPromise textContent "PROMPTS_GENERATED" then
      let instructionsPath := pathJoin env.directory s.instructionsPath
      let seq := discoverPromptFiles env instructionsPath
      let total : Option Int := some (seq.length : Int)
      if seq.length > 0 then
        { seq := updateStatus seq (some 0) PStatus.in_progress, idx := some 0, total := total,
          shouldAdvance := true,
          commitMessage := "MVP Builder: Generated " ++ jsNumToString total ++ " execution prompts",
          nextPhase := "executing", logs := [], earlyComplete := false }
      else
        { noChange with
          seq := seq, total := total,          logs := [("error", "No prompt files found in " ++ instructionsPath
            ++ ". Looking for prompt_01.md, prompt_02.md, etc.")] }
    else noChange
  else if s.phase = "executing" then
    if hasPromise textContent "PROMPT_COMPLETE" then
      let seq1 := updateStatus s.promptSequence s.currentPromptIndex PStatus.completed
      let cm1 := match jsIndex s.promptSequence s.currentPromptIndex with
        | some p => "MVP Builder: Completed " ++ p.filename
        | none => ""
      if jsLtB (jsAdd1 s.currentPromptIndex) s.totalPrompts then
        let idx' := jsAdd1 s.currentPromptIndex
        match jsIndex seq1 idx' with
        | some _ =>
          { seq := updateStatus seq1 idx' PStatus.in_progress, idx := idx', total := s.totalPrompts,
            shouldAdvance := true, commitMessage := cm1, nextPhase := "executing",
            logs := [], earlyComplete := false }
        | none =>
          -- the assignment throws; the catch block logs and the cycle continues
          { seq := seq1, idx := idx', total := s.totalPrompts,
            shouldAdvance := false, commitMessage := cm1, nextPhase := s.phase,
            logs := [("warn", "Could not check session: " ++ statusTypeErrorText)],
            earlyComplete := false }
      else
        { seq := seq1, idx := s.currentPromptIndex, total := s.totalPrompts,
          shouldAdvance := true,
          commitMessage := "MVP Builder: All execution prompts completed",
          nextPhase := "qa_integration", logs := [], earlyComplete := false }
    else noChange
  else if s.phase = "qa_integration" then
    if hasPromise textContent "INTEGRATION_CHECK_COMPLETE" then
      { noChange with
        nextPhase := "qa_completeness",        commitMessage := "MVP Builder: Integration check complete", shouldAdvance := true }
    else noChange
  else if s.phase = "qa_completeness" then
    if hasPromise textContent "MVP_READY" then
      { noChange with
        nextPhase := "documentation",        commitMessage := "MVP Builder: MVP readiness verified", shouldAdvance := true }
    else noChange
  else if s.phase = "documentation" then
    if hasPromise textContent "DOCUMENTATION_COMPLETE" then
      { noChange with
        nextPhase := "complete",        commitMessage := "MVP Builder: Documentation complete", shouldAdvance := true }
    else noChange
  else if s.phase = "complete" then
    if hasPromise textContent "MVP_COMPLETE" then
      { noChange with earlyComplete := true }
    else noChange
  else noChange

/-- The value of the local `shouldAdvance`/`commitMessage`/`nextPhase`
block after the `try`: dispatch on how the session fetch went. -/
def sessionSwitch (env : Env) (s : MVPBuilderState) : SwitchResult :=
  match env.session with
  | none =>
    { noChangeSwitch s with
      logs := [("warn", "Could not check session: " ++ env.errText)] }
  | some none => noChangeSwitch s
  | some (some textContent) => checkPromises s env textContent

/-- The commit block (lines 1010-1022): commit when advancing with a
commit message, record the hash, and move to the next phase. -/
def commitAdvance (env : Env) (s : MVPBuilderState) : MVPBuilderState × List (String × String) :=
  let sw := sessionSwitch env s
  if sw.shouldAdvance && sw.commitMessage ≠ "" then
    match env.gitCommitHash with
    | some hash =>
      ({ s with
         promptSequence := sw.seq, currentPromptIndex := sw.idx,
         totalPrompts := sw.total, lastCommit := some hash, phase := sw.nextPhase },
       [("info", "\uF8FFüìù Committed: " ++ sw.commitMessage ++ " (" ++ hash ++ ")")])
    | none =>
      ({ s with
         promptSequence := sw.seq, currentPromptIndex := sw.idx,
         totalPrompts := sw.total, phase := sw.nextPhase }, [])
  else
    ({ s with
       promptSequence := sw.seq, currentPromptIndex := sw.idx,
       totalPrompts := sw.total }, [])

/-- The state after `state.currentIteration++` (line 1025), i.e. the
record that `writeState` persists. -/
def stepState (env : Env) (s : MVPBuilderState) : MVPBuilderState :=
  { (commitAdvance env s).1 with
    currentIteration := jsAdd1 (commitAdvance env s).1.currentIteration }

/-- The status line (lines 1029-1032). -/
def statusMsgOf (env : Env) (s : MVPBuilderState) : String :=
  let s2 := stepState env s
  "MVP Builder | Iteration " ++ jsNumToString s2.currentIteration
    ++ "/" ++ jsNumToString s2.maxIterations ++ " | Phase: " ++ s2.phase
    ++ (if s2.phase = "executing" then
          " | Prompt " ++ jsNumToString (jsAdd1 s2.currentPromptIndex)
            ++ "/" ++ jsNumToString s2.totalPrompts
        else "")

/-- One `session.idle` trigger for an already-parsed state, i.e. the body
of the event handler after `parseState` (lines 871-1073). -/
def step (env : Env) (s : MVPBuilderState) : StepResult :=
  if !s.active then ⟨StepOutcome.skipped, []⟩
  else if jsGeB s.currentIteration s.maxIterations then
    ⟨StepOutcome.halted,
     [("warn", "‚ö†Ô∏è MVP Builder stopped: max iterations ("
        ++ jsNumToString s.maxIterations ++ ") reached")]⟩
  else if (sessionSwitch env s).earlyComplete then
    ⟨StepOutcome.completedDone,
     (sessionSwitch env s).logs
       ++ [("info", "\uF8FFüéâ MVP Builder completed successfully! Final commit: "
          ++ (match env.gitCommitHash with | some h => h | none => "null"))]⟩
  else
    ⟨StepOutcome.next (stepState env s)
       ("[" ++ statusMsgOf env s ++ "]\n\n" ++ buildPromptSwitch (stepState env s) env),
     (sessionSwitch env s).logs ++ (commitAdvance env s).2 ++ [("info", statusMsgOf env s)]⟩

/-- The whole handler at the state-file level: parse, run, and report the
file content afterwards (`none` = the file does not exist). -/
def handleSessionIdle (env : Env) (stateFile : Option String) : StepResult × Option String :=
  match parseState env.nowIso stateFile with
  | none => (⟨StepOutcome.skipped, []⟩, stateFile)
  | some s =>
    let r := step env s
    (r, match r.outcome with
        | StepOutcome.skipped => stateFile
        | StepOutcome.halted => none
        | StepOutcome.completedDone => none
        | StepOutcome.next s' _ => some (stateFileContent s'))

/-! ## The story-queue plugin's state store (`src/unnamed/part_004`,
second plugin, lines 868-933) -/

namespace V3

structure MVPBuilderState where
  active : Bool
  iteration : Option Int
  maxIterations : Option Int
  instructionsPath : String
  referenceDocs : List String
  startedAt : String
deriving DecidableEq, Repr

/-- The story-queue plugin's frontmatter regex: `^---\r?\n([\s\S]*?)\r?\n---`
— like the main plugin's but without requiring a newline after the
closing `---` (and without a body group). -/
def sepMatchV3 (s : List Char) : Bool :=
  match newlineAfter s with
  | some (a :: b :: c :: _) => a = '-' ∧ b = '-' ∧ c = '-'
  | _ => false

def scanSepV3 : List Char → Option (List Char)
  | [] => none
  | c :: tail =>
    if sepMatchV3 (c :: tail) then some []
    else (scanSepV3 tail).map (c :: ·)

def frontmatterMatch : List Char → Option (List Char)
  | a :: b :: c :: rest =>
    if a = '-' ∧ b = '-' ∧ c = '-' then
      match newlineAfter rest with
      | some afterHeader => scanSepV3 afterHeader
      | none => none
    else none
  | _ => none

/-- `.replace(/^["']|["']$/g, "")`: strip a leading quote and a trailing
quote independently (each at most once, non-overlapping). -/
def stripQuotesV3 (v : List Char) : List Char :=
  match v with
  | [] => []
  | c :: rest =>
    if isQuoteChar c then
      match rest.getLast? with
      | some c2 => if isQuoteChar c2 then rest.dropLast else rest
      | none => []
    else
      match v.getLast? with
      | some c2 => if isQuoteChar c2 then v.dropLast else v
      | none => v

def getValue (fm : List Char) (key : String) : Option String :=
  (getValueAux key.data fm true).map (fun v => String.mk (stripQuotesV3 v))

/-- `getArrayValue` of the story-queue plugin: JSON parse with an empty
fallback (`catch { return [] }`). -/
def getArrayValue (fm : List Char) (key : String) : List String :=
  match getValue fm key with
  | none => []
  | some v =>
    if v = "" ∨ v = "[]" then []
    else (jsonParseStringList v).getD []

/-- `parseState` from `src/unnamed/part_004` (lines 885-913). -/
def parseState (nowIso : String) (stateFile : Option String) : Option MVPBuilderState :=
  match stateFile with
  | none => none
  | some content =>
    match frontmatterMatch content.data with
    | none => none
    | some fm =>
      some {
        active := getValue fm "active" == some "true"
        iteration := jsParseInt (jsOrElseStr (getValue fm "iteration") "1")
        maxIterations := jsParseInt (jsOrElseStr (getValue fm "max_iterations") "100")
        instructionsPath := jsOrElseStr (getValue fm "instructions_path") "instructions"
        referenceDocs := getArrayValue fm "reference_docs"
        startedAt := jsOrElseStr (getValue fm "started_at") nowIso }

end V3


/-! ## Projections and spec-side predicates for the claims -/

/-- The instruction text the handler dispatches, if any. -/
def dispatchedOf : StepOutcome → Option String
  | StepOutcome.next _ d => some d
  | _ => none

/-- The state record the handler persists, if any. -/
def stateAfterOf : StepOutcome → Option MVPBuilderState
  | StepOutcome.next s' _ => some s'
  | _ => none

/-- Does the outcome delete the persisted state file? -/
def deletesFile : StepOutcome → Bool
  | StepOutcome.halted => true
  | StepOutcome.completedDone => true
  | _ => false

/-- Whether the response text carries the completion signal that the
switch inspects for the given phase. -/
def signalDetected (s : MVPBuilderState) (t : String) : Bool :=
  if s.phase = "generating_plan" then hasPromise t "SEQUENCE_PLAN_COMPLETE"
  else if s.phase = "generating_prompts" then hasPromise t "PROMPTS_GENERATED"
  else if s.phase = "executing" then hasPromise t "PROMPT_COMPLETE"
  else if s.phase = "qa_integration" then hasPromise t "INTEGRATION_CHECK_COMPLETE"
  else if s.phase = "qa_completeness" then hasPromise t "MVP_READY"
  else if s.phase = "documentation" then hasPromise t "DOCUMENTATION_COMPLETE"
  else if s.phase = "complete" then hasPromise t "MVP_COMPLETE"
  else false

/-- No line terminator (`\n`, `\r`, U+2028, U+2029) occurs in the string. -/
def noLineTermStr (x : String) : Bool := x.data.all (fun c => !isLineTerm c)

/-- Well-formedness of one prompt entry for the serialisation round trip:
the filename has the `prompt_<digits>.md` shape the parser recognises, the
title is a non-empty single line, and the status is not `skipped`. -/
def goodPrompt (p : PromptInfo) : Bool :=
  isPromptFileName p.filename && p.title ≠ "" && noLineTermStr p.title

/-! ## Concrete fixtures for witnesses and counterexamples -/

/-- A benign environment: no files, no git, a session with no assistant
message, the clock at zero. -/
def baseEnv : Env :=
  { directory := "/w", files := fun _ => none, dirListing := fun _ => none,
    gitLogRaw := fun _ => none, gitCommitHash := none, session := some none,
    errText := "err", now := 0, dateParse := fun _ => some 0,
    nowIso := "2026-01-01T00:00:00.000Z" }

/-- `baseState` at the iteration cap. -/
def haltState : MVPBuilderState :=
  { active := true, phase := "generating_plan", currentPromptIndex := some 0,
    totalPrompts := some 0, promptSequence := [],
    startedAt := "2026-01-01T00:00:00.000Z", lastCommit := some "abc",
    instructionsPath := "instructions", referenceDocs := [],
    maxIterations := some 100, currentIteration := some 100 }

/-- A small active state in the first phase. -/
def baseState : MVPBuilderState :=
  { active := true, phase := "generating_plan", currentPromptIndex := some 0,
    totalPrompts := some 0, promptSequence := [],
    startedAt := "2026-01-01T00:00:00.000Z", lastCommit := some "abc",
    instructionsPath := "instructions", referenceDocs := [],
    maxIterations := some 100, currentIteration := some 1 }

/-- `baseState` in the `complete` phase. -/
def completePhaseState : MVPBuilderState :=
  { active := true, phase := "complete", currentPromptIndex := some 0,
    totalPrompts := some 0, promptSequence := [],
    startedAt := "2026-01-01T00:00:00.000Z", lastCommit := some "abc",
    instructionsPath := "instructions", referenceDocs := [],
    maxIterations := some 100, currentIteration := some 1 }

/-- `baseEnv` with a session whose last assistant message carries the
`MVP_COMPLETE` promise. -/
def completeSignalEnv : Env :=
  { directory := "/w", files := fun _ => none, dirListing := fun _ => none,
    gitLogRaw := fun _ => none, gitCommitHash := none,
    session := some (some "<promise>MVP_COMPLETE</promise>"),
    errText := "err", now := 0, dateParse := fun _ => some 0,
    nowIso := "2026-01-01T00:00:00.000Z" }

/-- `baseState` in the `generating_prompts` phase. -/
def genPromptsState : MVPBuilderState :=
  { active := true, phase := "generating_prompts", currentPromptIndex := some 0,
    totalPrompts := some 0, promptSequence := [],
    startedAt := "2026-01-01T00:00:00.000Z", lastCommit := some "abc",
    instructionsPath := "instructions", referenceDocs := [],
    maxIterations := some 100, currentIteration := some 1 }

/-- `baseEnv` with a session carrying the `PROMPTS_GENERATED` promise and
no prompt files on disk. -/
def promptsSignalEnv : Env :=
  { directory := "/w", files := fun _ => none, dirListing := fun _ => none,
    gitLogRaw := fun _ => none, gitCommitHash := none,
    session := some (some "<promise>PROMPTS_GENERATED</promise>"),
    errText := "err", now := 0, dateParse := fun _ => some 0,
    nowIso := "2026-01-01T00:00:00.000Z" }


/-! ## Serialisation round-trip machinery (claim C10)

The helpers below restate the character stream produced by
`stateFileContent` in a line-structured form (`fmData`, `bodyData`) that the
frontmatter and checkbox scanners can be driven over, and name the status
conflation performed by `writeState`/`parseState` (`statusRT`). -/

/-- No line terminator occurs in the character list. -/
def noLT (l : List Char) : Bool := l.all (fun c => !isLineTerm c)

/-- No underscore occurs in the character list (the checkbox-line regex
cannot match without the underscore of `prompt_`). -/
def noUS (l : List Char) : Bool := l.all (fun c => !(c == '_'))

/-- No dash occurs in the character list (the checkbox-line regex cannot
match without a leading dash). -/
def noDash (l : List Char) : Bool := l.all (fun c => !(c == '-'))

/-- The ten decimal digit characters. -/
def digitChars : List Char := ['0','1','2','3','4','5','6','7','8','9']

/-- The decimal digit character of `d`. -/
def digitCharOf (d : Nat) : Char := Char.ofNat (48 + d)

/-- The checkbox character of a status, as a character. -/
def statusCharC : PStatus → Char
  | PStatus.completed => 'x'
  | PStatus.in_progress => '/'
  | _ => ' '

/-- The status obtained after one serialise/parse cycle: `skipped` shares
its checkbox character with `pending`, so it is read back as `pending`;
the other three statuses are preserved. -/
def statusRT : PStatus → PStatus
  | PStatus.completed => PStatus.completed
  | PStatus.in_progress => PStatus.in_progress
  | _ => PStatus.pending

/-- The prompt entry obtained after one serialise/parse cycle. -/
def infoOf (p : PromptInfo) : PromptInfo :=
  { filename := p.filename, title := p.title, status := statusRT p.status }

/-- The raw `last_commit` value written by `writeState`. -/
def lcValData (s : MVPBuilderState) : List Char :=
  match s.lastCommit with
  | some c => if c = "" then "null".data else '"' :: (c.data ++ ['"'])
  | none => "null".data

def lineActive (s : MVPBuilderState) : List Char :=
  'a' :: 'c' :: 't' :: 'i' :: 'v' :: 'e' :: ':' :: ' ' :: (boolToString s.active).data

def linePhase (s : MVPBuilderState) : List Char :=
  'p' :: 'h' :: 'a' :: 's' :: 'e' :: ':' :: ' ' :: '"' :: (s.phase.data ++ ['"'])

def lineCPI (s : MVPBuilderState) : List Char :=
  'c' :: 'u' :: 'r' :: 'r' :: 'e' :: 'n' :: 't' :: '_' :: 'p' :: 'r' :: 'o' :: 'm' :: 'p' :: 't' :: '_' :: 'i' :: 'n' :: 'd' :: 'e' :: 'x' :: ':' :: ' ' :: (jsNumToString s.currentPromptIndex).data

def lineTP (s : MVPBuilderState) : List Char :=
  't' :: 'o' :: 't' :: 'a' :: 'l' :: '_' :: 'p' :: 'r' :: 'o' :: 'm' :: 'p' :: 't' :: 's' :: ':' :: ' ' :: (jsNumToString s.totalPrompts).data

def lineSA (s : MVPBuilderState) : List Char :=
  's' :: 't' :: 'a' :: 'r' :: 't' :: 'e' :: 'd' :: '_' :: 'a' :: 't' :: ':' :: ' ' :: '"' :: (s.startedAt.data ++ ['"'])

def lineLC (s : MVPBuilderState) : List Char :=
  'l' :: 'a' :: 's' :: 't' :: '_' :: 'c' :: 'o' :: 'm' :: 'm' :: 'i' :: 't' :: ':' :: ' ' :: lcValData s

def lineIP (s : MVPBuilderState) : List Char :=
  'i' :: 'n' :: 's' :: 't' :: 'r' :: 'u' :: 'c' :: 't' :: 'i' :: 'o' :: 'n' :: 's' :: '_' :: 'p' :: 'a' :: 't' :: 'h' :: ':' :: ' ' :: '"' :: (s.instructionsPath.data ++ ['"'])

def lineRD (s : MVPBuilderState) : List Char :=
  'r' :: 'e' :: 'f' :: 'e' :: 'r' :: 'e' :: 'n' :: 'c' :: 'e' :: '_' :: 'd' :: 'o' :: 'c' :: 's' :: ':' :: ' ' :: (jsonStringifyList s.referenceDocs).data

def lineMI (s : MVPBuilderState) : List Char :=
  'm' :: 'a' :: 'x' :: '_' :: 'i' :: 't' :: 'e' :: 'r' :: 'a' :: 't' :: 'i' :: 'o' :: 'n' :: 's' :: ':' :: ' ' :: (jsNumToString s.maxIterations).data

def lineCI (s : MVPBuilderState) : List Char :=
  'c' :: 'u' :: 'r' :: 'r' :: 'e' :: 'n' :: 't' :: '_' :: 'i' :: 't' :: 'e' :: 'r' :: 'a' :: 't' :: 'i' :: 'o' :: 'n' :: ':' :: ' ' :: (jsNumToString s.currentIteration).data

/-- The frontmatter region of the file written by `writeState`, line by
line. -/
def fmData (s : MVPBuilderState) : List Char :=
  lineActive s ++ '\n' :: (linePhase s ++ '\n' :: (lineCPI s ++ '\n' :: (lineTP s ++ '\n' :: (lineSA s ++ '\n' :: (lineLC s ++ '\n' :: (lineIP s ++ '\n' :: (lineRD s ++ '\n' :: (lineMI s ++ '\n' :: lineCI s))))))))

/-- The `## Phase Progress` section of the file written by `writeState`
(after its leading blank line). -/
def phaseTailData (s : MVPBuilderState) : List Char :=
  "## Phase Progress\n- ".data
  ++ (if s.phase = "generating_plan" then "[/]" else "[x]").data
  ++ " Phase 1A: Generate Sequence Plan\n- ".data
  ++ (if s.phase = "generating_prompts" then "[/]" else if s.phase = "generating_plan" then "[ ]" else "[x]").data
  ++ " Phase 1B: Generate Execution Prompts\n- ".data
  ++ (if s.phase = "executing" then "[/] Phase 2: Execute Prompts (" ++ jsNumToString (jsAdd1 s.currentPromptIndex) ++ "/" ++ jsNumToString s.totalPrompts ++ ")" else if s.phase = "generating_plan" ∨ s.phase = "generating_prompts" then "[ ] Phase 2: Execute Prompts" else "[x] Phase 2: Execute Prompts (" ++ jsNumToString s.totalPrompts ++ "/" ++ jsNumToString s.totalPrompts ++ ")").data
  ++ "\n- ".data
  ++ (if s.phase = "qa_integration" then "[/]" else if s.phase = "generating_plan" ∨ s.phase = "generating_prompts" ∨ s.phase = "executing" then "[ ]" else "[x]").data
  ++ " Phase 3A: QA Integration Check\n- ".data
  ++ (if s.phase = "qa_completeness" then "[/]" else if s.phase = "generating_plan" ∨ s.phase = "generating_prompts" ∨ s.phase = "executing" ∨ s.phase = "qa_integration" then "[ ]" else "[x]").data
  ++ " Phase 3B: Feature Completeness\n- ".data
  ++ (if s.phase = "documentation" then "[/]" else if s.phase = "complete" then "[x]" else "[ ]").data
  ++ " Phase 4: Documentation\n- ".data
  ++ (if s.phase = "complete" then "[x]" else "[ ]").data
  ++ " ‚úÖ COMPLETE\n".data

/-- The prompt-sequence section body (the checkbox list, or the
placeholder text when it is empty). -/
def plIfData (s : MVPBuilderState) : List Char :=
  (if promptList s.promptSequence = "" then "No prompts generated yet." else promptList s.promptSequence).data

/-- The body region (after the closing `---` separator) of the file
written by `writeState`. -/
def bodyData (s : MVPBuilderState) : List Char :=
  '\n' :: ("## Prompt Sequence".data ++ '\n' :: (plIfData s ++ '\n' :: '\n' :: phaseTailData s))

/-- The checkbox lines of a prompt sequence joined by `\n`, at the
character level. -/
def linesData : List PromptInfo → List Char
  | [] => []
  | [p] => (promptLine p).data
  | p :: q :: rest => (promptLine p).data ++ '\n' :: linesData (q :: rest)

/-- The elements of `JSON.stringify` of a string array joined by `,`, at
the character level. -/
def elemsData : List String → List Char
  | [] => []
  | [d] => (jsonStringifyString d).data
  | d :: e :: rest => (jsonStringifyString d).data ++ ',' :: elemsData (e :: rest)

/-- Character lines joined by a newline. -/
def joinLines : List (List Char) → List Char
  | [] => []
  | [L] => L
  | L :: M :: rest => L ++ '\n' :: joinLines (M :: rest)

/-- The hypotheses of the amended round-trip property: every string field
that `writeState` embeds raw must be a single line, the fields subject to
JavaScript truthiness defaults (`phase`, `started_at`,
`instructions_path`) and the `last_commit` value must be non-empty (an
absent or empty `last_commit` serialises as the literal `null`, which
parses back as the string `"null"`), reference docs must not contain the
line separators U+2028/U+2029 (which `JSON.stringify` leaves unescaped),
and every prompt entry must be well-formed in the sense of `goodPrompt`. -/
def c10Good (s : MVPBuilderState) : Bool :=
  s.phase ≠ "" && noLT s.phase.data &&
  s.startedAt ≠ "" && noLT s.startedAt.data &&
  s.instructionsPath ≠ "" && noLT s.instructionsPath.data &&
  (match s.lastCommit with
   | some c => c ≠ "" && noLT c.data
   | none => false) &&
  s.referenceDocs.all (fun d => d.data.all (fun c => !(c == '\u2028') && !(c == '\u2029'))) &&
  s.promptSequence.all goodPrompt

/-- A state satisfying the frozen claim's stated hypotheses (single-line
non-empty titles, statuses among pending/in progress/completed) whose
round trip nevertheless fails: its `last_commit` is absent. -/
def c10ex : MVPBuilderState :=
  { active := true, phase := "executing", currentPromptIndex := some 0,
    totalPrompts := some 1,
    promptSequence := [{ filename := "prompt_1.md", title := "Build the app", status := PStatus.pending }],
    startedAt := "2025-01-01T00:00:00.000Z", lastCommit := none,
    instructionsPath := "instructions", referenceDocs := [],
    maxIterations := some 100, currentIteration := some 1 }

/-- A state exercising every constraint of `c10Good`: three statuses
including a `skipped` one, a negative counter, reference docs with
escaped quotes and newlines. -/
def c10wit : MVPBuilderState :=
  { active := true, phase := "executing", currentPromptIndex := some 1,
    totalPrompts := some 3,
    promptSequence := [{ filename := "prompt_1.md", title := "Set up the project", status := PStatus.completed },
                       { filename := "prompt_2.md", title := "Build the app", status := PStatus.in_progress },
                       { filename := "prompt_3.md", title := "Polish - ship it", status := PStatus.skipped }],
    startedAt := "2025-01-01T00:00:00.000Z", lastCommit := some "abc1234",
    instructionsPath := "instructions", referenceDocs := ["docs/api.md", "docs with \"quotes\" and\nnewlines"],
    maxIterations := some 100, currentIteration := some (-2) }

/-! ## Theorems -/

theorem leadsWith_closeTag_nil : leadsWith closeTag [] = false := rfl

theorem leadsWith_openTag_nil : leadsWith openTag [] = false := rfl

theorem tagAt_drop (p t : List Char) (i j : Nat) :
    tagAt p (t.drop i) j ↔ tagAt p t (i + j) := by
  unfold tagAt
  rw [List.drop_drop]

theorem tagAt_cons_succ (p : List Char) (a : Char) (s : List Char) (j : Nat) :
    tagAt p (a :: s) (j + 1) ↔ tagAt p s j := by
  unfold tagAt
  rw [List.drop_succ_cons]

theorem takeUntilClose_eq_some_iff (s c : List Char) :
    takeUntilClose s = some c ↔
      ∃ j, tagAt closeTag s j ∧ (∀ j' < j, ¬ tagAt closeTag s j') ∧ c = s.take j := by
  induction s generalizing c with
  | nil =>
    simp only [takeUntilClose]
    constructor
    · intro h; cases h
    · rintro ⟨j, hj, -, -⟩
      rw [tagAt, List.drop_nil, leadsWith_closeTag_nil] at hj
      cases hj
  | cons a rest ih =>
    simp only [takeUntilClose]
    by_cases h : leadsWith closeTag (a :: rest) = true
    · rw [if_pos h]
      constructor
      · rintro ⟨rfl⟩
        exact ⟨0, h, by omega, rfl⟩
      · rintro ⟨j, hj, hmin, rfl⟩
        cases j with
        | zero => rfl
        | succ k => exact absurd h (hmin 0 (Nat.succ_pos k))
    · rw [if_neg h]
      constructor
      · intro hmap
        rw [Option.map_eq_some'] at hmap
        obtain ⟨c', hc', rfl⟩ := hmap
        obtain ⟨j, hj, hmin, rfl⟩ := (ih c').mp hc'
        refine ⟨j + 1, (tagAt_cons_succ _ _ _ _).mpr hj, ?_, rfl⟩
        intro j' hj'
        cases j' with
        | zero => simpa [tagAt] using h
        | succ k =>
          rw [tagAt_cons_succ]
          exact hmin k (by omega)
      · rintro ⟨j, hj, hmin, rfl⟩
        cases j with
        | zero => exact absurd hj h
        | succ k =>
          rw [tagAt_cons_succ] at hj
          have hmin' : ∀ j' < k, ¬ tagAt closeTag rest j' := by
            intro j' hlt
            have := hmin (j' + 1) (by omega)
            rwa [tagAt_cons_succ] at this
          rw [Option.map_eq_some']
          exact ⟨rest.take k, (ih _).mpr ⟨k, hj, hmin', rfl⟩, rfl⟩

theorem extractFirstPromise_eq_some_iff (t c : List Char) :
    extractFirstPromise t = some c ↔
      ∃ i, tagAt openTag t i ∧ (∀ i' < i, ¬ tagAt openTag t i') ∧
        takeUntilClose (t.drop (i + 9)) = some c := by
  induction t generalizing c with
  | nil =>
    simp only [extractFirstPromise]
    constructor
    · intro h; cases h
    · rintro ⟨i, hi, -, -⟩
      rw [tagAt, List.drop_nil, leadsWith_openTag_nil] at hi
      cases hi
  | cons a rest ih =>
    simp only [extractFirstPromise]
    by_cases h : leadsWith openTag (a :: rest) = true
    · rw [if_pos h]
      constructor
      · intro hc
        exact ⟨0, h, by omega, hc⟩
      · rintro ⟨i, hi, hmin, htc⟩
        cases i with
        | zero => exact htc
        | succ k => exact absurd h (hmin 0 (Nat.succ_pos k))
    · rw [if_neg h]
      rw [ih]
      constructor
      · rintro ⟨i, hi, hmin, htc⟩
        refine ⟨i + 1, (tagAt_cons_succ _ _ _ _).mpr hi, ?_, ?_⟩
        · intro i' hi'
          cases i' with
          | zero => simpa [tagAt] using h
          | succ k =>
            rw [tagAt_cons_succ]
            exact hmin k (by omega)
        · rwa [Nat.add_right_comm, List.drop_succ_cons]
      · rintro ⟨i, hi, hmin, htc⟩
        cases i with
        | zero => exact absurd hi h
        | succ k =>
          rw [tagAt_cons_succ] at hi
          refine ⟨k, hi, ?_, ?_⟩
          · intro i' hlt
            have := hmin (i' + 1) (by omega)
            rwa [tagAt_cons_succ] at this
          · rwa [Nat.add_right_comm, List.drop_succ_cons] at htc

theorem extractFirstPromise_iff_firstPromiseContent (t c : List Char) :
    extractFirstPromise t = some c ↔ firstPromiseContent t c := by
  rw [extractFirstPromise_eq_some_iff]
  unfold firstPromiseContent
  constructor
  · rintro ⟨i, hi, himin, htc⟩
    obtain ⟨j, hj, hjmin, rfl⟩ := (takeUntilClose_eq_some_iff _ _).mp htc
    rw [tagAt_drop] at hj
    refine ⟨i, i + 9 + j, hi, himin, by omega, hj, ?_, ?_⟩
    · intro j' hle hlt
      have := hjmin (j' - (i + 9)) (by omega)
      rw [tagAt_drop] at this
      have harith : i + 9 + (j' - (i + 9)) = j' := by omega
      rwa [harith] at this
    · congr 1
      omega
  · rintro ⟨i, j, hi, himin, hle, hj, hjmin, rfl⟩
    refine ⟨i, hi, himin, (takeUntilClose_eq_some_iff _ _).mpr ⟨j - (i + 9), ?_, ?_, rfl⟩⟩
    · rw [tagAt_drop]
      have harith : i + 9 + (j - (i + 9)) = j := by omega
      rwa [harith]
    · intro j' hlt
      rw [tagAt_drop]
      exact hjmin (i + 9 + j') (by omega) (by omega)

theorem hasPromise_iff (t p : String) :
    hasPromise t p = true ↔
      ∃ c, firstPromiseContent t.data c ∧ jsTrimChars c = p.data := by
  unfold hasPromise
  split
  case h_1 c hE =>
    rw [beq_iff_eq]
    constructor
    · intro h
      exact ⟨c, (extractFirstPromise_iff_firstPromiseContent t.data c).mp hE, h⟩
    · rintro ⟨c', hfc', htrim⟩
      have := (extractFirstPromise_iff_firstPromiseContent t.data c').mpr hfc'
      rw [hE] at this
      injection this with h2
      rw [h2]
      exact htrim
  case h_2 hE =>
    constructor
    · intro h; cases h
    · rintro ⟨c', hfc', -⟩
      have := (extractFirstPromise_iff_firstPromiseContent t.data c').mpr hfc'
      rw [hE] at this
      cases this

theorem checkCompletionPromise_eq_hasPromise (t p : String) :
    checkCompletionPromise t p = hasPromise t p := rfl

theorem find?_eq_head?_filter (p : UserStory → Bool) (l : List UserStory) :
    l.find? p = (l.filter p).head? := by
  induction l with
  | nil => rfl
  | cons a t ih =>
    rw [List.find?_cons, List.filter_cons]
    by_cases h : p a = true
    · rw [h]; simp
    · rw [Bool.not_eq_true] at h; rw [h]; simpa using ih

theorem storyLe_trans : ∀ (a b c : UserStory),
    storyLe a b = true → storyLe b c = true → storyLe a c = true := by
  intro a b c h1 h2
  simp only [storyLe, decide_eq_true_eq] at *
  omega

theorem storyLe_total : ∀ (a b : UserStory), (storyLe a b || storyLe b a) = true := by
  intro a b
  simp only [storyLe, Bool.or_eq_true, decide_eq_true_eq]
  omega

theorem getNextStory_eq_specSelectNext (prd : PRDData) :
    getNextStory prd = specSelectNext prd := by
  unfold getNextStory specSelectNext
  set L := prd.userStories.filter (fun s => !s.passes) with hL
  rcases hM : L.mergeSort storyLe with _ | ⟨h, t⟩
  · have hperm : (L.mergeSort storyLe).Perm L := List.mergeSort_perm L storyLe
    rw [hM] at hperm
    have : L = [] := by simpa using hperm.symm
    rw [this]
    rfl
  · have hperm : (L.mergeSort storyLe).Perm L := List.mergeSort_perm L storyLe
    have hsorted := List.sorted_mergeSort storyLe_trans storyLe_total L
    rw [hM] at hperm hsorted
    have hmemh : h ∈ L := hperm.mem_iff.mp (by simp)
    have hmin : ∀ x ∈ L, storyLe h x = true := by
      intro x hx
      rcases (hperm.mem_iff.mpr hx) with hx'
      rcases List.mem_cons.mp hx' with rfl | hxt
      · simp [storyLe]
      · exact (List.pairwise_cons.mp hsorted).1 x hxt
    -- the `find?` predicate coincides with `priority ≤ h.priority`
    set P : UserStory → Bool := fun s => L.all (fun u => s.priority ≤ u.priority) with hP
    set Q : UserStory → Bool := fun s => decide (s.priority ≤ h.priority) with hQ
    have hPQ : ∀ s, P s = Q s := by
      intro s
      rw [Bool.eq_iff_iff]
      simp only [hP, hQ, List.all_eq_true, decide_eq_true_eq]
      constructor
      · intro hall
        exact hall h hmemh
      · intro hq u hu
        have := hmin u hu
        simp only [storyLe, decide_eq_true_eq] at this
        omega
    have hfind : L.find? P = (L.filter Q).head? := by
      rw [find?_eq_head?_filter]
      congr 1
      exact List.filter_congr (fun x _ => hPQ x)
    -- stability: the equal-priority block keeps its relative order
    have hQall : ∀ x ∈ L.filter Q, Q x = true := fun x hx => List.of_mem_filter hx
    have hpair : (L.filter Q).Pairwise (fun a b => storyLe a b = true) := by
      apply List.pairwise_of_forall_mem_list
      intro a ha b hb
      have ha' : Q a = true := List.of_mem_filter ha
      have hb' : b ∈ L := List.mem_of_mem_filter hb
      have h1 : a.priority ≤ h.priority := by simpa [hQ] using ha'
      have h2 := hmin b hb'
      simp only [storyLe, decide_eq_true_eq] at h2 ⊢
      omega
    have hsub : (L.filter Q).Sublist (L.mergeSort storyLe) :=
      List.sublist_mergeSort storyLe_trans storyLe_total hpair (List.filter_sublist L)
    have hsub2 : (L.filter Q).Sublist ((L.mergeSort storyLe).filter Q) := by
      have := hsub.filter Q
      rwa [List.filter_filter, List.filter_congr (fun x _ => Bool.and_self (Q x))] at this
    have hlen : (L.filter Q).length = ((L.mergeSort storyLe).filter Q).length :=
      ((List.mergeSort_perm L storyLe).filter Q).symm.length_eq
    have hfeq : L.filter Q = (L.mergeSort storyLe).filter Q := hsub2.eq_of_length hlen
    have hQh : Q h = true := by simp [hQ]
    rw [hfind, hfeq, hM, List.filter_cons, hQh]
    simp

theorem getNextStory_eq_none_iff (prd : PRDData) :
    getNextStory prd = none ↔ allStoriesPassing prd = true := by
  unfold getNextStory allStoriesPassing
  rw [List.head?_eq_none_iff]
  constructor
  · intro hM
    have hperm := List.mergeSort_perm (prd.userStories.filter (fun s => !s.passes)) storyLe
    rw [hM] at hperm
    have hL : prd.userStories.filter (fun s => !s.passes) = [] := by simpa using hperm.symm
    rw [List.filter_eq_nil_iff] at hL
    rw [List.all_eq_true]
    intro a ha
    have := hL a ha
    simpa using this
  · intro hall
    have hL : prd.userStories.filter (fun s => !s.passes) = [] := by
      rw [List.filter_eq_nil_iff]
      intro a ha
      simp [List.all_eq_true.mp hall a ha]
    rw [hL]
    exact List.mergeSort_nil

/-- **C3.** For every response text, completion detection (`hasPromise` in
`src/plugin/mvp-builder.ts` and `checkCompletionPromise` in
`src/unnamed/part_004`) extracts the content of only the first
`<promise>...</promise>` delimiter in the text and reports a signal iff that
content, trimmed, is exactly equal to the expected marker; a response with
no well-formed delimiter, or whose first delimiter holds any other string,
yields no signal, even if the expected marker appears in a later delimiter
(witnessed by the closed conjuncts). -/
theorem claim_C3_first_delimiter_exact_match (t p : String) :
    (hasPromise t p = true ↔
      ∃ c, firstPromiseContent t.data c ∧ jsTrimChars c = p.data) ∧
    (checkCompletionPromise t p = true ↔
      ∃ c, firstPromiseContent t.data c ∧ jsTrimChars c = p.data) ∧
    hasPromise "<promise>WRONG</promise><promise>PROMPT_COMPLETE</promise>"
      "PROMPT_COMPLETE" = false ∧
    hasPromise "working on it, PROMPT_COMPLETE soon" "PROMPT_COMPLETE" = false ∧
    hasPromise "done! <promise> PROMPT_COMPLETE </promise>" "PROMPT_COMPLETE" = true := by
  refine ⟨hasPromise_iff t p, ?_, by decide, by decide, by decide⟩
  rw [checkCompletionPromise_eq_hasPromise]
  exact hasPromise_iff t p

/-- **C6.** `getNextStory` (`src/unnamed/part_004`) returns, among all
stories with `passes = false`, the one with the minimal priority value,
breaking ties by first occurrence in the declared order
(`specSelectNext`, written from the spec); it reports the workflow
complete (returns `null`) exactly when no story has `passes = false`
(`allStoriesPassing`); and on the spec's example queue
`{(A,2,false), (B,1,false), (C,1,true)}` it returns `B`. -/
theorem claim_C6_story_selection (prd : PRDData) :
    getNextStory prd = specSelectNext prd ∧
    (getNextStory prd = none ↔ allStoriesPassing prd = true) ∧
    getNextStory examplePRD = some (exampleStories.get ⟨1, by decide⟩) := by
  refine ⟨getNextStory_eq_specSelectNext prd, getNextStory_eq_none_iff prd, ?_⟩
  rw [getNextStory_eq_specSelectNext]
  decide

/-! ### Lemmas about the event-handler step -/

theorem commitAdvance_fixed_fields (env : Env) (s : MVPBuilderState) :
    (commitAdvance env s).1.currentIteration = s.currentIteration ∧
    (commitAdvance env s).1.active = s.active ∧
    (commitAdvance env s).1.maxIterations = s.maxIterations ∧
    (commitAdvance env s).1.startedAt = s.startedAt ∧
    (commitAdvance env s).1.instructionsPath = s.instructionsPath ∧
    (commitAdvance env s).1.referenceDocs = s.referenceDocs := by
  unfold commitAdvance
  dsimp only
  split
  · split <;> exact ⟨rfl, rfl, rfl, rfl, rfl, rfl⟩
  · exact ⟨rfl, rfl, rfl, rfl, rfl, rfl⟩

theorem step_halt (env : Env) (s : MVPBuilderState) (hact : s.active = true)
    (hge : jsGeB s.currentIteration s.maxIterations = true) :
    step env s = ⟨StepOutcome.halted,
      [("warn", "‚ö†Ô∏è MVP Builder stopped: max iterations ("
        ++ jsNumToString s.maxIterations ++ ") reached")]⟩ := by
  unfold step
  rw [hact, hge]
  simp

theorem step_early_complete (env : Env) (s : MVPBuilderState) (hact : s.active = true)
    (hge : jsGeB s.currentIteration s.maxIterations = false)
    (hec : (sessionSwitch env s).earlyComplete = true) :
    step env s = ⟨StepOutcome.completedDone,
      (sessionSwitch env s).logs
        ++ [("info", "\uF8FFüéâ MVP Builder completed successfully! Final commit: "
          ++ (match env.gitCommitHash with | some h => h | none => "null"))]⟩ := by
  unfold step
  rw [hact, hge, hec]
  simp

theorem step_next (env : Env) (s : MVPBuilderState) (hact : s.active = true)
    (hge : jsGeB s.currentIteration s.maxIterations = false)
    (hec : (sessionSwitch env s).earlyComplete = false) :
    step env s = ⟨StepOutcome.next (stepState env s)
        ("[" ++ statusMsgOf env s ++ "]\n\n" ++ buildPromptSwitch (stepState env s) env),
      (sessionSwitch env s).logs ++ (commitAdvance env s).2 ++ [("info", statusMsgOf env s)]⟩ := by
  unfold step
  rw [hact, hge, hec]
  simp

theorem step_outcome_cases (env : Env) (s : MVPBuilderState) (hact : s.active = true) :
    (step env s).outcome = StepOutcome.halted ∨
    (step env s).outcome = StepOutcome.completedDone ∨
    ∃ d, (step env s).outcome = StepOutcome.next (stepState env s) d := by
  by_cases hge : jsGeB s.currentIteration s.maxIterations = true
  · left
    rw [step_halt env s hact hge]
  · rw [Bool.not_eq_true] at hge
    by_cases hec : (sessionSwitch env s).earlyComplete = true
    · right; left
      rw [step_early_complete env s hact hge hec]
    · rw [Bool.not_eq_true] at hec
      right; right
      exact ⟨_, by rw [step_next env s hact hge hec]⟩

theorem stepState_currentIteration (env : Env) (s : MVPBuilderState) :
    (stepState env s).currentIteration = jsAdd1 s.currentIteration := by
  unfold stepState
  dsimp only
  rw [(commitAdvance_fixed_fields env s).1]

/-- **C1.** On every trigger of the event handler on an active workflow,
the persisted iteration counter is incremented exactly once (so it is
never decremented), and when `currentIteration >= maxIterations` already
holds the loop is forcibly deactivated (outcome `halted`, which deletes
the state), regardless of any pending completion signal in the
environment. -/
theorem claim_C1_iteration_monotone (env : Env) (s : MVPBuilderState) (n m : Int)
    (hact : s.active = true) (hn : s.currentIteration = some n)
    (hm : s.maxIterations = some m) :
    (m ≤ n → (step env s).outcome = StepOutcome.halted) ∧
    (∀ s' d, (step env s).outcome = StepOutcome.next s' d →
      s'.currentIteration = some (n + 1)) := by
  constructor
  · intro hle
    have hge : jsGeB s.currentIteration s.maxIterations = true := by
      rw [hn, hm]
      simpa [jsGeB] using hle
    rw [step_halt env s hact hge]
  · intro s' d hnext
    rcases step_outcome_cases env s hact with hc | hc | ⟨d', hc⟩ <;> rw [hc] at hnext
    · cases hnext
    · cases hnext
    · injection hnext with h1 h2
      rw [← h1, stepState_currentIteration, hn]
      rfl

theorem claim_C1_witness :
    haltState.active = true ∧
    ((100 ≤ (100 : Int) →
        (step baseEnv haltState).outcome = StepOutcome.halted) ∧
      (∀ s' d, (step baseEnv haltState).outcome = StepOutcome.next s' d →
        s'.currentIteration = some (100 + 1))) :=
  ⟨rfl, claim_C1_iteration_monotone baseEnv haltState 100 100 rfl rfl rfl⟩

theorem checkPromises_earlyComplete_iff (s : MVPBuilderState) (env : Env) (t : String) :
    (checkPromises s env t).earlyComplete = true ↔
      s.phase = "complete" ∧ hasPromise t "MVP_COMPLETE" = true := by
  unfold checkPromises
  split_ifs with h1 h2 h3 h4 h5 h6 h7 h8 h9 h10 h11 h12 h13 <;>
    (try simp_all [noChangeSwitch]) <;> (try split) <;> simp_all [noChangeSwitch]

theorem sessionSwitch_earlyComplete_iff (env : Env) (s : MVPBuilderState) :
    (sessionSwitch env s).earlyComplete = true ↔
      s.phase = "complete" ∧
        ∃ t, env.session = some (some t) ∧ hasPromise t "MVP_COMPLETE" = true := by
  unfold sessionSwitch
  rcases env.session with _ | svalue
  · simp [noChangeSwitch]
  · rcases svalue with _ | t
    · simp [noChangeSwitch]
    · rw [checkPromises_earlyComplete_iff]
      constructor
      · rintro ⟨hph, hpr⟩
        exact ⟨hph, t, rfl, hpr⟩
      · rintro ⟨hph, t', ht', hpr⟩
        injection ht' with ht'
        injection ht' with ht'
        exact ⟨hph, ht' ▸ hpr⟩

/-- **C2.** When the loop is triggered on an active workflow with
`currentIteration >= maxIterations`, the handler halts: the persisted
state file is deleted (the store afterwards holds nothing, not a record
marked inactive), exactly one diagnostic is logged, and no instruction is
rendered or dispatched.  Moreover this iteration-cap halt is the only
outcome that terminates the workflow other than the `complete`-phase
`MVP_COMPLETE` classification. -/
theorem claim_C2_halt_is_hard_stop (env : Env) (s : MVPBuilderState)
    (hact : s.active = true) :
    (jsGeB s.currentIteration s.maxIterations = true →
      (step env s).outcome = StepOutcome.halted ∧
      (step env s).logs = [("warn", "‚ö†Ô∏è MVP Builder stopped: max iterations ("
        ++ jsNumToString s.maxIterations ++ ") reached")] ∧
      dispatchedOf (step env s).outcome = none) ∧
    (∀ f, (handleSessionIdle env f).1.outcome = StepOutcome.halted →
      (handleSessionIdle env f).2 = none) ∧
    (deletesFile (step env s).outcome = true →
      jsGeB s.currentIteration s.maxIterations = true ∨
      (s.phase = "complete" ∧
        ∃ t, env.session = some (some t) ∧ hasPromise t "MVP_COMPLETE" = true)) := by
  refine ⟨?_, ?_, ?_⟩
  · intro hge
    rw [step_halt env s hact hge]
    exact ⟨rfl, rfl, rfl⟩
  · intro f
    unfold handleSessionIdle
    rcases parseState env.nowIso f with _ | s0
    · intro h
      cases h
    · dsimp only
      rcases houtcome : (step env s0).outcome with _ | _ | _ | ⟨s', d⟩ <;>
        simp [houtcome]
  · intro hdel
    by_cases hge : jsGeB s.currentIteration s.maxIterations = true
    · exact Or.inl hge
    · rw [Bool.not_eq_true] at hge
      by_cases hec : (sessionSwitch env s).earlyComplete = true
      · exact Or.inr ((sessionSwitch_earlyComplete_iff env s).mp hec)
      · rw [Bool.not_eq_true] at hec
        rw [step_next env s hact hge hec] at hdel
        cases hdel

theorem claim_C2_witness :
    haltState.active = true ∧
    ((jsGeB haltState.currentIteration haltState.maxIterations = true →
      (step baseEnv haltState).outcome = StepOutcome.halted ∧
      (step baseEnv haltState).logs
          = [("warn", "\u201A\u00F6\u2020\u00D4\u220F\u00E8 MVP Builder stopped: max iterations ("
              ++ jsNumToString haltState.maxIterations ++ ") reached")] ∧
      dispatchedOf (step baseEnv haltState).outcome = none) ∧
    (∀ f, (handleSessionIdle baseEnv f).1.outcome = StepOutcome.halted →
      (handleSessionIdle baseEnv f).2 = none) ∧
    (deletesFile (step baseEnv haltState).outcome = true →
      jsGeB haltState.currentIteration haltState.maxIterations = true ∨
      (haltState.phase = "complete" ∧
        ∃ t, baseEnv.session = some (some t) ∧ hasPromise t "MVP_COMPLETE" = true))) :=
  ⟨rfl, claim_C2_halt_is_hard_stop baseEnv haltState rfl⟩

set_option maxRecDepth 10000 in
/-- **C4 (counterexample).**  The claim says every phase's prompt builder
is a pure function of the state record, the file contents and the git
history, independent of wall-clock time.  `buildCompletePrompt`
interpolates `Date.now() - new Date(state.startedAt).getTime()` into the
`**Total Time:**` statistics line, so two calls with identical state,
files and git history but different clock values render different bytes. -/
theorem claim_C4_counterexample :
    buildCompletePrompt completePhaseState baseEnv ≠
      buildCompletePrompt completePhaseState { baseEnv with now := 36000000 } := by
  decide

/-- **C4 (amended).** For every phase other than the `complete` summary
phase, the dispatched prompt is a pure function of the state record and
the environment's file contents, directory listings and git history: it
does not depend on the clock (`Date.now()`).  Only `buildCompletePrompt`
reads the clock (see the counterexample). -/
theorem claim_C4_render_clock_independent (s : MVPBuilderState) (env : Env)
    (now1 now2 : Int) (h : s.phase ≠ "complete") :
    buildPromptSwitch s { env with now := now1 }
      = buildPromptSwitch s { env with now := now2 } := by
  unfold buildPromptSwitch
  split_ifs <;> rfl

theorem claim_C4_witness :
    baseState.phase ≠ "complete" ∧
    buildPromptSwitch baseState { baseEnv with now := 5 }
      = buildPromptSwitch baseState { baseEnv with now := 77 } :=
  ⟨by decide, claim_C4_render_clock_independent baseState baseEnv 5 77 (by decide)⟩

theorem checkPromises_of_noSignal (s : MVPBuilderState) (env : Env) (t : String)
    (h : signalDetected s t = false) : checkPromises s env t = noChangeSwitch s := by
  unfold signalDetected at h
  unfold checkPromises
  split_ifs at h ⊢ <;> simp_all

theorem sessionSwitch_of_noSignal (env : Env) (s : MVPBuilderState)
    (hns : ∀ t, env.session = some (some t) → signalDetected s t = false) :
    ∃ lg, sessionSwitch env s = { noChangeSwitch s with logs := lg } := by
  unfold sessionSwitch
  rcases hs : env.session with _ | svalue
  · exact ⟨_, rfl⟩
  · rcases svalue with _ | t
    · exact ⟨[], rfl⟩
    · dsimp only
      rw [checkPromises_of_noSignal s env t (hns t hs)]
      exact ⟨[], rfl⟩

theorem commitAdvance_of_noSignal (env : Env) (s : MVPBuilderState)
    (hns : ∀ t, env.session = some (some t) → signalDetected s t = false) :
    commitAdvance env s = (s, []) := by
  obtain ⟨lg, hsw⟩ := sessionSwitch_of_noSignal env s hns
  unfold commitAdvance
  rw [hsw]
  rfl

theorem stepState_of_noSignal (env : Env) (s : MVPBuilderState)
    (hns : ∀ t, env.session = some (some t) → signalDetected s t = false) :
    stepState env s = { s with currentIteration := jsAdd1 s.currentIteration } := by
  unfold stepState
  rw [commitAdvance_of_noSignal env s hns]

/-- **C5 (counterexample).**  The claim says that with no completion
signal the loop self-loops with no state change and the next dispatched
instruction is byte-identical.  In fact every trigger increments
`currentIteration` and persists the changed record (and the dispatched
text embeds the new iteration number in its status prefix), so the state
is never unchanged. -/
theorem claim_C5_counterexample :
    stateAfterOf (step baseEnv baseState).outcome
        = some ({ baseState with currentIteration := some 2 }) ∧
    ({ baseState with currentIteration := some 2 } : MVPBuilderState) ≠ baseState := by
  constructor
  · rfl
  · decide

/-- **C5 (amended).** If no completion signal is detected in a cycle, the
handler performs a self-loop that changes only the iteration counter
(`currentIteration` goes up by one; phase, prompt cursor, sequence and all
other fields are untouched), and — for every phase except the `complete`
summary — the prompt body re-rendered for the next dispatch is
byte-identical to the previous one (only the status-line prefix, which
carries the iteration number, differs). -/
theorem claim_C5_no_signal_self_loop (env : Env) (s : MVPBuilderState)
    (hact : s.active = true)
    (hge : jsGeB s.currentIteration s.maxIterations = false)
    (hns : ∀ t, env.session = some (some t) → signalDetected s t = false) :
    (step env s).outcome
      = StepOutcome.next ({ s with currentIteration := jsAdd1 s.currentIteration })
          ("[" ++ statusMsgOf env s ++ "]\n\n"
            ++ buildPromptSwitch ({ s with currentIteration := jsAdd1 s.currentIteration }) env) ∧
    (s.phase ≠ "complete" →
      buildPromptSwitch ({ s with currentIteration := jsAdd1 s.currentIteration }) env
        = buildPromptSwitch s env) := by
  have hec : (sessionSwitch env s).earlyComplete = false := by
    obtain ⟨lg, hsw⟩ := sessionSwitch_of_noSignal env s hns
    rw [hsw]
    rfl
  constructor
  · rw [step_next env s hact hge hec, stepState_of_noSignal env s hns]
  · intro hph
    unfold buildPromptSwitch
    split_ifs <;> rfl

theorem claim_C5_witness :
    (baseState.active = true ∧
      jsGeB baseState.currentIteration baseState.maxIterations = false) ∧
    ((step baseEnv baseState).outcome
      = StepOutcome.next ({ baseState with currentIteration := jsAdd1 baseState.currentIteration })
          ("[" ++ statusMsgOf baseEnv baseState ++ "]\n\n"
            ++ buildPromptSwitch
                ({ baseState with currentIteration := jsAdd1 baseState.currentIteration }) baseEnv) ∧
    (baseState.phase ≠ "complete" →
      buildPromptSwitch ({ baseState with currentIteration := jsAdd1 baseState.currentIteration }) baseEnv
        = buildPromptSwitch baseState baseEnv)) :=
  ⟨⟨rfl, rfl⟩,
   claim_C5_no_signal_self_loop baseEnv baseState rfl rfl
     (fun t h => by simp [baseEnv] at h)⟩

theorem stepState_active (env : Env) (s : MVPBuilderState) :
    (stepState env s).active = s.active := by
  unfold stepState
  dsimp only
  exact (commitAdvance_fixed_fields env s).2.1

/-- **C9 (counterexample).**  The claim says that once the selector
reports the workflow complete, any subsequent save leaves
`active = false`.  In fact the handler never clears `active`: a trigger in
the `complete` phase without the final `MVP_COMPLETE` signal persists a
record that still has `active = true`. -/
theorem claim_C9_counterexample :
    (stateAfterOf (step baseEnv completePhaseState).outcome).map (fun s' => s'.active)
      = some true := by
  rfl

/-- **C9 (amended).** Once the workflow is in the `complete` phase, every
subsequent save leaves `active` unchanged (still `true`; it is never set
to `false`), and after the terminal clear — triggered by the
`MVP_COMPLETE` classification — the state store reports absent: the state
file no longer exists and loading yields nothing. -/
theorem claim_C9_completion_closure (env : Env) (s : MVPBuilderState)
    (hact : s.active = true) (hph : s.phase = "complete") :
    (∀ s' d, (step env s).outcome = StepOutcome.next s' d → s'.active = s.active) ∧
    ((∃ t, env.session = some (some t) ∧ hasPromise t "MVP_COMPLETE" = true) →
      jsGeB s.currentIteration s.maxIterations = false →
      (step env s).outcome = StepOutcome.completedDone ∧
      (∀ f, (handleSessionIdle env f).1.outcome = StepOutcome.completedDone →
        (handleSessionIdle env f).2 = none) ∧
      parseState env.nowIso none = none) := by
  constructor
  · intro s' d hnext
    rcases step_outcome_cases env s hact with hc | hc | ⟨d', hc⟩ <;> rw [hc] at hnext
    · cases hnext
    · cases hnext
    · injection hnext with h1 h2
      rw [← h1]
      exact stepState_active env s
  · rintro ⟨t, ht, hpr⟩ hge
    have hec : (sessionSwitch env s).earlyComplete = true :=
      (sessionSwitch_earlyComplete_iff env s).mpr ⟨hph, t, ht, hpr⟩
    refine ⟨by rw [step_early_complete env s hact hge hec], ?_, rfl⟩
    intro f
    unfold handleSessionIdle
    rcases parseState env.nowIso f with _ | s0
    · intro h
      cases h
    · dsimp only
      rcases houtcome : (step env s0).outcome with _ | _ | _ | ⟨s', d⟩ <;>
        simp [houtcome]

theorem claim_C9_witness :
    (completePhaseState.active = true ∧ completePhaseState.phase = "complete" ∧
      (∃ t, completeSignalEnv.session = some (some t) ∧ hasPromise t "MVP_COMPLETE" = true) ∧
      jsGeB completePhaseState.currentIteration completePhaseState.maxIterations = false) ∧
    ((∀ s' d, (step completeSignalEnv completePhaseState).outcome = StepOutcome.next s' d →
        s'.active = completePhaseState.active) ∧
      ((∃ t, completeSignalEnv.session = some (some t) ∧ hasPromise t "MVP_COMPLETE" = true) →
        jsGeB completePhaseState.currentIteration completePhaseState.maxIterations = false →
        (step completeSignalEnv completePhaseState).outcome = StepOutcome.completedDone ∧
        (∀ f, (handleSessionIdle completeSignalEnv f).1.outcome = StepOutcome.completedDone →
          (handleSessionIdle completeSignalEnv f).2 = none) ∧
        parseState completeSignalEnv.nowIso none = none)) :=
  ⟨⟨rfl, rfl, ⟨"<promise>MVP_COMPLETE</promise>", rfl, by decide⟩, rfl⟩,
   claim_C9_completion_closure completeSignalEnv completePhaseState rfl rfl⟩

theorem data_append_ne_nil (a b : String) (h : a.data ≠ []) :
    (a ++ b).data ≠ [] := by
  rw [String.data_append]
  intro hc
  exact h (List.append_eq_nil.mp hc).1

theorem string_append_ne_empty_left (a b : String) (h : a.data ≠ []) :
    a ++ b ≠ "" := by
  intro hcontra
  apply h
  have hd : (a ++ b).data = "".data := by rw [hcontra]
  rw [String.data_append] at hd
  rcases ha : a.data with _ | ⟨c, rest⟩
  · rfl
  · rw [ha] at hd
    cases hd

theorem buildPromptSwitch_generating_prompts (s : MVPBuilderState) (env : Env)
    (h : s.phase = "generating_prompts") :
    buildPromptSwitch s env = buildPhase1BPrompt s env := by
  unfold buildPromptSwitch
  rw [h]
  simp

/-- **C8.** In the `generating_prompts` phase, when the `PROMPTS_GENERATED`
marker is detected but prompt-file discovery returns zero files, an error
is logged and the phase is left unchanged — the cycle re-issues the
prompt-generation instruction (`buildPhase1BPrompt`) — while the phase
advances to `executing` exactly when at least one prompt file is
discovered. -/
theorem claim_C8_zero_discovery_warns (env : Env) (s : MVPBuilderState)
    (hact : s.active = true)
    (hge : jsGeB s.currentIteration s.maxIterations = false)
    (hph : s.phase = "generating_prompts")
    (t : String) (ht : env.session = some (some t))
    (hpr : hasPromise t "PROMPTS_GENERATED" = true) :
    (discoverPromptFiles env (pathJoin env.directory s.instructionsPath) = [] →
      (step env s).outcome
        = StepOutcome.next
            ({ s with
               promptSequence := [], totalPrompts := some 0,
               currentIteration := jsAdd1 s.currentIteration })
            ("[" ++ statusMsgOf env s ++ "]\n\n"
              ++ buildPhase1BPrompt
                  ({ s with
                     promptSequence := [], totalPrompts := some 0,
                     currentIteration := jsAdd1 s.currentIteration }) env) ∧
      (step env s).logs
        = [("error", "No prompt files found in "
              ++ pathJoin env.directory s.instructionsPath
              ++ ". Looking for prompt_01.md, prompt_02.md, etc."),
           ("info", statusMsgOf env s)]) ∧
    (discoverPromptFiles env (pathJoin env.directory s.instructionsPath) ≠ [] →
      ∀ s' d, (step env s).outcome = StepOutcome.next s' d → s'.phase = "executing") := by
  have hswitch : sessionSwitch env s = checkPromises s env t := by
    unfold sessionSwitch
    rw [ht]
  have hcp : checkPromises s env t
      = (let seq := discoverPromptFiles env (pathJoin env.directory s.instructionsPath)
         if 0 < seq.length then
          { seq := updateStatus seq (some 0) PStatus.in_progress, idx := some 0,
            total := some (seq.length : Int), shouldAdvance := true,
            commitMessage := "MVP Builder: Generated "
              ++ jsNumToString (some (seq.length : Int)) ++ " execution prompts",
            nextPhase := "executing", logs := [], earlyComplete := false }
         else
          { noChangeSwitch s with
            seq := seq, total := some (seq.length : Int),
            logs := [("error", "No prompt files found in "
              ++ pathJoin env.directory s.instructionsPath
              ++ ". Looking for prompt_01.md, prompt_02.md, etc.")] }) := by
    unfold checkPromises
    rw [hph]
    simp only [decide_True, decide_False, if_true, if_false, reduceIte]
    rw [hpr]
    simp
  constructor
  · intro hdisc
    have hzero : (discoverPromptFiles env (pathJoin env.directory s.instructionsPath)).length = 0 := by
      rw [hdisc]
      rfl
    have hcp2 : checkPromises s env t
        = { noChangeSwitch s with
            seq := [], total := some 0,
            logs := [("error", "No prompt files found in "
              ++ pathJoin env.directory s.instructionsPath
              ++ ". Looking for prompt_01.md, prompt_02.md, etc.")] } := by
      rw [hcp]
      simp only [hdisc, hzero]
      rfl
    have hec : (sessionSwitch env s).earlyComplete = false := by
      rw [hswitch, hcp2]
      rfl
    have hca : commitAdvance env s
        = ({ s with promptSequence := [], totalPrompts := some 0 }, []) := by
      unfold commitAdvance
      rw [hswitch, hcp2]
      rfl
    have hss : stepState env s
        = { s with
            promptSequence := [], totalPrompts := some 0,
            currentIteration := jsAdd1 s.currentIteration } := by
      unfold stepState
      rw [hca]
    have hphase2 : (stepState env s).phase = "generating_prompts" := by
      rw [hss]
      exact hph
    constructor
    · rw [step_next env s hact hge hec, hss]
      rw [← hss, buildPromptSwitch_generating_prompts (stepState env s) env hphase2, hss]
    · rw [step_next env s hact hge hec, hswitch, hcp2, hca]
      rfl
  · intro hdisc s' d hnext
    have hpos : 0 < (discoverPromptFiles env (pathJoin env.directory s.instructionsPath)).length := by
      rcases hd : discoverPromptFiles env (pathJoin env.directory s.instructionsPath) with _ | ⟨p, ps⟩
      · exact absurd hd hdisc
      · exact Nat.succ_pos _
    have hcp2 : (checkPromises s env t).shouldAdvance = true ∧
        (checkPromises s env t).nextPhase = "executing" ∧
        (checkPromises s env t).earlyComplete = false ∧
        (checkPromises s env t).commitMessage ≠ "" := by
      rw [hcp]
      simp only [hpos, if_pos]
      refine ⟨by trivial, by trivial, by trivial, ?_⟩
      apply string_append_ne_empty_left
      apply data_append_ne_nil
      decide
    have hec : (sessionSwitch env s).earlyComplete = false := by
      rw [hswitch]
      exact hcp2.2.2.1
    rw [step_next env s hact hge hec] at hnext
    injection hnext with h1 h2
    rw [← h1]
    show (stepState env s).phase = "executing"
    unfold stepState
    dsimp only
    unfold commitAdvance
    rw [hswitch]
    rw [if_pos]
    · split
      · exact hcp2.2.1
      · exact hcp2.2.1
    · rw [hcp2.1]
      simp [hcp2.2.2.2]

theorem claim_C8_witness :
    (genPromptsState.active = true ∧
      jsGeB genPromptsState.currentIteration genPromptsState.maxIterations = false ∧
      genPromptsState.phase = "generating_prompts" ∧
      promptsSignalEnv.session = some (some "<promise>PROMPTS_GENERATED</promise>") ∧
      hasPromise "<promise>PROMPTS_GENERATED</promise>" "PROMPTS_GENERATED" = true) ∧
    ((discoverPromptFiles promptsSignalEnv
        (pathJoin promptsSignalEnv.directory genPromptsState.instructionsPath) = [] →
      (step promptsSignalEnv genPromptsState).outcome
        = StepOutcome.next
            ({ genPromptsState with
               promptSequence := [], totalPrompts := some 0,
               currentIteration := jsAdd1 genPromptsState.currentIteration })
            ("[" ++ statusMsgOf promptsSignalEnv genPromptsState ++ "]\n\n"
              ++ buildPhase1BPrompt
                  ({ genPromptsState with
                     promptSequence := [], totalPrompts := some 0,
                     currentIteration := jsAdd1 genPromptsState.currentIteration })
                  promptsSignalEnv) ∧
      (step promptsSignalEnv genPromptsState).logs
        = [("error", "No prompt files found in "
              ++ pathJoin promptsSignalEnv.directory genPromptsState.instructionsPath
              ++ ". Looking for prompt_01.md, prompt_02.md, etc."),
           ("info", statusMsgOf promptsSignalEnv genPromptsState)]) ∧
    (discoverPromptFiles promptsSignalEnv
        (pathJoin promptsSignalEnv.directory genPromptsState.instructionsPath) ≠ [] →
      ∀ s' d, (step promptsSignalEnv genPromptsState).outcome = StepOutcome.next s' d →
        s'.phase = "executing")) :=
  ⟨⟨rfl, rfl, rfl, rfl, by decide⟩,
   claim_C8_zero_discovery_warns promptsSignalEnv genPromptsState rfl rfl rfl
     "<promise>PROMPTS_GENERATED</promise>" rfl (by decide)⟩

/-- **C7.** Loading the persisted state never fails to the caller: a
missing file yields `none`, and for every file content the parser yields
`none` exactly when the anchored frontmatter pattern does not match (in
which case the workflow merely appears inactive); otherwise it always
produces a state record.  This holds for the main plugin's `parseState`
and for the story-queue plugin's `parseState` (`src/unnamed/part_004`). -/
theorem claim_C7_load_total (nowIso : String) :
    parseState nowIso none = none ∧
    (∀ c : String, parseState nowIso (some c) = none ↔ frontmatterSplit c.data = none) ∧
    V3.parseState nowIso none = none ∧
    (∀ c : String, V3.parseState nowIso (some c) = none ↔ V3.frontmatterMatch c.data = none) := by
  refine ⟨rfl, ?_, rfl, ?_⟩
  · intro c
    unfold parseState
    rcases hfm : frontmatterSplit c.data with _ | ⟨fm, body⟩ <;> simp [hfm]
  · intro c
    unfold V3.parseState
    rcases hfm : V3.frontmatterMatch c.data with _ | fm <;> simp [hfm]

theorem natToDigitsAux_eq : ∀ (fuel n : Nat) (acc : List Char), n ≤ fuel →
    natToDigitsAux fuel n acc = ((Nat.digits 10 n).reverse.map digitCharOf) ++ acc := by
  intro fuel
  induction fuel with
  | zero =>
    intro n acc h
    interval_cases n
    simp [natToDigitsAux]
  | succ f ih =>
    intro n acc h
    match n with
    | 0 => simp [natToDigitsAux]
    | m + 1 =>
      have hdiv : (m + 1) / 10 ≤ f := by
        have := Nat.div_lt_self (Nat.succ_pos m) (by norm_num : 1 < 10)
        omega
      rw [natToDigitsAux, ih ((m + 1) / 10) _ hdiv,
        Nat.digits_def' (by norm_num : 1 < 10) (Nat.succ_pos m)]
      simp [digitCharOf, List.append_assoc]

theorem natToDigits_eq (n : Nat) (h : n ≠ 0) :
    natToDigits n = (Nat.digits 10 n).reverse.map digitCharOf := by
  unfold natToDigits
  rw [if_neg h, natToDigitsAux_eq n n [] le_rfl, List.append_nil]

theorem digitCharOf_mem (d : Nat) (h : d < 10) : digitCharOf d ∈ digitChars := by
  interval_cases d <;> decide

theorem digitChars_props : ∀ c ∈ digitChars,
    isLineTerm c = false ∧ isJsWhitespace c = false ∧ isQuoteChar c = false ∧
    (c == '_') = false ∧ c.isDigit = true ∧ (c == '-') = false ∧ (c == '+') = false ∧
    c ≠ '-' ∧ c ≠ '+' ∧ c ≠ '.' := by decide

theorem natToDigits_mem (n : Nat) : ∀ c ∈ natToDigits n, c ∈ digitChars := by
  by_cases h : n = 0
  · subst h; decide
  · rw [natToDigits_eq n h]
    intro c hc
    rcases List.mem_map.1 hc with ⟨d, hd, rfl⟩
    exact digitCharOf_mem d (Nat.digits_lt_base (by norm_num) (List.mem_reverse.1 hd))

theorem natToDigits_ne_nil (n : Nat) : natToDigits n ≠ [] := by
  by_cases h : n = 0
  · subst h; decide
  · rw [natToDigits_eq n h]
    simp [Nat.digits_ne_nil_iff_ne_zero, h]

theorem toNat_digitCharOf (d : Nat) (h : d < 10) : (digitCharOf d).toNat = 48 + d := by
  interval_cases d <;> decide

theorem digitsToNat_natToDigits (n : Nat) : digitsToNat (natToDigits n) = n := by
  by_cases h : n = 0
  · subst h; decide
  · rw [natToDigits_eq n h]
    unfold digitsToNat
    rw [List.foldl_map, List.foldl_reverse]
    have key : ∀ L : List Nat, (∀ d ∈ L, d < 10) →
        List.foldr (fun y x => x * 10 + ((digitCharOf y).toNat - 48)) 0 L = Nat.ofDigits 10 L := by
      intro L
      induction L with
      | nil => simp [Nat.ofDigits]
      | cons d L ihL =>
        intro hL
        rw [List.foldr_cons, ihL (fun e he => hL e (List.mem_cons_of_mem d he)),
          Nat.ofDigits_cons, toNat_digitCharOf d (hL d (List.mem_cons_self d L))]
        omega
    rw [key _ (fun d hd => Nat.digits_lt_base (by norm_num) hd), Nat.ofDigits_digits]

theorem jsNumToString_ne_empty (x : Option Int) : jsNumToString x ≠ "" := by
  match x with
  | none => decide
  | some n =>
    simp only [jsNumToString]
    split_ifs with h
    · intro hcon
      have : ('-' :: natToDigits n.natAbs) = ([] : List Char) := congrArg String.data hcon
      simp at this
    · intro hcon
      have : natToDigits n.natAbs = ([] : List Char) := congrArg String.data hcon
      exact natToDigits_ne_nil _ this

theorem takeWhile_eq_self_of_all {p : Char → Bool} :
    ∀ {l : List Char}, (∀ c ∈ l, p c = true) → l.takeWhile p = l := by
  intro l
  induction l with
  | nil => intro _; rfl
  | cons c t ih =>
    intro h
    simp [List.takeWhile_cons, h c (List.mem_cons_self c t),
      ih (fun e he => h e (List.mem_cons_of_mem c he))]

theorem jsParseInt_mk_digits (c : Char) (t : List Char)
    (hall : ∀ e ∈ c :: t, e ∈ digitChars) :
    jsParseInt (String.mk (c :: t)) = some ((digitsToNat (c :: t) : Int)) := by
  have hc := digitChars_props c (hall c (List.mem_cons_self c t))
  have hdw : List.dropWhile isJsWhitespace (c :: t) = c :: t := by
    simp [List.dropWhile_cons, hc.2.1]
  have htw : List.takeWhile Char.isDigit (c :: t) = c :: t := by
    apply takeWhile_eq_self_of_all
    intro e he
    exact (digitChars_props e (hall e he)).2.2.2.2.1
  unfold jsParseInt
  simp only [show (String.mk (c :: t)).data = c :: t from rfl, hdw, htw,
    hc.2.2.2.2.2.2.2.1, hc.2.2.2.2.2.2.2.2.1, decide_eq_false, or_self, if_false,
    if_neg (List.cons_ne_nil c t)]
  simp [hc.2.2.2.2.2.2.2.1]

theorem jsParseInt_mk_neg_digits (c : Char) (t : List Char)
    (hall : ∀ e ∈ c :: t, e ∈ digitChars) :
    jsParseInt (String.mk ('-' :: c :: t)) = some (-(digitsToNat (c :: t) : Int)) := by
  have hc := digitChars_props c (hall c (List.mem_cons_self c t))
  have hdw : List.dropWhile isJsWhitespace ('-' :: c :: t) = '-' :: c :: t := by
    have hd : isJsWhitespace '-' = false := by decide
    simp [List.dropWhile_cons, hd]
  have htw : List.takeWhile Char.isDigit (c :: t) = c :: t := by
    apply takeWhile_eq_self_of_all
    intro e he
    exact (digitChars_props e (hall e he)).2.2.2.2.1
  unfold jsParseInt
  simp only [show (String.mk ('-' :: c :: t)).data = '-' :: c :: t from rfl, hdw]
  simp [htw, List.cons_ne_nil]

theorem jsParseInt_round (x : Option Int) : jsParseInt (jsNumToString x) = x := by
  match x with
  | none => decide
  | some n =>
    by_cases h0 : n = 0
    · subst h0; decide
    have habs : n.natAbs ≠ 0 := Int.natAbs_ne_zero.2 h0
    have hds := natToDigits_mem n.natAbs
    have hne := natToDigits_ne_nil n.natAbs
    rcases hcons : natToDigits n.natAbs with _ | ⟨c, t⟩
    · exact absurd hcons hne
    have hall : ∀ e ∈ c :: t, e ∈ digitChars := by
      intro e he; exact hds e (hcons ▸ he)
    have hval : digitsToNat (c :: t) = n.natAbs := by
      rw [← hcons, digitsToNat_natToDigits]
    simp only [jsNumToString]
    split_ifs with hneg
    · rw [hcons, jsParseInt_mk_neg_digits c t hall, hval]
      congr 1
      omega
    · rw [hcons, jsParseInt_mk_digits c t hall, hval]
      congr 1
      omega

theorem noLT_append (a b : List Char) : noLT (a ++ b) = (noLT a && noLT b) := by
  simp [noLT, List.all_append]

theorem noLT_iff (l : List Char) : noLT l = true ↔ ∀ c ∈ l, isLineTerm c = false := by
  simp [noLT, List.all_eq_true]

theorem hexVal_hexDigitChar (r : Nat) (h : r < 16) : hexVal (hexDigitChar r) = some r := by
  interval_cases r <;> decide

theorem hexDigitChar_noLT (r : Nat) (h : r < 16) : isLineTerm (hexDigitChar r) = false := by
  interval_cases r <;> decide

theorem psb_backslash (e : Char) (X : List Char) (he : ¬ e = 'u') :
    parseStringBody ('\\' :: e :: X) =
      (match jsonUnescapeChar e with
       | some d => (parseStringBody X).map (fun pr => (d :: pr.1, pr.2))
       | none => none) := by
  rw [parseStringBody.eq_def]
  simp [he]

theorem psb_plain (c : Char) (X : List Char) (h1 : ¬ c = '"') (h2 : ¬ c = '\\')
    (h3 : ¬ c.toNat < 0x20) :
    parseStringBody (c :: X) = (parseStringBody X).map (fun pr => (c :: pr.1, pr.2)) := by
  rw [parseStringBody.eq_def]
  simp [h1, h2, h3]

theorem psb_u (e1 e2 e3 e4 : Char) (X : List Char) :
    parseStringBody ('\\' :: 'u' :: e1 :: e2 :: e3 :: e4 :: X) =
      (match hexVal e1, hexVal e2, hexVal e3, hexVal e4 with
       | some a, some b, some c2, some d =>
         let n := ((a * 16 + b) * 16 + c2) * 16 + d
         if h : n.isValidChar then
           (parseStringBody X).map (fun pr => (Char.ofNatAux n h :: pr.1, pr.2))
         else none
       | _, _, _, _ => none) := by
  rw [parseStringBody.eq_def]
  simp

theorem jsonEscapeChar_ctrl (c : Char) (h1 : ¬ c = '"') (h2 : ¬ c = '\\')
    (h3 : ¬ c = '\x08') (h4 : ¬ c = '\x0c') (h5 : ¬ c = '\n') (h6 : ¬ c = '\r')
    (h7 : ¬ c = '\t') (h8 : c.toNat < 0x20) :
    jsonEscapeChar c = ['\\', 'u', '0', '0', hexDigitChar (c.toNat / 16), hexDigitChar (c.toNat % 16)] := by
  unfold jsonEscapeChar
  simp [h1, h2, h3, h4, h5, h6, h7, h8]

theorem jsonEscapeChar_plain (c : Char) (h1 : ¬ c = '"') (h2 : ¬ c = '\\')
    (h8 : ¬ c.toNat < 0x20) :
    jsonEscapeChar c = [c] := by
  have h3 : ¬ c = '\x08' := fun h => h8 (by subst h; decide)
  have h4 : ¬ c = '\x0c' := fun h => h8 (by subst h; decide)
  have h5 : ¬ c = '\n' := fun h => h8 (by subst h; decide)
  have h6 : ¬ c = '\r' := fun h => h8 (by subst h; decide)
  have h7 : ¬ c = '\t' := fun h => h8 (by subst h; decide)
  unfold jsonEscapeChar
  simp [h1, h2, h3, h4, h5, h6, h7, h8]

theorem psb_round : ∀ (l : List Char) (rest : List Char),
    parseStringBody (l.flatMap jsonEscapeChar ++ '"' :: rest) = some (l, rest) := by
  intro l
  induction l with
  | nil =>
    intro rest
    show parseStringBody ('"' :: rest) = some ([], rest)
    rw [parseStringBody.eq_def]
    rfl
  | cons c l ih =>
    intro rest
    rw [List.flatMap_cons, List.append_assoc]
    by_cases h1 : c = '"'
    · subst h1
      rw [show jsonEscapeChar '"' = ['\\', '"'] from rfl]
      rw [show (['\\', '"'] : List Char) ++ (l.flatMap jsonEscapeChar ++ '"' :: rest) =
          '\\' :: '"' :: (l.flatMap jsonEscapeChar ++ '"' :: rest) from rfl]
      rw [psb_backslash _ _ (by decide), show jsonUnescapeChar '"' = some '"' from rfl, ih]
      rfl
    by_cases h2 : c = '\\'
    · subst h2
      rw [show jsonEscapeChar '\\' = ['\\', '\\'] from rfl]
      rw [show (['\\', '\\'] : List Char) ++ (l.flatMap jsonEscapeChar ++ '"' :: rest) =
          '\\' :: '\\' :: (l.flatMap jsonEscapeChar ++ '"' :: rest) from rfl]
      rw [psb_backslash _ _ (by decide), show jsonUnescapeChar '\\' = some '\\' from rfl, ih]
      rfl
    by_cases h3 : c = '\x08'
    · subst h3
      rw [show jsonEscapeChar '\x08' = ['\\', 'b'] from rfl]
      rw [show (['\\', 'b'] : List Char) ++ (l.flatMap jsonEscapeChar ++ '"' :: rest) =
          '\\' :: 'b' :: (l.flatMap jsonEscapeChar ++ '"' :: rest) from rfl]
      rw [psb_backslash _ _ (by decide), show jsonUnescapeChar 'b' = some '\x08' from rfl, ih]
      rfl
    by_cases h4 : c = '\x0c'
    · subst h4
      rw [show jsonEscapeChar '\x0c' = ['\\', 'f'] from rfl]
      rw [show (['\\', 'f'] : List Char) ++ (l.flatMap jsonEscapeChar ++ '"' :: rest) =
          '\\' :: 'f' :: (l.flatMap jsonEscapeChar ++ '"' :: rest) from rfl]
      rw [psb_backslash _ _ (by decide), show jsonUnescapeChar 'f' = some '\x0c' from rfl, ih]
      rfl
    by_cases h5 : c = '\n'
    · subst h5
      rw [show jsonEscapeChar '\n' = ['\\', 'n'] from rfl]
      rw [show (['\\', 'n'] : List Char) ++ (l.flatMap jsonEscapeChar ++ '"' :: rest) =
          '\\' :: 'n' :: (l.flatMap jsonEscapeChar ++ '"' :: rest) from rfl]
      rw [psb_backslash _ _ (by decide), show jsonUnescapeChar 'n' = some '\n' from rfl, ih]
      rfl
    by_cases h6 : c = '\r'
    · subst h6
      rw [show jsonEscapeChar '\r' = ['\\', 'r'] from rfl]
      rw [show (['\\', 'r'] : List Char) ++ (l.flatMap jsonEscapeChar ++ '"' :: rest) =
          '\\' :: 'r' :: (l.flatMap jsonEscapeChar ++ '"' :: rest) from rfl]
      rw [psb_backslash _ _ (by decide), show jsonUnescapeChar 'r' = some '\r' from rfl, ih]
      rfl
    by_cases h7 : c = '\t'
    · subst h7
      rw [show jsonEscapeChar '\t' = ['\\', 't'] from rfl]
      rw [show (['\\', 't'] : List Char) ++ (l.flatMap jsonEscapeChar ++ '"' :: rest) =
          '\\' :: 't' :: (l.flatMap jsonEscapeChar ++ '"' :: rest) from rfl]
      rw [psb_backslash _ _ (by decide), show jsonUnescapeChar 't' = some '\t' from rfl, ih]
      rfl
    by_cases h8 : c.toNat < 0x20
    · rw [jsonEscapeChar_ctrl c h1 h2 h3 h4 h5 h6 h7 h8]
      rw [show (['\\', 'u', '0', '0', hexDigitChar (c.toNat / 16), hexDigitChar (c.toNat % 16)] : List Char)
            ++ (l.flatMap jsonEscapeChar ++ '"' :: rest) =
          '\\' :: 'u' :: '0' :: '0' :: hexDigitChar (c.toNat / 16) :: hexDigitChar (c.toNat % 16)
            :: (l.flatMap jsonEscapeChar ++ '"' :: rest) from rfl]
      rw [psb_u]
      have hdiv : c.toNat / 16 < 16 := by omega
      have hmod : c.toNat % 16 < 16 := by omega
      rw [hexVal_hexDigitChar _ hdiv, hexVal_hexDigitChar _ hmod]
      simp only [show hexVal '0' = some 0 from rfl]
      have hn : ((0 * 16 + 0) * 16 + c.toNat / 16) * 16 + c.toNat % 16 = c.toNat := by omega
      simp only [hn]
      have hv : c.toNat.isValidChar := c.valid
      rw [dif_pos hv]
      have hofn : Char.ofNatAux c.toNat hv = c := by
        have h := Char.ofNat_toNat c
        unfold Char.ofNat at h
        rw [dif_pos hv] at h
        exact h
      rw [hofn, ih]
      rfl
    · rw [jsonEscapeChar_plain c h1 h2 h8]
      rw [show ([c] : List Char) ++ (l.flatMap jsonEscapeChar ++ '"' :: rest) =
          c :: (l.flatMap jsonEscapeChar ++ '"' :: rest) from rfl]
      rw [psb_plain c _ h1 h2 h8, ih]
      rfl

theorem stringify_data (d : String) :
    (jsonStringifyString d).data = '"' :: (d.data.flatMap jsonEscapeChar ++ ['"']) := by
  simp [jsonStringifyString, String.data_append]

theorem jsJoin_elems_data (docs : List String) :
    (jsJoin "," (docs.map jsonStringifyString)).data = elemsData docs := by
  induction docs with
  | nil => rfl
  | cons d rest ih =>
    cases rest with
    | nil => rfl
    | cons e r =>
      simp only [List.map_cons]
      rw [show jsJoin "," (jsonStringifyString d :: jsonStringifyString e :: List.map jsonStringifyString r) =
          jsonStringifyString d ++ "," ++ jsJoin "," (jsonStringifyString e :: List.map jsonStringifyString r) from rfl]
      simp only [String.data_append]
      rw [show jsJoin "," (List.map jsonStringifyString (e :: r)) = jsJoin "," (jsonStringifyString e :: List.map jsonStringifyString r) from rfl] at ih
      rw [ih]
      simp [elemsData]

theorem jsonStringifyList_data (docs : List String) :
    (jsonStringifyList docs).data = '[' :: (elemsData docs ++ [']']) := by
  simp [jsonStringifyList, String.data_append, jsJoin_elems_data]

theorem elemsData_length : ∀ docs : List String, docs.length ≤ (elemsData docs).length := by
  intro docs
  induction docs with
  | nil => simp [elemsData]
  | cons d ds ih =>
    cases ds with
    | nil => simp [elemsData, stringify_data]
    | cons e r =>
      simp only [elemsData, List.length_append, List.length_cons, stringify_data] at *
      omega

theorem parseElems_round : ∀ (docs : List String) (fuel : Nat) (rest : List Char),
    docs ≠ [] → docs.length ≤ fuel →
    parseElemsAux fuel (elemsData docs ++ ']' :: rest) = some (docs, rest) := by
  intro docs
  induction docs with
  | nil => intro fuel rest h _; exact absurd rfl h
  | cons d ds ih =>
    intro fuel rest _ hlen
    rcases fuel with _ | f
    · simp at hlen
    cases ds with
    | nil =>
      simp only [elemsData, stringify_data]
      rw [show ('"' :: (d.data.flatMap jsonEscapeChar ++ ['"'])) ++ ']' :: rest =
          '"' :: (d.data.flatMap jsonEscapeChar ++ '"' :: ']' :: rest) by simp]
      unfold parseElemsAux
      rw [show List.dropWhile isJsonWs ('"' :: (d.data.flatMap jsonEscapeChar ++ '"' :: ']' :: rest)) =
          '"' :: (d.data.flatMap jsonEscapeChar ++ '"' :: ']' :: rest) from by
        simp [List.dropWhile_cons, show isJsonWs '"' = false from rfl]]
      simp only [if_pos rfl, psb_round]
      simp [List.dropWhile_cons, show isJsonWs ']' = false from rfl]
    | cons e r =>
      simp only [elemsData, stringify_data]
      rw [show (('"' :: (d.data.flatMap jsonEscapeChar ++ ['"'])) ++ ',' :: elemsData (e :: r)) ++ ']' :: rest =
          '"' :: (d.data.flatMap jsonEscapeChar ++ '"' :: ',' :: (elemsData (e :: r) ++ ']' :: rest)) by simp]
      unfold parseElemsAux
      rw [show List.dropWhile isJsonWs ('"' :: (d.data.flatMap jsonEscapeChar ++ '"' :: ',' :: (elemsData (e :: r) ++ ']' :: rest))) =
          '"' :: (d.data.flatMap jsonEscapeChar ++ '"' :: ',' :: (elemsData (e :: r) ++ ']' :: rest)) from by
        simp [List.dropWhile_cons, show isJsonWs '"' = false from rfl]]
      simp only [if_pos rfl, psb_round]
      rw [show List.dropWhile isJsonWs (',' :: (elemsData (e :: r) ++ ']' :: rest)) =
          ',' :: (elemsData (e :: r) ++ ']' :: rest) from by
        simp [List.dropWhile_cons, show isJsonWs ',' = false from rfl]]
      simp only [if_pos rfl]
      rw [ih f rest (List.cons_ne_nil e r) (by simp at hlen ⊢; omega)]
      rfl

theorem elemsData_head (d : String) (ds : List String) :
    ∃ y, elemsData (d :: ds) = '"' :: y := by
  cases ds <;> simp [elemsData, stringify_data]

theorem jsonParse_round (docs : List String) (hne : docs ≠ []) :
    jsonParseStringList (jsonStringifyList docs) = some docs := by
  rcases docs with _ | ⟨d, ds⟩
  · exact absurd rfl hne
  rcases elemsData_head d ds with ⟨y, hy⟩
  unfold jsonParseStringList
  rw [jsonStringifyList_data]
  rw [show List.dropWhile isJsonWs ('[' :: (elemsData (d :: ds) ++ [']'])) =
      '[' :: (elemsData (d :: ds) ++ [']']) from by
    simp [List.dropWhile_cons, show isJsonWs '[' = false from rfl]]
  simp only [if_pos rfl]
  rw [hy]
  rw [show List.dropWhile isJsonWs (('"' :: y) ++ [']']) = '"' :: (y ++ [']']) from by
    simp [List.dropWhile_cons, show isJsonWs '"' = false from rfl]]
  rw [show (('"' :: y) ++ [']'] : List Char).length + 1 = (y ++ [']']).length + 2 from by simp]
  rw [← hy]
  have hlen : (d :: ds).length ≤ (elemsData (d :: ds)).length := elemsData_length _
  rw [show (elemsData (d :: ds) ++ ([']'] : List Char)) = elemsData (d :: ds) ++ ']' :: [] from rfl]
  rw [show ((y ++ ([']'] : List Char)).length + 2) = y.length + 3 from by simp]
  rw [parseElems_round (d :: ds) _ [] (List.cons_ne_nil d ds) (by
    have : (elemsData (d :: ds)).length = y.length + 1 := by rw [hy]; simp
    omega)]
  have hq : ('"' : Char) ≠ ']' := by decide
  simp [hy, hq]

theorem jsonStringifyList_ne (d : String) (ds : List String) :
    jsonStringifyList (d :: ds) ≠ "" ∧ jsonStringifyList (d :: ds) ≠ "[]" := by
  have h := jsonStringifyList_data (d :: ds)
  rcases elemsData_head d ds with ⟨y, hy⟩
  constructor
  · intro hcon
    rw [hcon] at h
    simp at h
  · intro hcon
    rw [hcon] at h
    rw [hy] at h
    simp [show ("[]" : String).data = ['[', ']'] from rfl] at h

theorem jsonEscapeChar_noLT (c : Char) (h28 : ¬ c = '\u2028') (h29 : ¬ c = '\u2029') :
    ∀ d ∈ jsonEscapeChar c, isLineTerm d = false := by
  by_cases h1 : c = '"'
  · subst h1; decide
  by_cases h2 : c = '\\'
  · subst h2; decide
  by_cases h3 : c = '\x08'
  · subst h3; decide
  by_cases h4 : c = '\x0c'
  · subst h4; decide
  by_cases h5 : c = '\n'
  · subst h5; decide
  by_cases h6 : c = '\r'
  · subst h6; decide
  by_cases h7 : c = '\t'
  · subst h7; decide
  by_cases h8 : c.toNat < 0x20
  · rw [jsonEscapeChar_ctrl c h1 h2 h3 h4 h5 h6 h7 h8]
    intro d hd
    have hdiv : c.toNat / 16 < 16 := by omega
    have hmod : c.toNat % 16 < 16 := by omega
    simp only [List.mem_cons, List.not_mem_nil, or_false] at hd
    rcases hd with rfl | rfl | rfl | rfl | rfl | rfl
    · rfl
    · rfl
    · rfl
    · rfl
    · exact hexDigitChar_noLT _ hdiv
    · exact hexDigitChar_noLT _ hmod
  · rw [jsonEscapeChar_plain c h1 h2 h8]
    intro d hd
    simp only [List.mem_cons, List.not_mem_nil, or_false] at hd
    subst hd
    simp [isLineTerm, h5, h6, h28, h29]

theorem stringify_noLT (d : String)
    (hd : ∀ c ∈ d.data, ¬ c = '\u2028' ∧ ¬ c = '\u2029') :
    noLT (jsonStringifyString d).data = true := by
  rw [stringify_data, noLT_iff]
  intro c hc
  simp only [List.mem_cons, List.mem_append, List.mem_singleton, List.not_mem_nil, or_false] at hc
  rcases hc with rfl | hc | rfl
  · rfl
  · rcases List.mem_flatMap.1 hc with ⟨e, he, hce⟩
    exact jsonEscapeChar_noLT e (hd e he).1 (hd e he).2 c hce
  · rfl

theorem jsonList_noLT (docs : List String)
    (h : ∀ d ∈ docs, ∀ c ∈ d.data, ¬ c = '\u2028' ∧ ¬ c = '\u2029') :
    noLT (jsonStringifyList docs).data = true := by
  have helems : ∀ ds : List String, (∀ d ∈ ds, ∀ c ∈ d.data, ¬ c = '\u2028' ∧ ¬ c = '\u2029') →
      ∀ c ∈ elemsData ds, isLineTerm c = false := by
    intro ds
    induction ds with
    | nil => intro _ c hc; cases hc
    | cons d rest ih =>
      intro hds c hc
      cases rest with
      | nil =>
        rw [show elemsData [d] = (jsonStringifyString d).data from rfl] at hc
        exact (noLT_iff _).1 (stringify_noLT d (hds d (List.mem_cons_self d []))) c hc
      | cons e r =>
        rw [show elemsData (d :: e :: r) = (jsonStringifyString d).data ++ ',' :: elemsData (e :: r) from rfl] at hc
        simp only [List.mem_append, List.mem_cons] at hc
        rcases hc with hc | rfl | hc
        · exact (noLT_iff _).1 (stringify_noLT d (hds d (List.mem_cons_self d (e :: r)))) c hc
        · rfl
        · exact ih (fun d2 hd2 => hds d2 (List.mem_cons_of_mem d hd2)) c hc
  rw [jsonStringifyList_data, noLT_iff]
  intro c hc
  simp only [List.mem_cons, List.mem_append, List.mem_singleton, List.not_mem_nil, or_false] at hc
  rcases hc with rfl | hc | rfl
  · rfl
  · exact helems docs h c hc
  · rfl

theorem sepMatch_nonLT (c : Char) (t : List Char) (h : isLineTerm c = false) :
    sepMatch (c :: t) = none := by
  have hn : ¬ c = '\n' := by
    intro hc; subst hc; simp [isLineTerm] at h
  have hr : ¬ c = '\r' := by
    intro hc; subst hc; simp [isLineTerm] at h
  unfold sepMatch newlineAfter
  simp [hn, hr]

theorem scanSep_noLT : ∀ (L rest : List Char), noLT L = true →
    scanSep (L ++ rest) = (scanSep rest).map (fun pr => (L ++ pr.1, pr.2)) := by
  intro L
  induction L with
  | nil =>
    intro rest _
    simp only [List.nil_append]
    rcases h : scanSep rest with _ | pr
    · rfl
    · simp
  | cons c L ih =>
    intro rest hL
    rw [noLT_iff] at hL
    have hc : isLineTerm c = false := hL c (List.mem_cons_self c L)
    rw [List.cons_append, scanSep, sepMatch_nonLT c _ hc]
    rw [ih rest ((noLT_iff L).2 (fun e he => hL e (List.mem_cons_of_mem c he)))]
    rcases h : scanSep rest with _ | pr <;> simp

theorem scanSep_cons_none (c : Char) (rest : List Char) (h : sepMatch (c :: rest) = none) :
    scanSep (c :: rest) = (scanSep rest).map (fun pr => (c :: pr.1, pr.2)) := by
  rw [scanSep, h]

theorem sepMatch_newline_nondash (x : Char) (r : List Char) (hx : ¬ x = '-') :
    sepMatch ('\n' :: x :: r) = none := by
  unfold sepMatch newlineAfter
  rcases r with _ | ⟨b, r2⟩
  · simp
  rcases r2 with _ | ⟨c2, r3⟩
  · simp [hx]
  · simp [hx]

theorem scanSep_terminal (B : List Char) :
    scanSep ('\n' :: '-' :: '-' :: '-' :: '\n' :: B) = some ([], B) := by
  rw [scanSep]
  rw [show sepMatch ('\n' :: '-' :: '-' :: '-' :: '\n' :: B) = some B from by
    unfold sepMatch newlineAfter; simp]

theorem scanSep_line (L : List Char) (x : Char) (rest : List Char)
    (hL : noLT L = true) (hx : ¬ x = '-') :
    scanSep (L ++ '\n' :: x :: rest) =
      (scanSep (x :: rest)).map (fun pr => (L ++ '\n' :: pr.1, pr.2)) := by
  rw [scanSep_noLT L _ hL, scanSep_cons_none '\n' _ (sepMatch_newline_nondash x rest hx)]
  rcases h : scanSep (x :: rest) with _ | pr <;> simp

theorem jsNum_noLT (x : Option Int) : noLT (jsNumToString x).data = true := by
  match x with
  | none => decide
  | some n =>
    rw [noLT_iff]
    intro c hc
    simp only [jsNumToString] at hc
    split_ifs at hc with h
    · rw [show (String.mk ('-' :: natToDigits n.natAbs)).data = '-' :: natToDigits n.natAbs from rfl,
        List.mem_cons] at hc
      rcases hc with rfl | hc
      · rfl
      · exact (digitChars_props c (natToDigits_mem _ c hc)).1
    · rw [show (String.mk (natToDigits n.natAbs)).data = natToDigits n.natAbs from rfl] at hc
      exact (digitChars_props c (natToDigits_mem _ c hc)).1

theorem noLT_lineActive (s : MVPBuilderState) : noLT (lineActive s) = true := by
  cases h : s.active <;> simp [lineActive, h, boolToString] <;> decide

theorem noLT_linePhase (s : MVPBuilderState) (h : noLT s.phase.data = true) :
    noLT (linePhase s) = true := by
  rw [noLT_iff]
  intro c hc
  simp only [linePhase, List.mem_cons] at hc
  rcases hc with rfl | rfl | rfl | rfl | rfl | rfl | rfl | rfl | hc
  · rfl
  · rfl
  · rfl
  · rfl
  · rfl
  · rfl
  · rfl
  · rfl
  rcases List.mem_append.1 hc with hc2 | hc2
  · exact (noLT_iff _).1 h c hc2
  · simp only [List.mem_singleton] at hc2
    subst hc2
    rfl

theorem noLT_cons (c : Char) (l : List Char) (hc : isLineTerm c = false)
    (hl : noLT l = true) : noLT (c :: l) = true := by
  simp [noLT, List.all_cons, hc]
  exact (noLT_iff l).1 hl

theorem noLT_append_of (a b : List Char) (ha : noLT a = true) (hb : noLT b = true) :
    noLT (a ++ b) = true := by
  rw [noLT_append, ha, hb]
  rfl

theorem noLT_lineCPI (s : MVPBuilderState) : noLT (lineCPI s) = true := by
  simp only [lineCPI]
  repeat' apply noLT_cons _ _ (by decide)
  exact jsNum_noLT _

theorem noLT_lineTP (s : MVPBuilderState) : noLT (lineTP s) = true := by
  simp only [lineTP]
  repeat' apply noLT_cons _ _ (by decide)
  exact jsNum_noLT _

theorem noLT_lineMI (s : MVPBuilderState) : noLT (lineMI s) = true := by
  simp only [lineMI]
  repeat' apply noLT_cons _ _ (by decide)
  exact jsNum_noLT _

theorem noLT_lineCI (s : MVPBuilderState) : noLT (lineCI s) = true := by
  simp only [lineCI]
  repeat' apply noLT_cons _ _ (by decide)
  exact jsNum_noLT _

theorem noLT_lineSA (s : MVPBuilderState) (h : noLT s.startedAt.data = true) :
    noLT (lineSA s) = true := by
  simp only [lineSA]
  repeat' apply noLT_cons _ _ (by decide)
  exact noLT_append_of _ _ h (by decide)

theorem noLT_lineIP (s : MVPBuilderState) (h : noLT s.instructionsPath.data = true) :
    noLT (lineIP s) = true := by
  simp only [lineIP]
  repeat' apply noLT_cons _ _ (by decide)
  exact noLT_append_of _ _ h (by decide)

theorem lcValData_eq (s : MVPBuilderState) (c : String) (hlc : s.lastCommit = some c)
    (hc : ¬ c = "") : lcValData s = '"' :: (c.data ++ ['"']) := by
  simp [lcValData, hlc, hc]

theorem noLT_lineLC (s : MVPBuilderState) (c : String) (hlc : s.lastCommit = some c)
    (hc : ¬ c = "") (h : noLT c.data = true) : noLT (lineLC s) = true := by
  simp only [lineLC]
  repeat' apply noLT_cons _ _ (by decide)
  rw [lcValData_eq s c hlc hc]
  apply noLT_cons _ _ (by decide)
  exact noLT_append_of _ _ h (by decide)

theorem noLT_lineRD (s : MVPBuilderState)
    (h : ∀ d ∈ s.referenceDocs, ∀ ch ∈ d.data, ¬ ch = '\u2028' ∧ ¬ ch = '\u2029') :
    noLT (lineRD s) = true := by
  simp only [lineRD]
  repeat' apply noLT_cons _ _ (by decide)
  exact jsonList_noLT _ h

theorem scanSep_joinLines : ∀ (Ls : List (List Char)) (B : List Char),
    (∀ L ∈ Ls, noLT L = true) →
    (∀ L ∈ Ls, ∃ x t, L = x :: t ∧ ¬ x = '-') →
    scanSep (joinLines Ls ++ '\n' :: '-' :: '-' :: '-' :: '\n' :: B) = some (joinLines Ls, B) := by
  intro Ls
  induction Ls with
  | nil =>
    intro B _ _
    exact scanSep_terminal B
  | cons L rest ih =>
    intro B hLT hhd
    cases rest with
    | nil =>
      rw [show joinLines [L] = L from rfl, scanSep_noLT L _ (hLT L (List.mem_cons_self L [])),
        scanSep_terminal B]
      simp
    | cons M rest2 =>
      rw [show joinLines (L :: M :: rest2) = L ++ '\n' :: joinLines (M :: rest2) from rfl]
      rw [List.append_assoc, List.cons_append]
      rw [scanSep_noLT L _ (hLT L (List.mem_cons_self L (M :: rest2)))]
      rcases hhd M (List.mem_cons_of_mem L (List.mem_cons_self M rest2)) with ⟨x, xt, hM, hx⟩
      have hsep : sepMatch ('\n' :: (joinLines (M :: rest2) ++ '\n' :: '-' :: '-' :: '-' :: '\n' :: B)) = none := by
        have hshape : ∃ y, joinLines (M :: rest2) ++ '\n' :: '-' :: '-' :: '-' :: '\n' :: B = x :: y := by
          cases rest2 with
          | nil => exact ⟨xt ++ '\n' :: '-' :: '-' :: '-' :: '\n' :: B, by rw [show joinLines [M] = M from rfl, hM]; simp⟩
          | cons N rest3 =>
            refine ⟨xt ++ '\n' :: joinLines (N :: rest3) ++ '\n' :: '-' :: '-' :: '-' :: '\n' :: B, ?_⟩
            rw [show joinLines (M :: N :: rest3) = M ++ '\n' :: joinLines (N :: rest3) from rfl, hM]
            simp
        rcases hshape with ⟨y, hy⟩
        rw [hy]
        exact sepMatch_newline_nondash x y hx
      rw [scanSep_cons_none '\n' _ hsep]
      rw [ih B (fun e he => hLT e (List.mem_cons_of_mem L he))
        (fun e he => hhd e (List.mem_cons_of_mem L he))]
      simp
theorem litSplit1 : ("---\nactive: " : String).data = '-' :: '-' :: '-' :: '\n' :: 'a' :: 'c' :: 't' :: 'i' :: 'v' :: 'e' :: ':' :: ' ' ::[] := rfl

theorem litSplit2 : ("\nphase: \"" : String).data = '\n' :: 'p' :: 'h' :: 'a' :: 's' :: 'e' :: ':' :: ' ' :: '\"' ::[] := rfl

theorem litSplit3 : ("\"\ncurrent_prompt_index: " : String).data = '\"' :: '\n' :: 'c' :: 'u' :: 'r' :: 'r' :: 'e' :: 'n' :: 't' :: '_' :: 'p' :: 'r' :: 'o' :: 'm' :: 'p' :: 't' :: '_' :: 'i' :: 'n' :: 'd' :: 'e' :: 'x' :: ':' :: ' ' ::[] := rfl

theorem litSplit4 : ("\ntotal_prompts: " : String).data = '\n' :: 't' :: 'o' :: 't' :: 'a' :: 'l' :: '_' :: 'p' :: 'r' :: 'o' :: 'm' :: 'p' :: 't' :: 's' :: ':' :: ' ' ::[] := rfl

theorem litSplit5 : ("\nstarted_at: \"" : String).data = '\n' :: 's' :: 't' :: 'a' :: 'r' :: 't' :: 'e' :: 'd' :: '_' :: 'a' :: 't' :: ':' :: ' ' :: '\"' ::[] := rfl

theorem litSplit6 : ("\"\nlast_commit: " : String).data = '\"' :: '\n' :: 'l' :: 'a' :: 's' :: 't' :: '_' :: 'c' :: 'o' :: 'm' :: 'm' :: 'i' :: 't' :: ':' :: ' ' ::[] := rfl

theorem litSplit7 : ("\ninstructions_path: \"" : String).data = '\n' :: 'i' :: 'n' :: 's' :: 't' :: 'r' :: 'u' :: 'c' :: 't' :: 'i' :: 'o' :: 'n' :: 's' :: '_' :: 'p' :: 'a' :: 't' :: 'h' :: ':' :: ' ' :: '\"' ::[] := rfl

theorem litSplit8 : ("\"\nreference_docs: " : String).data = '\"' :: '\n' :: 'r' :: 'e' :: 'f' :: 'e' :: 'r' :: 'e' :: 'n' :: 'c' :: 'e' :: '_' :: 'd' :: 'o' :: 'c' :: 's' :: ':' :: ' ' ::[] := rfl

theorem litSplit9 : ("\nmax_iterations: " : String).data = '\n' :: 'm' :: 'a' :: 'x' :: '_' :: 'i' :: 't' :: 'e' :: 'r' :: 'a' :: 't' :: 'i' :: 'o' :: 'n' :: 's' :: ':' :: ' ' ::[] := rfl

theorem litSplit10 : ("\ncurrent_iteration: " : String).data = '\n' :: 'c' :: 'u' :: 'r' :: 'r' :: 'e' :: 'n' :: 't' :: '_' :: 'i' :: 't' :: 'e' :: 'r' :: 'a' :: 't' :: 'i' :: 'o' :: 'n' :: ':' :: ' ' ::[] := rfl

theorem litSplit11 : ("\n---\n\n## Prompt Sequence\n" : String).data = '\n' :: '-' :: '-' :: '-' :: '\n' :: '\n' :: '#' :: '#' :: ' ' :: 'P' :: 'r' :: 'o' :: 'm' :: 'p' :: 't' :: ' ' :: 'S' :: 'e' :: 'q' :: 'u' :: 'e' :: 'n' :: 'c' :: 'e' :: '\n' ::[] := rfl

theorem hdrLit : ("## Prompt Sequence" : String).data = '#' :: '#' :: ' ' :: 'P' :: 'r' :: 'o' :: 'm' :: 'p' :: 't' :: ' ' :: 'S' :: 'e' :: 'q' :: 'u' :: 'e' :: 'n' :: 'c' :: 'e' ::[] := rfl

theorem litSplit12 : ("\n\n## Phase Progress\n- " : String).data = '\n' :: '\n' :: ("## Phase Progress\n- " : String).data := rfl

theorem lcVal_data_eq (s : MVPBuilderState) :
    (match s.lastCommit with
     | some c => if c = "" then "null" else "\"" ++ c ++ "\""
     | none => "null").data = lcValData s := by
  rcases h : s.lastCommit with _ | c
  · simp [lcValData, h]
  · by_cases hc : c = ""
    · simp [lcValData, h, hc]
    · simp [lcValData, h, hc, String.data_append]

set_option maxRecDepth 8192 in
theorem c10_data (s : MVPBuilderState) :
    (stateFileContent s).data =
      '-' :: '-' :: '-' :: '\n' :: (fmData s ++ '\n' :: '-' :: '-' :: '-' :: '\n' :: bodyData s) := by
  simp only [stateFileContent, String.data_append, lcVal_data_eq,
    litSplit1, litSplit2, litSplit3, litSplit4, litSplit5, litSplit6, litSplit7,
    litSplit8, litSplit9, litSplit10, litSplit11, litSplit12, hdrLit,
    fmData, lineActive, linePhase, lineCPI, lineTP, lineSA, lineLC, lineIP, lineRD,
    lineMI, lineCI, bodyData, plIfData, phaseTailData,
    List.cons_append, List.append_assoc, List.nil_append, List.singleton_append]

theorem frontmatterSplit_dashes (X : List Char) :
    frontmatterSplit ('-' :: '-' :: '-' :: '\n' :: X) = scanSep X := by
  unfold frontmatterSplit newlineAfter
  simp

theorem fmData_joinLines (s : MVPBuilderState) :
    fmData s = joinLines [lineActive s, linePhase s, lineCPI s, lineTP s, lineSA s,
      lineLC s, lineIP s, lineRD s, lineMI s, lineCI s] := rfl

theorem c10_fmsplit (s : MVPBuilderState) (c : String)
    (hph : noLT s.phase.data = true)
    (hsa : noLT s.startedAt.data = true)
    (hip : noLT s.instructionsPath.data = true)
    (hlc : s.lastCommit = some c) (hcne : ¬ c = "") (hcLT : noLT c.data = true)
    (hrd : ∀ d ∈ s.referenceDocs, ∀ ch ∈ d.data, ¬ ch = '\u2028' ∧ ¬ ch = '\u2029') :
    frontmatterSplit (stateFileContent s).data = some (fmData s, bodyData s) := by
  rw [c10_data, frontmatterSplit_dashes, fmData_joinLines]
  apply scanSep_joinLines
  · intro L hL
    fin_cases hL
    · exact noLT_lineActive s
    · exact noLT_linePhase s hph
    · exact noLT_lineCPI s
    · exact noLT_lineTP s
    · exact noLT_lineSA s hsa
    · exact noLT_lineLC s c hlc hcne hcLT
    · exact noLT_lineIP s hip
    · exact noLT_lineRD s hrd
    · exact noLT_lineMI s
    · exact noLT_lineCI s
  · intro L hL
    fin_cases hL
    · exact ⟨_, _, rfl, by decide⟩
    · exact ⟨_, _, rfl, by decide⟩
    · exact ⟨_, _, rfl, by decide⟩
    · exact ⟨_, _, rfl, by decide⟩
    · exact ⟨_, _, rfl, by decide⟩
    · exact ⟨_, _, rfl, by decide⟩
    · exact ⟨_, _, rfl, by decide⟩
    · exact ⟨_, _, rfl, by decide⟩
    · exact ⟨_, _, rfl, by decide⟩
    · exact ⟨_, _, rfl, by decide⟩

theorem stripQuotes_cons_nonquote (c : Char) (r : List Char) (h : isQuoteChar c = false) :
    stripQuotes (c :: r) = c :: r := by
  rcases hl : (c :: r).getLast? with _ | c2
  · simp [stripQuotes, hl]
  · simp [stripQuotes, hl, h]

theorem stripQuotes_quoted (v : List Char) (hv : noLT v = true) :
    stripQuotes ('"' :: (v ++ ['"'])) = v := by
  have hcat : ('"' :: (v ++ ['"'])) = ('"' :: v) ++ ['"'] := by simp
  have hlast : ('"' :: (v ++ ['"'])).getLast? = some '"' := by
    rw [hcat, List.getLast?_concat]
  have hdl : ('"' :: (v ++ ['"'])).drop 1 = v ++ ['"'] := rfl
  unfold stripQuotes
  rw [show ('"' :: (v ++ ['"'])).head? = some '"' from rfl, hlast]
  simp only [hdl]
  rw [List.dropLast_concat]
  have hlen : 2 ≤ ('"' :: (v ++ ['"'])).length := by simp
  have hall : v.all (fun c => !isLineTerm c) = true := hv
  simp [hlen, hall, show isQuoteChar '"' = true from rfl]

theorem getValueAux_found (key : List Char) (c : Char) (tail : List Char)
    (h : leadsWith (key ++ [':']) (c :: tail) = true) :
    getValueAux key (c :: tail) true = some (extractAfterKey ((c :: tail).drop (key.length + 1))) := by
  rw [getValueAux.eq_def]
  simp [h]

theorem getValueAux_step (key : List Char) (c : Char) (tail : List Char) (b : Bool)
    (h : (b && leadsWith (key ++ [':']) (c :: tail)) = false) :
    getValueAux key (c :: tail) b = getValueAux key tail (isLineTerm c) := by
  rw [getValueAux.eq_def]
  simp [h]

theorem getValueAux_run_false (key : List Char) : ∀ (L rest : List Char),
    noLT L = true →
    getValueAux key (L ++ '\n' :: rest) false = getValueAux key rest true := by
  intro L
  induction L with
  | nil =>
    intro rest _
    rw [List.nil_append, getValueAux_step key '\n' rest false (by simp)]
    rfl
  | cons c L ih =>
    intro rest hL
    have hc : isLineTerm c = false := (noLT_iff _).1 hL c (List.mem_cons_self c L)
    rw [List.cons_append, getValueAux_step key c _ false (by simp), hc]
    exact ih rest ((noLT_iff L).2 (fun e he => (noLT_iff _).1 hL e (List.mem_cons_of_mem c he)))

theorem getValueAux_skip_line (key L rest : List Char) (hL : noLT L = true)
    (hmiss : leadsWith (key ++ [':']) (L ++ '\n' :: rest) = false) :
    getValueAux key (L ++ '\n' :: rest) true = getValueAux key rest true := by
  cases L with
  | nil =>
    rw [List.nil_append] at hmiss ⊢
    rw [getValueAux_step key '\n' rest true (by simp [hmiss])]
    rfl
  | cons c L =>
    rw [List.cons_append] at hmiss ⊢
    have hc : isLineTerm c = false := (noLT_iff _).1 hL c (List.mem_cons_self c L)
    rw [getValueAux_step key c _ true (by simp [hmiss]), hc]
    exact getValueAux_run_false key L rest ((noLT_iff L).2 (fun e he => (noLT_iff _).1 hL e (List.mem_cons_of_mem c he)))

theorem takeWhile_noLT_append (L rest : List Char) (hL : noLT L = true) :
    (L ++ '\n' :: rest).takeWhile (fun c => !isLineTerm c) = L := by
  induction L with
  | nil => simp [List.takeWhile_cons, show isLineTerm '\n' = true from rfl]
  | cons c L ih =>
    have hc : isLineTerm c = false := (noLT_iff _).1 hL c (List.mem_cons_self c L)
    have ih2 := ih ((noLT_iff L).2 (fun e he => (noLT_iff _).1 hL e (List.mem_cons_of_mem c he)))
    simp [List.cons_append, List.takeWhile_cons, hc, ih2]

theorem takeWhile_noLT_self (L : List Char) (hL : noLT L = true) :
    L.takeWhile (fun c => !isLineTerm c) = L := by
  apply takeWhile_eq_self_of_all
  intro c hc
  simp [(noLT_iff _).1 hL c hc]

theorem extractAfterKey_space (x : Char) (X : List Char) (hx : isJsWhitespace x = false) :
    extractAfterKey (' ' :: x :: X) = (x :: X).takeWhile (fun c => !isLineTerm c) := by
  unfold extractAfterKey
  rw [List.dropWhile_cons, List.dropWhile_cons]
  simp [hx, show isJsWhitespace ' ' = true from rfl]

theorem mk_data (s : String) : String.mk s.data = s := rfl

theorem jsNum_head (x : Option Int) : ∃ h tl, (jsNumToString x).data = h :: tl ∧
    isJsWhitespace h = false ∧ isQuoteChar h = false := by
  match x with
  | none => exact ⟨'N', ['a', 'N'], rfl, by decide, by decide⟩
  | some n =>
    simp only [jsNumToString]
    split_ifs with h
    · exact ⟨'-', natToDigits n.natAbs, rfl, by decide, by decide⟩
    · rcases hcons : natToDigits n.natAbs with _ | ⟨c, t⟩
      · exact absurd hcons (natToDigits_ne_nil _)
      have hc := digitChars_props c (natToDigits_mem _ c (hcons ▸ List.mem_cons_self c t))
      exact ⟨c, t, by simp [hcons], hc.2.1, hc.2.2.1⟩

theorem extract_num (x : Option Int) (R : List Char) :
    extractAfterKey (' ' :: ((jsNumToString x).data ++ '\n' :: R)) = (jsNumToString x).data := by
  rcases jsNum_head x with ⟨h, tl, hd, hws, _⟩
  rw [hd, List.cons_append, extractAfterKey_space h _ hws, ← List.cons_append, ← hd,
    takeWhile_noLT_append _ _ (jsNum_noLT x)]

theorem extract_num_last (x : Option Int) :
    extractAfterKey (' ' :: (jsNumToString x).data) = (jsNumToString x).data := by
  rcases jsNum_head x with ⟨h, tl, hd, hws, _⟩
  rw [hd, extractAfterKey_space h _ hws, ← hd, takeWhile_noLT_self _ (jsNum_noLT x)]

theorem c10_active (s : MVPBuilderState) :
    getValue (fmData s) "active" = some (boolToString s.active) := by
  unfold getValue
  simp only [fmData, lineActive, List.cons_append]
  rw [getValueAux_found _ _ _ (by rfl)]
  cases hact : s.active
  · rw [show List.drop ("active".data.length + 1)
        ('a' :: 'c' :: 't' :: 'i' :: 'v' :: 'e' :: ':' :: ' ' ::((boolToString false).data ++ '\n' ::
          (linePhase s ++ '\n' :: (lineCPI s ++ '\n' :: (lineTP s ++ '\n' :: (lineSA s ++ '\n' :: (lineLC s ++ '\n' :: (lineIP s ++ '\n' :: (lineRD s ++ '\n' :: (lineMI s ++ '\n' :: lineCI s)))))))))) =
        ' ' :: ('f' :: ("alse".data ++ '\n' ::
          (linePhase s ++ '\n' :: (lineCPI s ++ '\n' :: (lineTP s ++ '\n' :: (lineSA s ++ '\n' :: (lineLC s ++ '\n' :: (lineIP s ++ '\n' :: (lineRD s ++ '\n' :: (lineMI s ++ '\n' :: lineCI s)))))))))) from rfl]
    rw [extractAfterKey_space _ _ (by decide)]
    rw [show ('f' :: ("alse".data ++ '\n' ::
          (linePhase s ++ '\n' :: (lineCPI s ++ '\n' :: (lineTP s ++ '\n' :: (lineSA s ++ '\n' :: (lineLC s ++ '\n' :: (lineIP s ++ '\n' :: (lineRD s ++ '\n' :: (lineMI s ++ '\n' :: lineCI s)))))))))) =
        ("false".data ++ '\n' ::
          (linePhase s ++ '\n' :: (lineCPI s ++ '\n' :: (lineTP s ++ '\n' :: (lineSA s ++ '\n' :: (lineLC s ++ '\n' :: (lineIP s ++ '\n' :: (lineRD s ++ '\n' :: (lineMI s ++ '\n' :: lineCI s))))))))) from rfl]
    rw [takeWhile_noLT_append _ _ (by decide)]
    rfl
  · rw [show List.drop ("active".data.length + 1)
        ('a' :: 'c' :: 't' :: 'i' :: 'v' :: 'e' :: ':' :: ' ' ::((boolToString true).data ++ '\n' ::
          (linePhase s ++ '\n' :: (lineCPI s ++ '\n' :: (lineTP s ++ '\n' :: (lineSA s ++ '\n' :: (lineLC s ++ '\n' :: (lineIP s ++ '\n' :: (lineRD s ++ '\n' :: (lineMI s ++ '\n' :: lineCI s)))))))))) =
        ' ' :: ('t' :: ("rue".data ++ '\n' ::
          (linePhase s ++ '\n' :: (lineCPI s ++ '\n' :: (lineTP s ++ '\n' :: (lineSA s ++ '\n' :: (lineLC s ++ '\n' :: (lineIP s ++ '\n' :: (lineRD s ++ '\n' :: (lineMI s ++ '\n' :: lineCI s)))))))))) from rfl]
    rw [extractAfterKey_space _ _ (by decide)]
    rw [show ('t' :: ("rue".data ++ '\n' ::
          (linePhase s ++ '\n' :: (lineCPI s ++ '\n' :: (lineTP s ++ '\n' :: (lineSA s ++ '\n' :: (lineLC s ++ '\n' :: (lineIP s ++ '\n' :: (lineRD s ++ '\n' :: (lineMI s ++ '\n' :: lineCI s)))))))))) =
        ("true".data ++ '\n' ::
          (linePhase s ++ '\n' :: (lineCPI s ++ '\n' :: (lineTP s ++ '\n' :: (lineSA s ++ '\n' :: (lineLC s ++ '\n' :: (lineIP s ++ '\n' :: (lineRD s ++ '\n' :: (lineMI s ++ '\n' :: lineCI s))))))))) from rfl]
    rw [takeWhile_noLT_append _ _ (by decide)]
    rfl

theorem extract_value (V R : List Char) (x : Char) (tl : List Char) (hx : V = x :: tl)
    (hws : isJsWhitespace x = false) (hV : noLT V = true) :
    extractAfterKey (' ' :: (V ++ '\n' :: R)) = V := by
  subst hx
  rw [List.cons_append, extractAfterKey_space _ _ hws, ← List.cons_append,
    takeWhile_noLT_append _ _ hV]

theorem extract_value_last (V : List Char) (x : Char) (tl : List Char) (hx : V = x :: tl)
    (hws : isJsWhitespace x = false) (hV : noLT V = true) :
    extractAfterKey (' ' :: V) = V := by
  subst hx
  rw [extractAfterKey_space _ _ hws, takeWhile_noLT_self _ hV]

theorem stripQuotes_num (x : Option Int) :
    stripQuotes (jsNumToString x).data = (jsNumToString x).data := by
  rcases jsNum_head x with ⟨h, tl, hd, _, hq⟩
  rw [hd, stripQuotes_cons_nonquote _ _ hq, ← hd]
theorem c10_phase (s : MVPBuilderState) (hph : noLT s.phase.data = true) :
    getValue (fmData s) "phase" = some s.phase := by
  unfold getValue
  simp only [fmData]
  generalize (lineCPI s ++ '\n' :: (lineTP s ++ '\n' :: (lineSA s ++ '\n' :: (lineLC s ++ '\n' :: (lineIP s ++ '\n' :: (lineRD s ++ '\n' :: (lineMI s ++ '\n' :: (lineCI s)))))))) = R
  rw [getValueAux_skip_line _ _ _ (noLT_lineActive s) (by simp only [lineActive, List.cons_append]; rfl)]
  simp only [linePhase, List.cons_append]
  rw [getValueAux_found _ _ _ (by rfl)]
  rw [show List.drop ("phase".data.length + 1) ('p' :: 'h' :: 'a' :: 's' :: 'e' :: ':' :: ' ' :: '\"' ::((s.phase.data ++ ['\"']) ++ '\n' ::R)) = ' ' :: '\"' ::((s.phase.data ++ ['\"']) ++ '\n' ::R) from rfl]
  rw [show ('\"' ::((s.phase.data ++ ['\"']) ++ '\n' ::R)) = ('\"' ::(s.phase.data ++ ['\"'])) ++ '\n' ::R from rfl]
  rw [extract_value _ R '\"' (s.phase.data ++ ['\"']) rfl (by decide) (noLT_cons _ _ (by decide) (noLT_append_of _ _ hph (by decide)))]
  simp only [Option.map_some']
  rw [stripQuotes_quoted _ hph, mk_data]

theorem c10_cpi (s : MVPBuilderState) (hph : noLT s.phase.data = true) :
    getValue (fmData s) "current_prompt_index" = some (jsNumToString s.currentPromptIndex) := by
  unfold getValue
  simp only [fmData]
  generalize (lineTP s ++ '\n' :: (lineSA s ++ '\n' :: (lineLC s ++ '\n' :: (lineIP s ++ '\n' :: (lineRD s ++ '\n' :: (lineMI s ++ '\n' :: (lineCI s))))))) = R
  rw [getValueAux_skip_line _ _ _ (noLT_lineActive s) (by simp only [lineActive, List.cons_append]; rfl)]
  rw [getValueAux_skip_line _ _ _ (noLT_linePhase s hph) (by simp only [linePhase, List.cons_append]; rfl)]
  simp only [lineCPI, List.cons_append]
  rw [getValueAux_found _ _ _ (by rfl)]
  rw [show List.drop ("current_prompt_index".data.length + 1) ('c' :: 'u' :: 'r' :: 'r' :: 'e' :: 'n' :: 't' :: '_' :: 'p' :: 'r' :: 'o' :: 'm' :: 'p' :: 't' :: '_' :: 'i' :: 'n' :: 'd' :: 'e' :: 'x' :: ':' :: ' ' ::((jsNumToString s.currentPromptIndex).data ++ '\n' ::R)) = ' ' ::((jsNumToString s.currentPromptIndex).data ++ '\n' ::R) from rfl]
  rcases jsNum_head s.currentPromptIndex with ⟨h, tl, hd, hws, hq⟩
  rw [extract_value _ R h tl hd hws (jsNum_noLT _)]
  simp only [Option.map_some']
  rw [stripQuotes_num, mk_data]

theorem c10_tp (s : MVPBuilderState) (hph : noLT s.phase.data = true) :
    getValue (fmData s) "total_prompts" = some (jsNumToString s.totalPrompts) := by
  unfold getValue
  simp only [fmData]
  generalize (lineSA s ++ '\n' :: (lineLC s ++ '\n' :: (lineIP s ++ '\n' :: (lineRD s ++ '\n' :: (lineMI s ++ '\n' :: (lineCI s)))))) = R
  rw [getValueAux_skip_line _ _ _ (noLT_lineActive s) (by simp only [lineActive, List.cons_append]; rfl)]
  rw [getValueAux_skip_line _ _ _ (noLT_linePhase s hph) (by simp only [linePhase, List.cons_append]; rfl)]
  rw [getValueAux_skip_line _ _ _ (noLT_lineCPI s) (by simp only [lineCPI, List.cons_append]; rfl)]
  simp only [lineTP, List.cons_append]
  rw [getValueAux_found _ _ _ (by rfl)]
  rw [show List.drop ("total_prompts".data.length + 1) ('t' :: 'o' :: 't' :: 'a' :: 'l' :: '_' :: 'p' :: 'r' :: 'o' :: 'm' :: 'p' :: 't' :: 's' :: ':' :: ' ' ::((jsNumToString s.totalPrompts).data ++ '\n' ::R)) = ' ' ::((jsNumToString s.totalPrompts).data ++ '\n' ::R) from rfl]
  rcases jsNum_head s.totalPrompts with ⟨h, tl, hd, hws, hq⟩
  rw [extract_value _ R h tl hd hws (jsNum_noLT _)]
  simp only [Option.map_some']
  rw [stripQuotes_num, mk_data]

theorem c10_sa (s : MVPBuilderState) (hph : noLT s.phase.data = true) (hsa : noLT s.startedAt.data = true) :
    getValue (fmData s) "started_at" = some s.startedAt := by
  unfold getValue
  simp only [fmData]
  generalize (lineLC s ++ '\n' :: (lineIP s ++ '\n' :: (lineRD s ++ '\n' :: (lineMI s ++ '\n' :: (lineCI s))))) = R
  rw [getValueAux_skip_line _ _ _ (noLT_lineActive s) (by simp only [lineActive, List.cons_append]; rfl)]
  rw [getValueAux_skip_line _ _ _ (noLT_linePhase s hph) (by simp only [linePhase, List.cons_append]; rfl)]
  rw [getValueAux_skip_line _ _ _ (noLT_lineCPI s) (by simp only [lineCPI, List.cons_append]; rfl)]
  rw [getValueAux_skip_line _ _ _ (noLT_lineTP s) (by simp only [lineTP, List.cons_append]; rfl)]
  simp only [lineSA, List.cons_append]
  rw [getValueAux_found _ _ _ (by rfl)]
  rw [show List.drop ("started_at".data.length + 1) ('s' :: 't' :: 'a' :: 'r' :: 't' :: 'e' :: 'd' :: '_' :: 'a' :: 't' :: ':' :: ' ' :: '\"' ::((s.startedAt.data ++ ['\"']) ++ '\n' ::R)) = ' ' :: '\"' ::((s.startedAt.data ++ ['\"']) ++ '\n' ::R) from rfl]
  rw [show ('\"' ::((s.startedAt.data ++ ['\"']) ++ '\n' ::R)) = ('\"' ::(s.startedAt.data ++ ['\"'])) ++ '\n' ::R from rfl]
  rw [extract_value _ R '\"' (s.startedAt.data ++ ['\"']) rfl (by decide) (noLT_cons _ _ (by decide) (noLT_append_of _ _ hsa (by decide)))]
  simp only [Option.map_some']
  rw [stripQuotes_quoted _ hsa, mk_data]

theorem c10_lc (s : MVPBuilderState) (hph : noLT s.phase.data = true) (hsa : noLT s.startedAt.data = true) (c : String) (hlc : s.lastCommit = some c) (hcne : ¬ c = "") (hcLT : noLT c.data = true) :
    getValue (fmData s) "last_commit" = some c := by
  unfold getValue
  simp only [fmData]
  generalize (lineIP s ++ '\n' :: (lineRD s ++ '\n' :: (lineMI s ++ '\n' :: (lineCI s)))) = R
  rw [getValueAux_skip_line _ _ _ (noLT_lineActive s) (by simp only [lineActive, List.cons_append]; rfl)]
  rw [getValueAux_skip_line _ _ _ (noLT_linePhase s hph) (by simp only [linePhase, List.cons_append]; rfl)]
  rw [getValueAux_skip_line _ _ _ (noLT_lineCPI s) (by simp only [lineCPI, List.cons_append]; rfl)]
  rw [getValueAux_skip_line _ _ _ (noLT_lineTP s) (by simp only [lineTP, List.cons_append]; rfl)]
  rw [getValueAux_skip_line _ _ _ (noLT_lineSA s hsa) (by simp only [lineSA, List.cons_append]; rfl)]
  simp only [lineLC]
  rw [lcValData_eq s c hlc hcne]
  simp only [List.cons_append]
  rw [getValueAux_found _ _ _ (by rfl)]
  rw [show List.drop ("last_commit".data.length + 1) ('l' :: 'a' :: 's' :: 't' :: '_' :: 'c' :: 'o' :: 'm' :: 'm' :: 'i' :: 't' :: ':' :: ' ' :: '\"' ::((c.data ++ ['\"']) ++ '\n' ::R)) = ' ' :: '\"' ::((c.data ++ ['\"']) ++ '\n' ::R) from rfl]
  rw [show ('\"' ::((c.data ++ ['\"']) ++ '\n' ::R)) = ('\"' ::(c.data ++ ['\"'])) ++ '\n' ::R from rfl]
  rw [extract_value _ R '\"' (c.data ++ ['\"']) rfl (by decide) (noLT_cons _ _ (by decide) (noLT_append_of _ _ hcLT (by decide)))]
  simp only [Option.map_some']
  rw [stripQuotes_quoted _ hcLT, mk_data]

theorem c10_ip (s : MVPBuilderState) (hph : noLT s.phase.data = true) (hsa : noLT s.startedAt.data = true) (c : String) (hlc : s.lastCommit = some c) (hcne : ¬ c = "") (hcLT : noLT c.data = true) (hip : noLT s.instructionsPath.data = true) :
    getValue (fmData s) "instructions_path" = some s.instructionsPath := by
  unfold getValue
  simp only [fmData]
  generalize (lineRD s ++ '\n' :: (lineMI s ++ '\n' :: (lineCI s))) = R
  rw [getValueAux_skip_line _ _ _ (noLT_lineActive s) (by simp only [lineActive, List.cons_append]; rfl)]
  rw [getValueAux_skip_line _ _ _ (noLT_linePhase s hph) (by simp only [linePhase, List.cons_append]; rfl)]
  rw [getValueAux_skip_line _ _ _ (noLT_lineCPI s) (by simp only [lineCPI, List.cons_append]; rfl)]
  rw [getValueAux_skip_line _ _ _ (noLT_lineTP s) (by simp only [lineTP, List.cons_append]; rfl)]
  rw [getValueAux_skip_line _ _ _ (noLT_lineSA s hsa) (by simp only [lineSA, List.cons_append]; rfl)]
  rw [getValueAux_skip_line _ _ _ (noLT_lineLC s c hlc hcne hcLT) (by simp only [lineLC, List.cons_append]; rfl)]
  simp only [lineIP, List.cons_append]
  rw [getValueAux_found _ _ _ (by rfl)]
  rw [show List.drop ("instructions_path".data.length + 1) ('i' :: 'n' :: 's' :: 't' :: 'r' :: 'u' :: 'c' :: 't' :: 'i' :: 'o' :: 'n' :: 's' :: '_' :: 'p' :: 'a' :: 't' :: 'h' :: ':' :: ' ' :: '\"' ::((s.instructionsPath.data ++ ['\"']) ++ '\n' ::R)) = ' ' :: '\"' ::((s.instructionsPath.data ++ ['\"']) ++ '\n' ::R) from rfl]
  rw [show ('\"' ::((s.instructionsPath.data ++ ['\"']) ++ '\n' ::R)) = ('\"' ::(s.instructionsPath.data ++ ['\"'])) ++ '\n' ::R from rfl]
  rw [extract_value _ R '\"' (s.instructionsPath.data ++ ['\"']) rfl (by decide) (noLT_cons _ _ (by decide) (noLT_append_of _ _ hip (by decide)))]
  simp only [Option.map_some']
  rw [stripQuotes_quoted _ hip, mk_data]

theorem c10_rd (s : MVPBuilderState) (hph : noLT s.phase.data = true) (hsa : noLT s.startedAt.data = true) (c : String) (hlc : s.lastCommit = some c) (hcne : ¬ c = "") (hcLT : noLT c.data = true) (hip : noLT s.instructionsPath.data = true) (hrd : ∀ d ∈ s.referenceDocs, ∀ ch ∈ d.data, ¬ ch = '\u2028' ∧ ¬ ch = '\u2029') :
    getValue (fmData s) "reference_docs" = some (jsonStringifyList s.referenceDocs) := by
  unfold getValue
  simp only [fmData]
  generalize (lineMI s ++ '\n' :: (lineCI s)) = R
  rw [getValueAux_skip_line _ _ _ (noLT_lineActive s) (by simp only [lineActive, List.cons_append]; rfl)]
  rw [getValueAux_skip_line _ _ _ (noLT_linePhase s hph) (by simp only [linePhase, List.cons_append]; rfl)]
  rw [getValueAux_skip_line _ _ _ (noLT_lineCPI s) (by simp only [lineCPI, List.cons_append]; rfl)]
  rw [getValueAux_skip_line _ _ _ (noLT_lineTP s) (by simp only [lineTP, List.cons_append]; rfl)]
  rw [getValueAux_skip_line _ _ _ (noLT_lineSA s hsa) (by simp only [lineSA, List.cons_append]; rfl)]
  rw [getValueAux_skip_line _ _ _ (noLT_lineLC s c hlc hcne hcLT) (by simp only [lineLC, List.cons_append]; rfl)]
  rw [getValueAux_skip_line _ _ _ (noLT_lineIP s hip) (by simp only [lineIP, List.cons_append]; rfl)]
  simp only [lineRD, List.cons_append]
  rw [getValueAux_found _ _ _ (by rfl)]
  rw [show List.drop ("reference_docs".data.length + 1) ('r' :: 'e' :: 'f' :: 'e' :: 'r' :: 'e' :: 'n' :: 'c' :: 'e' :: '_' :: 'd' :: 'o' :: 'c' :: 's' :: ':' :: ' ' ::((jsonStringifyList s.referenceDocs).data ++ '\n' ::R)) = ' ' ::((jsonStringifyList s.referenceDocs).data ++ '\n' ::R) from rfl]
  have hjshape : (jsonStringifyList s.referenceDocs).data = '[' ::(elemsData s.referenceDocs ++ [']']) := jsonStringifyList_data _
  rw [extract_value _ R '[' (elemsData s.referenceDocs ++ [']']) hjshape (by decide) (jsonList_noLT _ hrd)]
  simp only [Option.map_some']
  rw [hjshape, stripQuotes_cons_nonquote _ _ (by decide), ← hjshape, mk_data]

theorem c10_mi (s : MVPBuilderState) (hph : noLT s.phase.data = true) (hsa : noLT s.startedAt.data = true) (c : String) (hlc : s.lastCommit = some c) (hcne : ¬ c = "") (hcLT : noLT c.data = true) (hip : noLT s.instructionsPath.data = true) (hrd : ∀ d ∈ s.referenceDocs, ∀ ch ∈ d.data, ¬ ch = '\u2028' ∧ ¬ ch = '\u2029') :
    getValue (fmData s) "max_iterations" = some (jsNumToString s.maxIterations) := by
  unfold getValue
  simp only [fmData]
  generalize (lineCI s) = R
  rw [getValueAux_skip_line _ _ _ (noLT_lineActive s) (by simp only [lineActive, List.cons_append]; rfl)]
  rw [getValueAux_skip_line _ _ _ (noLT_linePhase s hph) (by simp only [linePhase, List.cons_append]; rfl)]
  rw [getValueAux_skip_line _ _ _ (noLT_lineCPI s) (by simp only [lineCPI, List.cons_append]; rfl)]
  rw [getValueAux_skip_line _ _ _ (noLT_lineTP s) (by simp only [lineTP, List.cons_append]; rfl)]
  rw [getValueAux_skip_line _ _ _ (noLT_lineSA s hsa) (by simp only [lineSA, List.cons_append]; rfl)]
  rw [getValueAux_skip_line _ _ _ (noLT_lineLC s c hlc hcne hcLT) (by simp only [lineLC, List.cons_append]; rfl)]
  rw [getValueAux_skip_line _ _ _ (noLT_lineIP s hip) (by simp only [lineIP, List.cons_append]; rfl)]
  rw [getValueAux_skip_line _ _ _ (noLT_lineRD s hrd) (by simp only [lineRD, List.cons_append]; rfl)]
  simp only [lineMI, List.cons_append]
  rw [getValueAux_found _ _ _ (by rfl)]
  rw [show List.drop ("max_iterations".data.length + 1) ('m' :: 'a' :: 'x' :: '_' :: 'i' :: 't' :: 'e' :: 'r' :: 'a' :: 't' :: 'i' :: 'o' :: 'n' :: 's' :: ':' :: ' ' ::((jsNumToString s.maxIterations).data ++ '\n' ::R)) = ' ' ::((jsNumToString s.maxIterations).data ++ '\n' ::R) from rfl]
  rcases jsNum_head s.maxIterations with ⟨h, tl, hd, hws, hq⟩
  rw [extract_value _ R h tl hd hws (jsNum_noLT _)]
  simp only [Option.map_some']
  rw [stripQuotes_num, mk_data]

theorem c10_ci (s : MVPBuilderState) (hph : noLT s.phase.data = true) (hsa : noLT s.startedAt.data = true) (c : String) (hlc : s.lastCommit = some c) (hcne : ¬ c = "") (hcLT : noLT c.data = true) (hip : noLT s.instructionsPath.data = true) (hrd : ∀ d ∈ s.referenceDocs, ∀ ch ∈ d.data, ¬ ch = '\u2028' ∧ ¬ ch = '\u2029') :
    getValue (fmData s) "current_iteration" = some (jsNumToString s.currentIteration) := by
  unfold getValue
  simp only [fmData]
  rw [getValueAux_skip_line _ _ _ (noLT_lineActive s) (by simp only [lineActive, List.cons_append]; rfl)]
  rw [getValueAux_skip_line _ _ _ (noLT_linePhase s hph) (by simp only [linePhase, List.cons_append]; rfl)]
  rw [getValueAux_skip_line _ _ _ (noLT_lineCPI s) (by simp only [lineCPI, List.cons_append]; rfl)]
  rw [getValueAux_skip_line _ _ _ (noLT_lineTP s) (by simp only [lineTP, List.cons_append]; rfl)]
  rw [getValueAux_skip_line _ _ _ (noLT_lineSA s hsa) (by simp only [lineSA, List.cons_append]; rfl)]
  rw [getValueAux_skip_line _ _ _ (noLT_lineLC s c hlc hcne hcLT) (by simp only [lineLC, List.cons_append]; rfl)]
  rw [getValueAux_skip_line _ _ _ (noLT_lineIP s hip) (by simp only [lineIP, List.cons_append]; rfl)]
  rw [getValueAux_skip_line _ _ _ (noLT_lineRD s hrd) (by simp only [lineRD, List.cons_append]; rfl)]
  rw [getValueAux_skip_line _ _ _ (noLT_lineMI s) (by simp only [lineMI, List.cons_append]; rfl)]
  simp only [lineCI, List.cons_append]
  rw [getValueAux_found _ _ _ (by rfl)]
  rw [show List.drop ("current_iteration".data.length + 1) ('c' :: 'u' :: 'r' :: 'r' :: 'e' :: 'n' :: 't' :: '_' :: 'i' :: 't' :: 'e' :: 'r' :: 'a' :: 't' :: 'i' :: 'o' :: 'n' :: ':' :: ' ' ::(jsNumToString s.currentIteration).data) = ' ' ::(jsNumToString s.currentIteration).data from rfl]
  rcases jsNum_head s.currentIteration with ⟨h, tl, hd, hws, hq⟩
  rw [extract_value_last _ h tl hd hws (jsNum_noLT _)]
  simp only [Option.map_some']
  rw [stripQuotes_num, mk_data]

theorem scanPromptLines_nil_input (fuel : Nat) : scanPromptLines fuel [] = [] := by
  cases fuel <;> rfl

theorem leadsWith_mem : ∀ (p t : List Char), leadsWith p t = true → ∀ c ∈ p, c ∈ t := by
  intro p
  induction p with
  | nil => intro t _ c hc; cases hc
  | cons a p ih =>
    intro t h c hc
    rcases t with _ | ⟨b, t⟩
    · simp [leadsWith] at h
    · simp only [leadsWith, Bool.and_eq_true, beq_iff_eq] at h
      rcases List.mem_cons.1 hc with rfl | hc2
      · rw [h.1]; exact List.mem_cons_self b t
      · exact List.mem_cons_of_mem b (ih t h.2 c hc2)

theorem matchPromptLine_facts (s : List Char) (x : Char × List Char × List Char)
    (rest : List Char) (h : matchPromptLine s = some (x, rest)) :
    rest.length < s.length ∧ '_' ∈ s := by
  unfold matchPromptLine at h
  by_cases h0 : leadsWith "- [".data s = true
  swap
  · rw [if_neg h0] at h; cases h
  rw [if_pos h0] at h
  rcases hdrop : s.drop 3 with _ | ⟨sc, rest1⟩ <;> rw [hdrop] at h
  · cases h
  dsimp only at h
  split_ifs at h with h1 h2 h3 h4 h5 h6
  have hx := Option.some.inj h
  have hrest : rest = List.drop
      (List.takeWhile (fun c => !isLineTerm c)
        (List.drop 6
          (List.drop (List.takeWhile Char.isDigit (List.drop 7 (List.drop 2 rest1))).length
            (List.drop 7 (List.drop 2 rest1))))).length
      (List.drop 6
        (List.drop (List.takeWhile Char.isDigit (List.drop 7 (List.drop 2 rest1))).length
          (List.drop 7 (List.drop 2 rest1)))) := ((Prod.ext_iff.1 hx).2).symm
  have hlen1 : rest1.length + 1 = s.length - 3 := by
    have hcong := congrArg List.length hdrop
    simp only [List.length_drop, List.length_cons] at hcong
    omega
  have hs3 : 3 ≤ s.length := by
    by_contra hcon
    have hnil : s.drop 3 = [] := List.drop_eq_nil_of_le (by omega)
    rw [hnil] at hdrop
    cases hdrop
  constructor
  · subst hrest
    have e1 : (List.drop 2 rest1).length = rest1.length - 2 := List.length_drop 2 rest1
    have e2 : (List.drop 7 (List.drop 2 rest1)).length = (List.drop 2 rest1).length - 7 :=
      List.length_drop _ _
    have e3 : (List.drop (List.takeWhile Char.isDigit (List.drop 7 (List.drop 2 rest1))).length
        (List.drop 7 (List.drop 2 rest1))).length =
        (List.drop 7 (List.drop 2 rest1)).length -
          (List.takeWhile Char.isDigit (List.drop 7 (List.drop 2 rest1))).length :=
      List.length_drop _ _
    have e4 : (List.drop 6
        (List.drop (List.takeWhile Char.isDigit (List.drop 7 (List.drop 2 rest1))).length
          (List.drop 7 (List.drop 2 rest1)))).length =
        (List.drop (List.takeWhile Char.isDigit (List.drop 7 (List.drop 2 rest1))).length
          (List.drop 7 (List.drop 2 rest1))).length - 6 :=
      List.length_drop _ _
    have e5 : (List.drop
        (List.takeWhile (fun c => !isLineTerm c)
          (List.drop 6
            (List.drop (List.takeWhile Char.isDigit (List.drop 7 (List.drop 2 rest1))).length
              (List.drop 7 (List.drop 2 rest1))))).length
        (List.drop 6
          (List.drop (List.takeWhile Char.isDigit (List.drop 7 (List.drop 2 rest1))).length
            (List.drop 7 (List.drop 2 rest1))))).length =
        (List.drop 6
          (List.drop (List.takeWhile Char.isDigit (List.drop 7 (List.drop 2 rest1))).length
            (List.drop 7 (List.drop 2 rest1)))).length -
          (List.takeWhile (fun c => !isLineTerm c)
            (List.drop 6
              (List.drop (List.takeWhile Char.isDigit (List.drop 7 (List.drop 2 rest1))).length
                (List.drop 7 (List.drop 2 rest1))))).length :=
      List.length_drop _ _
    omega
  · have hu : ('_' : Char) ∈ "prompt_".data := by decide
    have h7 : ('_' : Char) ∈ List.drop 2 rest1 := leadsWith_mem _ _ h3 '_' hu
    have h8 : ('_' : Char) ∈ rest1 := List.drop_subset 2 rest1 h7
    have hsub := List.drop_subset 3 s
    rw [hdrop] at hsub
    exact hsub (List.mem_cons_of_mem sc h8)

theorem scan_fuel : ∀ (n f g : Nat) (s : List Char), s.length ≤ n → s.length ≤ f →
    s.length ≤ g → scanPromptLines f s = scanPromptLines g s := by
  intro n
  induction n with
  | zero =>
    intro f g s h _ _
    have hnil : s = [] := List.eq_nil_of_length_eq_zero (by omega)
    subst hnil
    rw [scanPromptLines_nil_input, scanPromptLines_nil_input]
  | succ n ih =>
    intro f g s hn hf hg
    rcases s with _ | ⟨c, tail⟩
    · rw [scanPromptLines_nil_input, scanPromptLines_nil_input]
    rcases f with _ | f
    · simp at hf
    rcases g with _ | g
    · simp at hg
    simp only [List.length_cons] at hn hf hg
    rcases hm : matchPromptLine (c :: tail) with _ | ⟨⟨sc, fn, ti⟩, rest⟩
    · simp only [scanPromptLines, hm]
      exact ih f g tail (by omega) (by omega) (by omega)
    · have hlt := (matchPromptLine_facts _ _ _ hm).1
      simp only [List.length_cons] at hlt
      simp only [scanPromptLines, hm]
      rw [ih f g rest (by omega) (by omega) (by omega)]

theorem matchPromptLine_nondash (c : Char) (t : List Char) (h : ¬ c = '-') :
    matchPromptLine (c :: t) = none := by
  unfold matchPromptLine
  rw [if_neg]
  intro hcon
  simp only [leadsWith, Bool.and_eq_true, beq_iff_eq] at hcon
  exact h hcon.1.symm

theorem scan_skip_nodash : ∀ (R rest : List Char) (fuel : Nat), noDash R = true →
    scanPromptLines (R.length + fuel) (R ++ rest) = scanPromptLines fuel rest := by
  intro R
  induction R with
  | nil => intro rest fuel _; simp
  | cons c Rt ih =>
    intro rest fuel hR
    have hc : ¬ c = '-' := by
      intro hcon
      subst hcon
      simp [noDash, List.all_cons] at hR
    rw [List.cons_append, List.length_cons,
      show Rt.length + 1 + fuel = (Rt.length + fuel) + 1 from by omega]
    simp only [scanPromptLines, matchPromptLine_nondash c _ hc]
    exact ih rest fuel (by
      simp only [noDash, List.all_cons, Bool.and_eq_true] at hR
      exact hR.2)

theorem scan_noUS : ∀ (fuel : Nat) (R : List Char), noUS R = true →
    scanPromptLines fuel R = [] := by
  intro fuel
  induction fuel with
  | zero => intro R _; cases R <;> rfl
  | succ f ih =>
    intro R hR
    rcases R with _ | ⟨c, t⟩
    · rfl
    rcases hm : matchPromptLine (c :: t) with _ | ⟨⟨sc, fn, ti⟩, rest⟩
    · simp only [scanPromptLines, hm]
      exact ih t (by
        simp only [noUS, List.all_cons, Bool.and_eq_true] at hR
        exact hR.2)
    · have hus := (matchPromptLine_facts _ _ _ hm).2
      rw [noUS, List.all_eq_true] at hR
      have := hR '_' hus
      simp at this

theorem leadsWith_append_self : ∀ (p t : List Char), leadsWith p (p ++ t) = true := by
  intro p t
  induction p with
  | nil => rfl
  | cons a p ih => simp [leadsWith, ih]

theorem leadsWith_decomp : ∀ (p s : List Char), leadsWith p s = true →
    s = p ++ s.drop p.length := by
  intro p
  induction p with
  | nil => intro s _; simp
  | cons a p ih =>
    intro s h
    rcases s with _ | ⟨b, t⟩
    · simp [leadsWith] at h
    · simp only [leadsWith, Bool.and_eq_true, beq_iff_eq] at h
      rcases h with ⟨rfl, h2⟩
      simp only [List.length_cons, List.drop_succ_cons, List.cons_append]
      rw [← ih t h2]

theorem dropWhile_eq_drop_len_takeWhile (q : Char → Bool) : ∀ (l : List Char),
    l.drop (l.takeWhile q).length = l.dropWhile q := by
  intro l
  induction l with
  | nil => rfl
  | cons c t ih =>
    by_cases hc : q c = true
    · simp [List.takeWhile_cons, List.dropWhile_cons, hc, ih]
    · simp only [Bool.not_eq_true] at hc
      simp [List.takeWhile_cons, List.dropWhile_cons, hc]

theorem takeWhile_digit_stop (ds X : List Char) (hdig : ∀ c ∈ ds, Char.isDigit c = true) :
    (ds ++ '.' :: X).takeWhile Char.isDigit = ds := by
  induction ds with
  | nil => simp [List.takeWhile_cons, show Char.isDigit '.' = false from rfl]
  | cons c t ih =>
    have hdig2 := ih (fun e he => hdig e (List.mem_cons_of_mem c he))
    simp [List.cons_append, List.takeWhile_cons, hdig c (List.mem_cons_self c t), hdig2]

theorem isPromptFileName_decomp (f : String) (h : isPromptFileName f = true) :
    ∃ ds, ds ≠ [] ∧ (∀ c ∈ ds, Char.isDigit c = true) ∧
      f.data = "prompt_".data ++ (ds ++ ".md".data) := by
  unfold isPromptFileName at h
  simp only [Bool.and_eq_true, decide_eq_true_eq] at h
  obtain ⟨h1, h2, h3⟩ := h
  refine ⟨(f.data.drop 7).takeWhile Char.isDigit, h2, fun c hc => List.mem_takeWhile_imp hc, ?_⟩
  have hdec := leadsWith_decomp _ _ h1
  rw [show ("prompt_".data : List Char).length = 7 from rfl] at hdec
  conv_lhs => rw [hdec]
  congr 1
  rw [show (".md".data : List Char) = ['.', 'm', 'd'] from rfl, ← h3,
    dropWhile_eq_drop_len_takeWhile]
  exact (List.takeWhile_append_dropWhile Char.isDigit (f.data.drop 7)).symm

theorem matchPromptLine_core (sc : Char) (hsc : sc = ' ' ∨ sc = 'x' ∨ sc = '/')
    (ds title r : List Char) (hds : ¬ ds = [])
    (hdig : ∀ c ∈ ds, Char.isDigit c = true)
    (htne : ¬ title = []) (htLT : noLT title = true) :
    matchPromptLine ('-' :: ' ' :: '[' ::sc:: ']' :: ' ' :: 'p' :: 'r' :: 'o' :: 'm' :: 'p' :: 't' :: '_' ::(ds ++ '.' :: 'm' :: 'd' :: ' ' :: '-' :: ' ' ::(title ++ '\n' ::r)))
      = some ((sc, "prompt_".data ++ ds ++ ".md".data, title), '\n' ::r) := by
  have hscB : (decide (sc = ' ') || decide (sc = 'x') || decide (sc = '/')) = true := by
    rcases hsc with rfl | rfl | rfl <;> decide
  unfold matchPromptLine
  rw [if_pos (show leadsWith "- [".data ('-' :: ' ' :: '[' ::sc:: ']' :: ' ' :: 'p' :: 'r' :: 'o' :: 'm' :: 'p' :: 't' :: '_' ::(ds ++ '.' :: 'm' :: 'd' :: ' ' :: '-' :: ' ' ::(title ++ '\n' ::r))) = true from rfl)]
  rw [show ('-' :: ' ' :: '[' ::sc:: ']' :: ' ' :: 'p' :: 'r' :: 'o' :: 'm' :: 'p' :: 't' :: '_' ::(ds ++ '.' :: 'm' :: 'd' :: ' ' :: '-' :: ' ' ::(title ++ '\n' ::r))).drop 3
      = sc:: ']' :: ' ' :: 'p' :: 'r' :: 'o' :: 'm' :: 'p' :: 't' :: '_' ::(ds ++ '.' :: 'm' :: 'd' :: ' ' :: '-' :: ' ' ::(title ++ '\n' ::r)) from rfl]
  dsimp only
  rw [if_pos hscB]
  rw [if_pos (show leadsWith "] ".data (']' :: ' ' :: 'p' :: 'r' :: 'o' :: 'm' :: 'p' :: 't' :: '_' ::(ds ++ '.' :: 'm' :: 'd' :: ' ' :: '-' :: ' ' ::(title ++ '\n' ::r))) = true from rfl)]
  rw [show List.drop 2 (']' :: ' ' :: 'p' :: 'r' :: 'o' :: 'm' :: 'p' :: 't' :: '_' ::(ds ++ '.' :: 'm' :: 'd' :: ' ' :: '-' :: ' ' ::(title ++ '\n' ::r)))
      = 'p' :: 'r' :: 'o' :: 'm' :: 'p' :: 't' :: '_' ::(ds ++ '.' :: 'm' :: 'd' :: ' ' :: '-' :: ' ' ::(title ++ '\n' ::r)) from rfl]
  rw [if_pos (show leadsWith "prompt_".data ('p' :: 'r' :: 'o' :: 'm' :: 'p' :: 't' :: '_' ::(ds ++ '.' :: 'm' :: 'd' :: ' ' :: '-' :: ' ' ::(title ++ '\n' ::r))) = true from rfl)]
  rw [show List.drop 7 ('p' :: 'r' :: 'o' :: 'm' :: 'p' :: 't' :: '_' ::(ds ++ '.' :: 'm' :: 'd' :: ' ' :: '-' :: ' ' ::(title ++ '\n' ::r)))
      = ds ++ '.' :: 'm' :: 'd' :: ' ' :: '-' :: ' ' ::(title ++ '\n' ::r) from rfl]
  rw [takeWhile_digit_stop ds _ hdig]
  rw [if_neg hds]
  rw [List.drop_left]
  rw [if_pos (show leadsWith ".md - ".data ('.' :: 'm' :: 'd' :: ' ' :: '-' :: ' ' ::(title ++ '\n' ::r)) = true from rfl)]
  rw [show List.drop 6 ('.' :: 'm' :: 'd' :: ' ' :: '-' :: ' ' ::(title ++ '\n' ::r)) = title ++ '\n' ::r from rfl]
  rw [takeWhile_noLT_append _ _ htLT]
  rw [if_neg htne]
  rw [List.drop_left]

theorem statusCharC_cases (st : PStatus) :
    statusCharC st = ' ' ∨ statusCharC st = 'x' ∨ statusCharC st = '/' := by
  cases st <;> simp [statusCharC]

theorem promptLine_data (p : PromptInfo) :
    (promptLine p).data =
      '-' :: ' ' :: '[' ::statusCharC p.status:: ']' :: ' ' ::(p.filename.data ++ ' ' :: '-' :: ' ' ::p.title.data) := by
  cases hst : p.status <;>
    simp [promptLine, statusChar, statusCharC, String.data_append, hst,
      show ("- [" : String).data = ['-', ' ', '['] from rfl,
      show ("] " : String).data = [']', ' '] from rfl,
      show (" - " : String).data = [' ', '-', ' '] from rfl,
      show ("x" : String).data = ['x'] from rfl,
      show ("/" : String).data = ['/'] from rfl,
      show (" " : String).data = [' '] from rfl]

theorem string_data_nil (x : String) (h : x.data = []) : x = "" := by
  have := congrArg String.mk h
  rwa [mk_data] at this

theorem matchPromptLine_line (p : PromptInfo) (r : List Char) (hgood : goodPrompt p = true) :
    matchPromptLine ((promptLine p).data ++ '\n' :: r) =
      some ((statusCharC p.status, p.filename.data, p.title.data), '\n' :: r) := by
  have hg : (isPromptFileName p.filename = true ∧ ¬ p.title = "") ∧ noLineTermStr p.title = true := by
    simpa [goodPrompt, Bool.and_eq_true, decide_eq_true_eq] using hgood
  obtain ⟨⟨hfn, htne⟩, htLT⟩ := hg
  rcases isPromptFileName_decomp _ hfn with ⟨ds, hds, hdig, hfdata⟩
  have htne2 : ¬ p.title.data = [] := fun hcon => htne (string_data_nil _ hcon)
  rw [promptLine_data, hfdata]
  rw [show (('-' :: ' ' :: '[' ::statusCharC p.status:: ']' :: ' ' ::(("prompt_".data ++ (ds ++ ".md".data)) ++ ' ' :: '-' :: ' ' ::p.title.data)) ++ '\n' ::r)
      = '-' :: ' ' :: '[' ::statusCharC p.status:: ']' :: ' ' :: 'p' :: 'r' :: 'o' :: 'm' :: 'p' :: 't' :: '_' ::(ds ++ '.' :: 'm' :: 'd' :: ' ' :: '-' :: ' ' ::(p.title.data ++ '\n' ::r)) from by
    simp [List.cons_append, List.append_assoc,
      show ("prompt_".data : List Char) = 'p' :: 'r' :: 'o' :: 'm' :: 'p' :: 't' :: '_' ::[] from rfl,
      show (".md".data : List Char) = ['.', 'm', 'd'] from rfl]]
  rw [matchPromptLine_core _ (statusCharC_cases p.status) ds _ r hds hdig htne2 htLT]
  rfl

theorem statusOfChar_statusCharC (st : PStatus) :
    statusOfChar (statusCharC st) = statusRT st := by
  cases st <;> rfl

theorem promptLine_data_ne_nil (p : PromptInfo) : (promptLine p).data ≠ [] := by
  rw [promptLine_data]
  simp

theorem scan_lines : ∀ (ps : List PromptInfo) (tail : List Char),
    (∀ p ∈ ps, goodPrompt p = true) →
    (∃ r, tail = '\n' :: r) →
    (∀ f, scanPromptLines f tail = []) →
    ∀ fuel, (linesData ps ++ tail).length ≤ fuel →
    scanPromptLines fuel (linesData ps ++ tail) = ps.map infoOf := by
  intro ps
  induction ps with
  | nil =>
    intro tail _ _ htscan fuel _
    rw [show linesData [] ++ tail = tail from by simp [linesData], htscan fuel]
    rfl
  | cons p ps ih =>
    intro tail hgood hhd htscan fuel hfuel
    rcases hhd with ⟨r, rfl⟩
    cases ps with
    | nil =>
      rw [show linesData [p] = (promptLine p).data from rfl] at hfuel ⊢
      rcases fuel with _ | f
      · exfalso
        have := promptLine_data_ne_nil p
        rcases hc : (promptLine p).data with _ | ⟨c, t⟩
        · exact this hc
        · rw [hc] at hfuel; simp at hfuel
      have hm := matchPromptLine_line p r (hgood p (List.mem_cons_self p []))
      rcases hc : (promptLine p).data with _ | ⟨c, t⟩
      · exact absurd hc (promptLine_data_ne_nil p)
      rw [hc] at hm
      simp only [List.cons_append] at hm ⊢
      simp only [scanPromptLines, hm, htscan f, infoOf, mk_data, statusOfChar_statusCharC,
        List.map_cons, List.map_nil]
    | cons q ps2 =>
      rw [show linesData (p :: q :: ps2) = (promptLine p).data ++ '\n' :: linesData (q :: ps2) from rfl] at hfuel ⊢
      rw [List.append_assoc, List.cons_append] at hfuel ⊢
      have hm := matchPromptLine_line p (linesData (q :: ps2) ++ '\n' :: r)
        (hgood p (List.mem_cons_self p _))
      have hlen1 : 1 ≤ (promptLine p).data.length := by
        rcases hc : (promptLine p).data with _ | ⟨c, t⟩
        · exact absurd hc (promptLine_data_ne_nil p)
        · simp
      rcases fuel with _ | f
      · exfalso; simp at hfuel
      rcases f with _ | f
      · exfalso; simp at hfuel; omega
      rcases hc : (promptLine p).data with _ | ⟨c, t⟩
      · exact absurd hc (promptLine_data_ne_nil p)
      rw [hc] at hm
      simp only [List.cons_append] at hm ⊢
      have hnd : matchPromptLine ('\n' :: (linesData (q :: ps2) ++ '\n' :: r)) = none :=
        matchPromptLine_nondash _ _ (by decide)
      have hih := ih ('\n' :: r) (fun e he => hgood e (List.mem_cons_of_mem p he)) ⟨r, rfl⟩ htscan f (by
        rw [hc] at hfuel
        simp only [List.length_cons, List.length_append] at hfuel ⊢
        omega)
      simp only [scanPromptLines, hm, hnd, hih, infoOf, mk_data, statusOfChar_statusCharC,
        List.map_cons]

theorem noUS_append (a b : List Char) : noUS (a ++ b) = (noUS a && noUS b) := by
  simp [noUS, List.all_append]

theorem jsNum_noUS (x : Option Int) : noUS (jsNumToString x).data = true := by
  match x with
  | none => decide
  | some n =>
    rw [noUS, List.all_eq_true]
    intro c hc
    simp only [jsNumToString] at hc
    split_ifs at hc with h
    · rw [show (String.mk ('-' :: natToDigits n.natAbs)).data = '-' :: natToDigits n.natAbs from rfl,
        List.mem_cons] at hc
      rcases hc with rfl | hc
      · decide
      · simp [(digitChars_props c (natToDigits_mem _ c hc)).2.2.2.1]
    · rw [show (String.mk (natToDigits n.natAbs)).data = natToDigits n.natAbs from rfl] at hc
      simp [(digitChars_props c (natToDigits_mem _ c hc)).2.2.2.1]

theorem noUS_cons (c : Char) (l : List Char) (hc : (c == '_') = false)
    (hl : noUS l = true) : noUS (c :: l) = true := by
  simp only [noUS, List.all_cons, hc, Bool.not_false, Bool.true_and]
  exact hl

theorem noUS_append_of (a b : List Char) (ha : noUS a = true) (hb : noUS b = true) :
    noUS (a ++ b) = true := by
  rw [noUS_append, ha, hb]
  rfl

theorem noUS_seg (a b : String) (c : Prop) [Decidable c] (ha : noUS a.data = true)
    (hb : noUS b.data = true) : noUS (if c then a else b).data = true := by
  split_ifs <;> assumption

theorem noUS_phaseTail (s : MVPBuilderState) : noUS (phaseTailData s) = true := by
  unfold phaseTailData
  simp only [noUS_append, Bool.and_eq_true]
  refine ⟨⟨⟨⟨⟨⟨⟨⟨⟨⟨⟨⟨⟨⟨by decide, ?_⟩, by decide⟩, ?_⟩, by decide⟩, ?_⟩, by decide⟩, ?_⟩,
    by decide⟩, ?_⟩, by decide⟩, ?_⟩, by decide⟩, ?_⟩, by decide⟩
  · exact noUS_seg _ _ _ (by decide) (by decide)
  · exact noUS_seg _ _ _ (by decide) (noUS_seg _ _ _ (by decide) (by decide))
  · refine noUS_seg _ _ _ ?_ (noUS_seg _ _ _ (by decide) ?_) <;>
    · simp only [String.data_append]
      simp only [show ("[/] Phase 2: Execute Prompts (" : String).data =
          '[' :: '/' :: ']' :: ' ' :: 'P' :: 'h' :: 'a' :: 's' :: 'e' :: ' ' :: '2' :: ':' :: ' ' :: 'E' :: 'x' :: 'e' :: 'c' :: 'u' :: 't' :: 'e' :: ' ' :: 'P' :: 'r' :: 'o' :: 'm' :: 'p' :: 't' :: 's' :: ' ' :: '(' ::[] from rfl,
        show ("[x] Phase 2: Execute Prompts (" : String).data =
          '[' :: 'x' :: ']' :: ' ' :: 'P' :: 'h' :: 'a' :: 's' :: 'e' :: ' ' :: '2' :: ':' :: ' ' :: 'E' :: 'x' :: 'e' :: 'c' :: 'u' :: 't' :: 'e' :: ' ' :: 'P' :: 'r' :: 'o' :: 'm' :: 'p' :: 't' :: 's' :: ' ' :: '(' ::[] from rfl,
        show ("/" : String).data = ['/'] from rfl,
        show (")" : String).data = [')'] from rfl,
        List.cons_append, List.append_assoc, List.nil_append, List.singleton_append]
      repeat' first
        | (apply noUS_append_of _ _ (jsNum_noUS _))
        | (apply noUS_cons _ _ (by decide))
        | decide
  · exact noUS_seg _ _ _ (by decide) (noUS_seg _ _ _ (by decide) (by decide))
  · exact noUS_seg _ _ _ (by decide) (noUS_seg _ _ _ (by decide) (by decide))
  · exact noUS_seg _ _ _ (by decide) (noUS_seg _ _ _ (by decide) (by decide))
  · exact noUS_seg _ _ _ (by decide) (by decide)

theorem promptList_data : ∀ ps : List PromptInfo, (promptList ps).data = linesData ps := by
  intro ps
  induction ps with
  | nil => rfl
  | cons p rest ih =>
    cases rest with
    | nil => rfl
    | cons q r2 =>
      rw [show promptList (p :: q :: r2) = promptLine p ++ "\n" ++ promptList (q :: r2) from rfl]
      simp only [String.data_append, ih]
      simp [linesData, show ("\n" : String).data = ['\n'] from rfl]

theorem promptList_ne_empty (p : PromptInfo) (ps : List PromptInfo) :
    ¬ promptList (p :: ps) = "" := by
  intro hcon
  have hdata := congrArg String.data hcon
  rw [promptList_data] at hdata
  cases ps with
  | nil => exact promptLine_data_ne_nil p hdata
  | cons q r2 =>
    rw [show linesData (p :: q :: r2) = (promptLine p).data ++ '\n' :: linesData (q :: r2) from rfl] at hdata
    rcases hc : (promptLine p).data with _ | ⟨c, t⟩
    · exact promptLine_data_ne_nil p hc
    · rw [hc] at hdata
      cases hdata

theorem scan_body (s : MVPBuilderState)
    (hgood : ∀ p ∈ s.promptSequence, goodPrompt p = true) :
    scanPromptLines ((bodyData s).length + 1) (bodyData s) = s.promptSequence.map infoOf := by
  by_cases hps : s.promptSequence = []
  · rw [hps, List.map_nil]
    apply scan_noUS
    unfold bodyData plIfData
    rw [hps, show promptList [] = "" from rfl, if_pos rfl]
    apply noUS_cons _ _ (by decide)
    apply noUS_append_of _ _ (by decide)
    apply noUS_cons _ _ (by decide)
    apply noUS_append_of _ _ (by decide)
    apply noUS_cons _ _ (by decide)
    apply noUS_cons _ _ (by decide)
    exact noUS_phaseTail s
  · rcases hcons : s.promptSequence with _ | ⟨p0, ps0⟩
    · exact absurd hcons hps
    rw [← hcons]
    unfold bodyData plIfData
    rw [if_neg (by rw [hcons]; exact promptList_ne_empty p0 ps0)]
    rw [promptList_data]
    rw [show ('\n' :: ("## Prompt Sequence".data ++ '\n' :: (linesData s.promptSequence ++ '\n' :: '\n' :: phaseTailData s)))
        = ('\n' :: ("## Prompt Sequence".data ++ ['\n'])) ++ (linesData s.promptSequence ++ '\n' :: '\n' :: phaseTailData s) from by
      simp]
    rw [show (('\n' :: ("## Prompt Sequence".data ++ ['\n'])) ++ (linesData s.promptSequence ++ '\n' :: '\n' :: phaseTailData s)).length + 1
        = ('\n' :: ("## Prompt Sequence".data ++ ['\n'])).length + ((linesData s.promptSequence ++ '\n' :: '\n' :: phaseTailData s).length + 1) from by
      simp only [List.length_append]
      omega]
    rw [scan_skip_nodash _ _ _ (by decide)]
    apply scan_lines s.promptSequence ('\n' :: '\n' :: phaseTailData s) hgood
      ⟨'\n' :: phaseTailData s, rfl⟩
    · intro f
      apply scan_noUS
      apply noUS_cons _ _ (by decide)
      apply noUS_cons _ _ (by decide)
      exact noUS_phaseTail s
    · omega

theorem beq_boolToString (b : Bool) : (some (boolToString b) == some "true") = b := by
  cases b <;> rfl

theorem jsOrElseStr_of_ne (v d : String) (h : ¬ v = "") : jsOrElseStr (some v) d = v := by
  simp [jsOrElseStr, h]

theorem getArrayValue_round (s : MVPBuilderState) (c : String)
    (hph : noLT s.phase.data = true)
    (hsa : noLT s.startedAt.data = true)
    (hip : noLT s.instructionsPath.data = true)
    (hlc : s.lastCommit = some c) (hcne : ¬ c = "") (hcLT : noLT c.data = true)
    (hrd : ∀ d ∈ s.referenceDocs, ∀ ch ∈ d.data, ¬ ch = '\u2028' ∧ ¬ ch = '\u2029') :
    getArrayValue (fmData s) "reference_docs" = s.referenceDocs := by
  unfold getArrayValue
  rw [c10_rd s hph hsa c hlc hcne hcLT hip hrd]
  dsimp only
  rcases hdocs : s.referenceDocs with _ | ⟨d, ds⟩
  · rw [show jsonStringifyList [] = "[]" from rfl]
    simp
  · have hne := jsonStringifyList_ne d ds
    rw [if_neg (by
      push_neg
      exact ⟨hne.1, hne.2⟩)]
    rw [jsonParse_round _ (List.cons_ne_nil d ds)]

theorem infoOf_self (p : PromptInfo) (h : p.status ≠ PStatus.skipped) : infoOf p = p := by
  rcases p with ⟨f, t, st⟩
  cases st
  · rfl
  · rfl
  · rfl
  · exact absurd rfl h

theorem map_infoOf_self (ps : List PromptInfo)
    (h : ∀ p ∈ ps, p.status ≠ PStatus.skipped) : ps.map infoOf = ps := by
  induction ps with
  | nil => rfl
  | cons p rest ih =>
    rw [List.map_cons, infoOf_self p (h p (List.mem_cons_self p rest)),
      ih (fun e he => h e (List.mem_cons_of_mem p he))]

/-- Claim C10 (amended): serialisation round trip.  For every state whose
phase, started-at and instructions-path fields are non-empty single lines,
whose last commit is a non-empty single line (an absent or empty
`last_commit` is serialised as the literal `null`, which reads back as the
string "null" — see the counterexample), whose reference docs avoid the
line separators U+2028/U+2029, and whose prompt entries have
`prompt_<digits>.md` filenames and non-empty single-line titles, parsing
the file produced by `writeState` yields the original record on every
field except that each prompt status passes through `statusRT`: `pending`,
`in_progress` and `completed` are preserved, while `skipped` is written
with the same checkbox character as `pending` and is therefore read back
as `pending`.  In particular, when no status is `skipped` the round trip
is the identity. -/
theorem claim_C10_roundtrip (s : MVPBuilderState) (nowIso : String) (h : c10Good s = true) :
    parseState nowIso (some (stateFileContent s)) =
      some { s with promptSequence := s.promptSequence.map infoOf } ∧
    ((∀ p ∈ s.promptSequence, p.status ≠ PStatus.skipped) →
      parseState nowIso (some (stateFileContent s)) = some s) ∧
    statusChar PStatus.skipped = statusChar PStatus.pending ∧
    statusRT PStatus.skipped = PStatus.pending := by
  simp only [c10Good, Bool.and_eq_true, decide_eq_true_eq, List.all_eq_true] at h
  obtain ⟨⟨⟨⟨⟨⟨⟨⟨hphne, hph⟩, hsane⟩, hsa⟩, hipne⟩, hip⟩, hlcm⟩, hrdb⟩, hgp⟩ := h
  obtain ⟨c, hlc, hcne, hcLT⟩ : ∃ c, s.lastCommit = some c ∧ c ≠ "" ∧ noLT c.data = true := by
    rcases hsl : s.lastCommit with _ | c
    · rw [hsl] at hlcm; simp at hlcm
    · rw [hsl] at hlcm
      simp only [Bool.and_eq_true, decide_eq_true_eq] at hlcm
      exact ⟨c, rfl, hlcm.1, hlcm.2⟩
  have hrd : ∀ d ∈ s.referenceDocs, ∀ ch ∈ d.data, ¬ ch = '\u2028' ∧ ¬ ch = '\u2029' := by
    intro d hd ch hch
    have h2 := hrdb d hd ch hch
    simpa [Bool.not_eq_true', beq_eq_false_iff_ne] using h2
  have hgood : ∀ p ∈ s.promptSequence, goodPrompt p = true := fun p hp => hgp p hp
  have hmain : parseState nowIso (some (stateFileContent s)) =
      some { s with promptSequence := s.promptSequence.map infoOf } := by
    simp only [parseState]
    rw [c10_fmsplit s c hph hsa hip hlc hcne hcLT hrd]
    dsimp only
    rw [c10_active s, beq_boolToString]
    rw [c10_phase s hph, jsOrElseStr_of_ne _ _ hphne]
    rw [c10_cpi s hph, jsOrElseStr_of_ne _ _ (jsNumToString_ne_empty _), jsParseInt_round]
    rw [c10_tp s hph, jsOrElseStr_of_ne _ _ (jsNumToString_ne_empty _), jsParseInt_round]
    rw [scan_body s hgood]
    rw [c10_sa s hph hsa, jsOrElseStr_of_ne _ _ hsane]
    rw [c10_lc s hph hsa c hlc hcne hcLT]
    rw [c10_ip s hph hsa c hlc hcne hcLT hip, jsOrElseStr_of_ne _ _ hipne]
    rw [getArrayValue_round s c hph hsa hip hlc hcne hcLT hrd]
    rw [c10_mi s hph hsa c hlc hcne hcLT hip hrd,
      jsOrElseStr_of_ne _ _ (jsNumToString_ne_empty _), jsParseInt_round]
    rw [c10_ci s hph hsa c hlc hcne hcLT hip hrd,
      jsOrElseStr_of_ne _ _ (jsNumToString_ne_empty _), jsParseInt_round]
    rw [← hlc]
  refine ⟨hmain, ?_, rfl, rfl⟩
  intro hns
  rw [hmain, map_infoOf_self _ hns]

set_option maxRecDepth 10000 in
/-- Claim C10, counterexample to the frozen wording: `c10ex` satisfies the
claim's stated hypotheses (non-empty single-line titles, statuses among
pending/in-progress/completed), yet parsing the file written for it does
not return a record equal to the original on every field: its absent
`last_commit` is serialised as the literal `null` and parsed back as the
string "null". -/
theorem claim_C10_counterexample :
    (∀ p ∈ c10ex.promptSequence, ¬ p.title = "" ∧ noLT p.title.data = true ∧
      p.status ≠ PStatus.skipped) ∧
    parseState "T" (some (stateFileContent c10ex)) = some { c10ex with lastCommit := some "null" } ∧
    ¬ parseState "T" (some (stateFileContent c10ex)) = some c10ex := by
  refine ⟨by decide, ?_, ?_⟩ <;> decide

set_option maxRecDepth 10000 in
theorem claim_C10_witness :
    c10Good c10wit = true ∧
    parseState "T" (some (stateFileContent c10wit)) =
      some { c10wit with promptSequence := c10wit.promptSequence.map infoOf } :=
  ⟨by decide, (claim_C10_roundtrip c10wit "T" (by decide)).1⟩

end MvpBuilder
